import Mathlib

/-!
# p938x wireless-charging receiver driver: embedding and verification

Shallow embedding of `drivers/power/p938x_charger/p938x_charger.c`.

* The chip structure becomes the record `Chip`; the six bits of `chip->flags`
  are six booleans.
* Every call into the kernel (regmap, gpio, power-supply core, work queue,
  wake-up source, firmware loader, `msleep`, and the calls made while the
  device is set up) is recorded in a chronological event log.  Calls that
  return something take their answer from an oracle `Env : Nat → Resp`,
  indexed by the number of answered calls so far, so that theorems quantify
  over every possible behaviour of the bus.
* Machine integers are naturals with explicit reductions modulo `2^8`,
  `2^16`, `2^32`.  The driver is built for little-endian ARM, where plain
  `char` is unsigned; byte buffers are lists of naturals below 256.
-/

namespace P938x

/-! ## Register map and constants -/

def DEV_STATUS_REG : Nat := 0x0034
def IRQ_STATUS_REG : Nat := 0x0036
def IRQ_ENABLE_REG : Nat := 0x0038
def IRQ_CLEAR_REG : Nat := 0x003a
def VOUT_SET_REG : Nat := 0x003c
def ILIMIT_SET_REG : Nat := 0x003d
def VRECT_READ_REG : Nat := 0x0040
def VOUT_READ_REG : Nat := 0x0042
def IOUT_READ_REG : Nat := 0x0044
def SYS_MODE_REG : Nat := 0x004a
def SYS_CMD_REG : Nat := 0x004C

def ST_TX_CONFLICT : Nat := 2 ^ 14
def ST_VOUT_ON : Nat := 2 ^ 7
def ST_VRECT_ON : Nat := 2 ^ 6

def SYS_MODE_RAMCODE : Nat := 2 ^ 6
def SYS_MODE_EXTENDED : Nat := 2 ^ 3
def SYS_MODE_TXMODE : Nat := 2 ^ 2
def SYS_MODE_WPCMODE : Nat := 2 ^ 0

def CMD_RX_CLR_IRQ : Nat := 2 ^ 5
def CMD_RX_TOGGLE_LDO : Nat := 2 ^ 1

def HEARTBEAT_INTERVAL_MS : Nat := 60000

def BPP_MAX_VOUT : Nat := 5000
def BPP_MAX_IOUT : Nat := 1600
def EPP_MAX_VOUT : Nat := 12000
def EPP_MAX_IOUT : Nat := 1600

def MIN_VOUT_SET : Nat := 5000
def MAX_VOUT_SET : Nat := 12000
def MIN_IOUT_SET : Nat := 500
def MAX_IOUT_SET : Nat := 3000

def EINVAL : Int := 22
def EBUSY : Int := 16
def EAGAIN : Int := 11
def ENOMEM : Int := 12

def FW_MTP_CHECK_ST_RETRY_CNT : Nat := 30
def FW_MTP_PACK_HEADER_LEN : Nat := 8
def FW_MTP_PADDING : Nat := 8
def FW_MTP_PACK_DATA_LEN : Nat := 128
def FW_MTP_PACK_SIZE : Nat :=
  FW_MTP_PACK_HEADER_LEN + FW_MTP_PACK_DATA_LEN + FW_MTP_PADDING

/-- The boot-loader image `mtp_downloader[]`, byte for byte. -/
def mtp_downloader : List Nat := [
0x00, 0x04, 0x00, 0x20, 0xE7, 0x00, 0x00, 0x00,
  0x41, 0x00, 0x00, 0x00, 0x41, 0x00, 0x00, 0x00,
  0x00, 0x00, 0x00, 0x00, 0x00, 0x00, 0x00, 0x00,
  0x00, 0x00, 0x00, 0x00, 0x00, 0x00, 0x00, 0x00,
  0x00, 0x00, 0x00, 0x00, 0x00, 0x00, 0x00, 0x00,
  0x00, 0x00, 0x00, 0x00, 0x41, 0x00, 0x00, 0x00,
  0x00, 0x00, 0x00, 0x00, 0x00, 0x00, 0x00, 0x00,
  0x41, 0x00, 0x00, 0x00, 0x00, 0x00, 0x00, 0x00,
  0xFE, 0xE7, 0x00, 0x00, 0xF0, 0xB5, 0x42, 0x49,
  0x00, 0x20, 0x0A, 0x88, 0x05, 0x46, 0x93, 0x06,
  0x00, 0xD5, 0x04, 0x20, 0xD2, 0x06, 0x07, 0xD5,
  0x8A, 0x78, 0x0B, 0x79, 0x1A, 0x43, 0x92, 0x07,
  0x02, 0xD1, 0x20, 0x22, 0x10, 0x43, 0x01, 0x25,
  0x3A, 0x4B, 0x5A, 0x22, 0x1A, 0x74, 0x39, 0x4A,
  0x20, 0x3A, 0x10, 0x72, 0x02, 0x20, 0x40, 0x1C,
  0x20, 0x28, 0xFC, 0xD3, 0xFF, 0x20, 0x36, 0x4B,
  0x01, 0x30, 0x98, 0x81, 0x48, 0x88, 0xDC, 0x13,
  0x04, 0x19, 0x00, 0x2D, 0x09, 0xD0, 0x00, 0x20,
  0x03, 0xE0, 0x45, 0x18, 0xAD, 0x68, 0x25, 0x50,
  0x00, 0x1D, 0x8D, 0x88, 0x85, 0x42, 0xF8, 0xD8,
  0x08, 0xE0, 0x00, 0x20, 0x03, 0xE0, 0x45, 0x18,
  0x2D, 0x7A, 0x25, 0x54, 0x40, 0x1C, 0x8D, 0x88,
  0x85, 0x42, 0xF8, 0xD8, 0x00, 0x20, 0x10, 0x72,
  0x28, 0x48, 0x98, 0x81, 0x02, 0x20, 0x00, 0x23,
  0x1A, 0x46, 0x0B, 0xE0, 0x57, 0x18, 0x3E, 0x7A,
  0xA5, 0x5C, 0xAE, 0x42, 0x05, 0xD0, 0x3D, 0x72,
  0x00, 0x2B, 0x00, 0xD1, 0x4A, 0x80, 0x04, 0x20,
  0x5B, 0x1C, 0x52, 0x1C, 0x8D, 0x88, 0x95, 0x42,
  0xF0, 0xD8, 0x8B, 0x80, 0xF0, 0xBD, 0x1F, 0x49,
  0x1D, 0x48, 0x08, 0x60, 0x1A, 0x48, 0x08, 0x25,
  0x40, 0x38, 0x85, 0x83, 0x5A, 0x21, 0x01, 0x70,
  0x01, 0x21, 0x01, 0x71, 0x05, 0x21, 0x01, 0x72,
  0x19, 0x49, 0x81, 0x81, 0x12, 0x4F, 0x00, 0x20,
  0x38, 0x80, 0xFF, 0x20, 0x40, 0x1E, 0xFD, 0xD1,
  0x02, 0x26, 0x38, 0x78, 0x3C, 0x46, 0xC0, 0x07,
  0xFB, 0xD0, 0x60, 0x88, 0xA2, 0x88, 0x10, 0x18,
  0x81, 0xB2, 0x00, 0x20, 0x04, 0xE0, 0x03, 0x19,
  0x1B, 0x7A, 0x59, 0x18, 0x89, 0xB2, 0x40, 0x1C,
  0x82, 0x42, 0xF8, 0xD8, 0xE0, 0x88, 0x88, 0x42,
  0x01, 0xD0, 0x3D, 0x80, 0xE9, 0xE7, 0x00, 0x2A,
  0x03, 0xD0, 0xFF, 0xF7, 0x7F, 0xFF, 0x20, 0x80,
  0xE3, 0xE7, 0x3E, 0x80, 0xE1, 0xE7, 0x00, 0x00,
  0x00, 0x04, 0x00, 0x20, 0x40, 0x5C, 0x00, 0x40,
  0x40, 0x30, 0x00, 0x40, 0xFF, 0x01, 0x00, 0x00,
  0xFF, 0x0F, 0x00, 0x00, 0x80, 0xE1, 0x00, 0xE0,
  0x04, 0x0E, 0x00, 0x00 ]

/-! ## Environment: return codes, oracle, event log -/

/-- Return code of a kernel call: `0`, or a negative errno `-(e+1)`. -/
inductive Rc where
  | ok : Rc
  | err (e : Nat) : Rc
deriving DecidableEq, Repr

/-- The C integer carried by a return code. -/
def Rc.toInt : Rc → Int
  | Rc.ok => 0
  | Rc.err e => -((e : Int) + 1)

/-- Answer of the outside world to one call: a return code and, for calls
that deliver data (register reads, property reads, the firmware loader),
the delivered values. -/
structure Resp where
  rc : Rc
  data : List Nat
deriving DecidableEq, Repr

/-- Oracle for the outside world: the answer to the `n`-th answered call. -/
abbrev Env := Nat → Resp

/-- The GPIO lines the driver drives or samples. -/
inductive Gpio where
  | wchg_en_n : Gpio
  | wchg_boost : Gpio
  | wchg_det : Gpio
  | wchg_int_n : Gpio
  | wchg_sleep : Gpio
deriving DecidableEq, Repr

/-- Properties written on the `dc` power supply. -/
inductive DcProp where
  | input_suspend : DcProp
  | pin_enabled : DcProp
deriving DecidableEq, Repr

/-- Calls into the kernel that are made only while the device is set up
(`p938x_charger_probe` and the functions it calls). -/
inductive SetupCall where
  | devm_kzalloc : SetupCall
  | regmap_init_i2c : SetupCall
  | of_node : SetupCall
  | of_find_property_vdd_i2c : SetupCall
  | devm_regulator_get : SetupCall
  | of_gpio_count : SetupCall
  | of_get_gpio_flags (idx : Nat) : SetupCall
  | of_get_property_pinctrl_names : SetupCall
  | power_supply_register : SetupCall
  | power_supply_unregister : SetupCall
  | regulator_count_voltages : SetupCall
  | regulator_set_voltage (min_uV max_uV : Nat) : SetupCall
  | regulator_enable : SetupCall
  | regulator_disable : SetupCall
  | pinctrl_get_select : SetupCall
  | gpio_request_one (line : Gpio) : SetupCall
  | gpio_direction_output (line : Gpio) (val : Nat) : SetupCall
  | gpio_direction_input (line : Gpio) : SetupCall
  | gpio_to_irq (line : Gpio) : SetupCall
  | power_supply_get_by_name_dc : SetupCall
  | request_threaded_irq (line : Gpio) : SetupCall
  | enable_irq_wake : SetupCall
  | wakeup_source_init : SetupCall
  | create_debugfs_entries : SetupCall
  | sysfs_create_groups : SetupCall
  | devm_kfree : SetupCall
deriving DecidableEq, Repr

/-- Calls into the kernel that the driver performs, as they appear in the log. -/
inductive Ev where
  | reg_write (reg val : Nat) : Ev
  | reg_read (reg : Nat) : Ev
  | bulk_read (reg size : Nat) : Ev
  | gpio_set (line : Gpio) (val : Nat) : Ev
  | gpio_get (line : Gpio) : Ev
  | psy_changed : Ev
  | cancel_work : Ev
  | schedule_work (ms : Nat) : Ev
  | stay_awake : Ev
  | relax : Ev
  | dc_set (prop : DcProp) (val : Int) : Ev
  | usb_lookup : Ev
  | usb_get_present : Ev
  | request_firmware : Ev
  | release_firmware : Ev
  | msleep (ms : Nat) : Ev
  | setup (call : SetupCall) : Ev
deriving DecidableEq, Repr

/-- Values of `chip->program_fw_stat`. -/
inductive FwStat where
  | PROGRAM_FW_NONE : FwStat
  | PROGRAM_FW_PENDING : FwStat
  | PROGRAM_FW_SUCCESS : FwStat
  | PROGRAM_FW_FAIL : FwStat
deriving DecidableEq, Repr

/-- The fields of `struct p938x_charger` that the control logic reads or
writes.  `heartbeat` is the pending state of `chip->heartbeat_work`
(`some ms`: queued with that delay). -/
structure Chip where
  boost_enabled : Bool
  tx_attached : Bool
  keep_awake : Bool
  tx_mode_en : Bool
  usb_connected : Bool
  usb_keep_on : Bool
  stat : Nat
  irq_stat : Nat
  wired_connected : Bool
  wls_vout_max : Nat
  wls_iout_max : Nat
  epp_mode : Bool
  program_fw_stat : FwStat
  fw_name_set : Bool
  usb_psy : Bool
  dc_psy : Bool
  heartbeat : Option Nat
deriving DecidableEq, Repr

/-- The chip structure as `devm_kzalloc` and a successful probe leave it:
everything zero, the `dc` supply found. -/
def Chip.init : Chip :=
  { boost_enabled := false, tx_attached := false, keep_awake := false,
    tx_mode_en := false, usb_connected := false, usb_keep_on := false,
    stat := 0, irq_stat := 0, wired_connected := false,
    wls_vout_max := 0, wls_iout_max := 0, epp_mode := false,
    program_fw_stat := FwStat.PROGRAM_FW_NONE, fw_name_set := false,
    usb_psy := false, dc_psy := true, heartbeat := none }

/-- Driver state together with the position in the oracle and the log of
calls made so far (oldest first). -/
structure St where
  chip : Chip
  tick : Nat
  log : List Ev
deriving DecidableEq, Repr

/-- A call with no answer: only logged. -/
def St.emit (s : St) (e : Ev) : St :=
  { s with log := s.log ++ [e] }

/-- A call with an answer: logged, and the oracle advances. -/
def St.ask (env : Env) (s : St) (e : Ev) : Resp × St :=
  (env s.tick, { s with tick := s.tick + 1, log := s.log ++ [e] })

/-! ## Kernel services -/

def msleep (s : St) (ms : Nat) : St := s.emit (Ev.msleep ms)

/-- Single register write; returns `0` or a negative errno. -/
def regmap_write (env : Env) (s : St) (reg val : Nat) : Int × St :=
  let (r, s1) := s.ask env (Ev.reg_write reg val)
  (r.rc.toInt, s1)

/-- Single register read; returns the code and the `unsigned int` read. -/
def regmap_read (env : Env) (s : St) (reg : Nat) : Int × Nat × St :=
  let (r, s1) := s.ask env (Ev.reg_read reg)
  (r.rc.toInt, r.data.headD 0, s1)

/-- Bulk read of `size` consecutive 8-bit registers. -/
def regmap_bulk_read (env : Env) (s : St) (reg size : Nat) : Int × List Nat × St :=
  let (r, s1) := s.ask env (Ev.bulk_read reg size)
  (r.rc.toInt, (List.range size).map (fun i => r.data.getD i 0 % 256), s1)

def gpio_set_value (s : St) (line : Gpio) (val : Nat) : St :=
  s.emit (Ev.gpio_set line val)

def gpio_get_value (env : Env) (s : St) (line : Gpio) : Nat × St :=
  let (r, s1) := s.ask env (Ev.gpio_get line)
  (r.data.headD 0, s1)

def power_supply_changed (s : St) : St := s.emit Ev.psy_changed

/-- Removes the heartbeat from the queue if it is pending. -/
def cancel_delayed_work (s : St) : St :=
  { s with chip := { s.chip with heartbeat := none }, log := s.log ++ [Ev.cancel_work] }

/-- Queues the heartbeat unless it is already pending. -/
def schedule_delayed_work (s : St) (ms : Nat) : St :=
  { s with
    chip := { s.chip with
      heartbeat := if s.chip.heartbeat.isSome then s.chip.heartbeat else some ms },
    log := s.log ++ [Ev.schedule_work ms] }

def pm_stay_awake (s : St) : St := s.emit Ev.stay_awake

def pm_relax (s : St) : St := s.emit Ev.relax

/-- Little-endian value of a byte list. -/
def le_val : List Nat → Nat
  | [] => 0
  | b :: bs => b + 256 * le_val bs

/-- The two bytes of a `u16` in memory order (little-endian). -/
def u16_bytes (v : Nat) : List Nat := [v % 256, v / 256 % 256]

/-! ## Driver functions -/

def p938x_is_chip_on (c : Chip) : Bool :=
  c.boost_enabled || c.tx_attached

def p938x_is_tx_connected (c : Chip) : Bool :=
  p938x_is_chip_on c && (c.stat &&& ST_VRECT_ON != 0)

def p938x_is_ldo_on (c : Chip) : Bool :=
  p938x_is_chip_on c && (c.stat &&& ST_VOUT_ON != 0)

/-- Reads one register into `*val`; `val` is the previous content of the
destination, kept when the read fails. -/
def p938x_read_reg (env : Env) (s : St) (reg : Nat) (val : Nat) : Int × Nat × St :=
  let (rc, temp, s1) := regmap_read env s reg
  if rc ≥ 0 then (rc, temp % 256, s1) else (rc, val, s1)

def p938x_write_reg (env : Env) (s : St) (reg val : Nat) : Int × St :=
  regmap_write env s reg val

def p938x_reset (env : Env) (s : St) : St :=
  let (_, s1) := p938x_write_reg env s 0x3040 0x80
  msleep s1 100

def p938x_pm_set_awake (s : St) (awake : Bool) : St :=
  if !s.chip.keep_awake && awake then
    let s1 := pm_stay_awake s
    { s1 with chip := { s1.chip with keep_awake := true } }
  else if s.chip.keep_awake && !awake then
    let s1 := pm_relax s
    { s1 with chip := { s1.chip with keep_awake := false } }
  else s

def p938x_handle_wls_removal (env : Env) (s : St) : St :=
  if s.chip.tx_attached then
    let s1 := { s with chip := { s.chip with tx_attached := false } }
    let s2 := power_supply_changed s1
    let s3 := cancel_delayed_work s2
    let s4 := { s3 with chip := { s3.chip with stat := 0, irq_stat := 0 } }
    if !s4.chip.boost_enabled then
      let s5 := p938x_pm_set_awake s4 false
      p938x_reset env s5
    else s4
  else s

/-- Bulk read with `DETACH_ON_READ_FAILURE` defined: a failed read runs the
removal handler. -/
def p938x_read_buffer (env : Env) (s : St) (reg size : Nat) : Int × List Nat × St :=
  let (rc, buf, s1) := regmap_bulk_read env s reg size
  if rc ≠ 0 then (rc, buf, p938x_handle_wls_removal env s1) else (rc, buf, s1)

/-- Writes the bytes one register at a time and stops at the first failure;
`rc` is the code of the last write made (`0` when there is none). -/
def p938x_write_buffer (env : Env) (s : St) (reg : Nat) (buf : List Nat) (rc : Int) :
    Int × St :=
  match buf with
  | [] => (rc, s)
  | b :: bs =>
    let (rc1, s1) := regmap_write env s reg b
    if rc1 < 0 then (rc1, s1) else p938x_write_buffer env s1 (reg + 1) bs rc1

def p938x_set_rx_vout (env : Env) (s : St) (mv : Nat) : Int × St :=
  if !p938x_is_chip_on s.chip then (1, s)
  else
    let mv := if mv < MIN_VOUT_SET then MIN_VOUT_SET
              else if mv > MAX_VOUT_SET then MAX_VOUT_SET else mv
    p938x_write_reg env s VOUT_SET_REG (mv / 100 % 256)

def p938x_set_rx_ocl (env : Env) (s : St) (ma : Nat) : Int × St :=
  if !p938x_is_chip_on s.chip then (1, s)
  else
    let ma := if ma < MIN_IOUT_SET then MIN_IOUT_SET
              else if ma > MAX_IOUT_SET then MAX_IOUT_SET else ma
    p938x_write_reg env s ILIMIT_SET_REG ((ma - 100) / 100 % 256)

/-! ### External supplies -/

/-- Looks the `usb` supply up by name; tells whether it exists. -/
def power_supply_get_by_name_usb (env : Env) (s : St) : Bool × St :=
  let (r, s1) := s.ask env Ev.usb_lookup
  (r.rc == Rc.ok, s1)

/-- Reads `POWER_SUPPLY_PROP_PRESENT` of the `usb` supply. -/
def power_supply_get_property_present (env : Env) (s : St) : Int × Nat × St :=
  let (r, s1) := s.ask env Ev.usb_get_present
  (r.rc.toInt, r.data.headD 0, s1)

/-- Writes a property of the `dc` supply. -/
def power_supply_set_property_dc (env : Env) (s : St) (psp : DcProp) (val : Int) :
    Int × St :=
  let (r, s1) := s.ask env (Ev.dc_set psp val)
  (r.rc.toInt, s1)

/-- Asks the firmware loader for the image named in `chip->fw_name`. -/
def request_firmware (env : Env) (s : St) : Int × List Nat × St :=
  let (r, s1) := s.ask env Ev.request_firmware
  (r.rc.toInt, r.data.map (fun b => b % 256), s1)

def release_firmware (s : St) : St := s.emit Ev.release_firmware

def p938x_enable_charging (env : Env) (s : St) (_on : Bool) : Int × St :=
  if !p938x_is_tx_connected s.chip then (1, s)
  else p938x_write_reg env s SYS_CMD_REG CMD_RX_TOGGLE_LDO

def p938x_update_supplies_status (env : Env) (s : St) : Int × St :=
  let (found, s1) :=
    if !s.chip.usb_psy then power_supply_get_by_name_usb env s else (true, s)
  let s2 := { s1 with chip := { s1.chip with usb_psy := found } }
  if !s2.chip.usb_psy then (-EINVAL, s2)
  else
    let (rc, intval, s3) := power_supply_get_property_present env s2
    if rc ≠ 0 then (rc, s3)
    else
      let s4 := { s3 with chip := { s3.chip with wired_connected := (intval != 0) } }
      if s4.chip.wired_connected && !s4.chip.usb_connected then
        let s5 := { s4 with chip := { s4.chip with usb_connected := true } }
        if s5.chip.tx_mode_en then (0, s5)
        else if s5.chip.usb_keep_on then (0, s5)
        else (0, gpio_set_value s5 Gpio.wchg_en_n 1)
      else if !s4.chip.wired_connected && s4.chip.usb_connected then
        let s5 := { s4 with chip := { s4.chip with usb_connected := false } }
        (0, gpio_set_value s5 Gpio.wchg_en_n 0)
      else (0, s4)

def p938x_clear_irq (env : Env) (s : St) (mask : Nat) : St :=
  let (_, s1) := p938x_write_buffer env s IRQ_CLEAR_REG (u16_bytes mask) 0
  let (_, s2) := p938x_write_reg env s1 SYS_CMD_REG CMD_RX_CLR_IRQ
  s2

def p938x_set_boost (s : St) (val : Int) : St :=
  let s1 := gpio_set_value s Gpio.wchg_boost (if val ≠ 0 then 1 else 0)
  if val ≠ 0 then
    let s2 := { s1 with chip := { s1.chip with boost_enabled := true } }
    p938x_pm_set_awake s2 true
  else
    let s2 := { s1 with chip := { s1.chip with boost_enabled := false } }
    if !p938x_is_chip_on s2.chip then p938x_pm_set_awake s2 false else s2

def p938x_set_dc_psp_prop (env : Env) (s : St) (psp : DcProp) (val : Int) : Int × St :=
  if s.chip.dc_psy then power_supply_set_property_dc env s psp val else (1, s)

def p938x_set_dc_suspend (env : Env) (s : St) (en : Int) : Int × St :=
  p938x_set_dc_psp_prop env s DcProp.input_suspend en

def p938x_set_dc_en_override (env : Env) (s : St) (en : Int) : Int × St :=
  p938x_set_dc_psp_prop env s DcProp.pin_enabled en

def p938x_set_tx_mode (env : Env) (s : St) (val : Int) : St :=
  if s.chip.tx_attached then s
  else if val ≠ 0 then
    if s.chip.tx_mode_en then s
    else
      let s1 := if s.chip.usb_connected then gpio_set_value s Gpio.wchg_en_n 0 else s
      let (_, s2) := p938x_set_dc_suspend env s1 1
      let (_, s3) := p938x_set_dc_en_override env s2 1
      let s4 := if !p938x_is_chip_on s3.chip then msleep (p938x_set_boost s3 1) 100 else s3
      let (rc, s5) := p938x_write_reg env s4 SYS_MODE_REG SYS_MODE_TXMODE
      if rc < 0 then
        let s6 := p938x_set_boost s5 0
        let (_, s7) := p938x_set_dc_en_override env s6 0
        let (_, s8) := p938x_set_dc_suspend env s7 0
        s8
      else { s5 with chip := { s5.chip with tx_mode_en := true } }
  else
    if !s.chip.tx_mode_en then s
    else
      let (_, buf, s1) := p938x_read_reg env s SYS_MODE_REG 0
      let (_, s2) := p938x_write_reg env s1 SYS_MODE_REG (buf &&& (255 - SYS_MODE_TXMODE))
      let s3 := p938x_set_boost s2 0
      let (_, s4) := p938x_set_dc_en_override env s3 0
      let (_, s5) := p938x_set_dc_suspend env s4 0
      let s6 := { s5 with chip := { s5.chip with tx_mode_en := false } }
      if s6.chip.usb_connected && !s6.chip.usb_keep_on then
        gpio_set_value s6 Gpio.wchg_en_n 1
      else s6

/-! ### Firmware upload -/

/-- The loop `for (i = 0; i < n; i++) rc = p938x_write_reg(chip, base + i, buf[i])`
leaving at the first negative code; `rc` is the code held on entry. -/
def write_reg_loop (env : Env) (s : St) (reg : Nat) (buf : List Nat) (rc : Int) :
    Int × St :=
  match buf with
  | [] => (rc, s)
  | b :: bs =>
    let (rc1, s1) := p938x_write_reg env s reg b
    if rc1 < 0 then (rc1, s1) else write_reg_loop env s1 (reg + 1) bs rc1

def p938x_program_mtp_downloader (env : Env) (s : St) : Int × St :=
  let (rc, s1) := p938x_write_reg env s 0x3000 0x5a
  if rc < 0 then (rc, s1)
  else
    let s2 := msleep s1 10
    let (rc, s3) := p938x_write_reg env s2 0x3040 0x10
    if rc < 0 then (rc, s3)
    else
      let s4 := msleep s3 10
      let (rc, s5) := write_reg_loop env s4 0x1c00 mtp_downloader rc
      if rc < 0 then (rc, s5)
      else
        let (rc, s6) := p938x_write_reg env s5 0x400 0x00
        if rc < 0 then (rc, s6)
        else
          let (rc, s7) := p938x_write_reg env s6 0x3048 0x80
          if rc < 0 then (rc, s7)
          else (rc, p938x_reset env s7)

/-- Rounds a `u32` up to a multiple of 16, in 32-bit arithmetic. -/
def align_16 (val : Nat) : Nat :=
  (val + 15) % 2 ^ 32 / 16 * 16

/-- Copies `bytes` into `buf` at offset `off`. -/
def memcpy (buf : List Nat) (off : Nat) (bytes : List Nat) : List Nat :=
  buf.take off ++ bytes ++ buf.drop (off + bytes.length)

/-- Unpadded payload length chosen by `p938x_program_mtp_package`:
128, or `size - addr` (in `u32` arithmetic) when that is smaller. -/
def mtp_code_len (addr size : Nat) : Nat :=
  if (size + 2 ^ 32 - addr) % 2 ^ 32 < FW_MTP_PACK_DATA_LEN then
    (size + 2 ^ 32 - addr) % 2 ^ 32 % 2 ^ 16
  else FW_MTP_PACK_DATA_LEN

/-- Padded payload length (`code_len` after `align_16`, a `u16`). -/
def mtp_padded_len (addr size : Nat) : Nat :=
  align_16 (mtp_code_len addr size) % 2 ^ 16

/-- Total packet length. -/
def mtp_packet_len (addr size : Nat) : Nat :=
  align_16 (mtp_padded_len addr size + FW_MTP_PACK_HEADER_LEN)

/-- The loop `for (i = n - 1; i >= 0; i--) check_sum += buf[i + 8]` on a
`u16` accumulator.  `buf` is declared `char[]`; plain `char` is unsigned under
the ARM Linux ABI the driver is built for, so each element is added as a
value in `0..255`. -/
def mtp_sum_loop (buf : List Nat) : Nat → Nat → Nat
  | 0, check_sum => check_sum
  | i + 1, check_sum =>
    mtp_sum_loop buf i ((check_sum + buf.getD (i + FW_MTP_PACK_HEADER_LEN) 0) % 2 ^ 16)

/-- The packet buffer after step (1): zeroed, payload copied behind the
header.  Bytes the image does not supply are taken as zero. -/
def mtp_buf_payload (src : List Nat) (addr size : Nat) : List Nat :=
  memcpy (List.replicate FW_MTP_PACK_SIZE 0) FW_MTP_PACK_HEADER_LEN
    ((List.range (mtp_code_len addr size)).map (fun i => src.getD i 0))

/-- The checksum of step (2). -/
def mtp_check_sum (src : List Nat) (addr size : Nat) : Nat :=
  (mtp_sum_loop (mtp_buf_payload src addr size) (mtp_padded_len addr size) addr
    + mtp_padded_len addr size) % 2 ^ 16

/-- The packet buffer after step (3): address, length and checksum filled in. -/
def mtp_packet_buf (src : List Nat) (addr size : Nat) : List Nat :=
  let buf := mtp_buf_payload src addr size
  let buf := memcpy buf 2 (u16_bytes addr)
  let buf := memcpy buf 4 (u16_bytes (mtp_padded_len addr size))
  memcpy buf 6 (u16_bytes (mtp_check_sum src addr size))

/-- The status wait of `p938x_program_mtp_package`:
`do { msleep(20); read; if (retry_cnt++ > 30) break; } while (buf[0] == 1)`.
`buf0` is the content of `buf[0]` on entry; the result is `buf[0]` on exit. -/
def mtp_status_wait (env : Env) (s : St) (buf0 : Nat) (retry_cnt : Nat) : Nat × St :=
  let s1 := msleep s 20
  let r := p938x_read_reg env s1 0x400 buf0
  if retry_cnt > FW_MTP_CHECK_ST_RETRY_CNT then (r.2.1, r.2.2)
  else if r.2.1 = 1 then mtp_status_wait env r.2.2 r.2.1 (retry_cnt + 1)
  else (r.2.1, r.2.2)
termination_by FW_MTP_CHECK_ST_RETRY_CNT + 1 - retry_cnt
decreasing_by
  simp only [FW_MTP_CHECK_ST_RETRY_CNT] at *
  omega

/-- Builds and sends one packet; `src` points at the chunk, `addr` is its
`u16` address, `size` the `u32` image size. -/
def p938x_program_mtp_package (env : Env) (s : St) (src : List Nat) (addr size : Nat) :
    Int × St :=
  let buf := mtp_packet_buf src addr size
  let packet_len := mtp_packet_len addr size
  let (rc, s1) := write_reg_loop env s 0x400 (buf.take packet_len) 0
  if rc < 0 then (rc, s1)
  else
    let (rc, s2) := p938x_write_reg env s1 0x400 0x1
    if rc < 0 then (rc, s2)
    else
      let (b, s3) := mtp_status_wait env s2 (buf.getD 0 0) 0
      if b ≠ 2 then (-EAGAIN, s3) else (0, s3)

/-- The chunk loop of `p938x_program_mtp`,
`for (i = 0; i < size; i += 128) { rc = pkg(src, i, size); if (rc < 0) return rc; src += 128; }`,
with the per-chunk call as a parameter; the `u16` address handed to it is
`i` truncated.  `some rc` is an early return. -/
def mtp_chunk_loop (pkg : St → List Nat → Nat → Nat → Int × St) (s : St) (src : List Nat)
    (i size : Nat) : Option Int × St :=
  if i < size then
    let r := pkg s src (i % 2 ^ 16) size
    if r.1 < 0 then (some r.1, r.2)
    else mtp_chunk_loop pkg r.2 (src.drop FW_MTP_PACK_DATA_LEN) (i + FW_MTP_PACK_DATA_LEN) size
  else (none, s)
termination_by size - i
decreasing_by
  simp only [FW_MTP_PACK_DATA_LEN]
  omega

def p938x_program_mtp (env : Env) (s : St) (src : List Nat) (size : Nat) : Int × St :=
  match mtp_chunk_loop (p938x_program_mtp_package env) s src 0 size with
  | (some rc, s1) => (rc, s1)
  | (none, s1) =>
    let (rc, s2) := p938x_write_reg env s1 0x3000 0x5a
    if rc < 0 then (rc, s2)
    else
      let (rc, s3) := p938x_write_reg env s2 0x3048 0x00
      if rc < 0 then (rc, s3)
      else (rc, p938x_reset env s3)

def p938x_program_fw (env : Env) (s : St) : Int × St :=
  if !s.chip.fw_name_set then (-EINVAL, s)
  else if s.chip.program_fw_stat = FwStat.PROGRAM_FW_PENDING then (-EBUSY, s)
  else
    let s1 := { s with chip := { s.chip with program_fw_stat := FwStat.PROGRAM_FW_PENDING } }
    let (rc, fw, s2) := request_firmware env s1
    if rc < 0 then
      (rc, { s2 with chip := { s2.chip with program_fw_stat := FwStat.PROGRAM_FW_FAIL } })
    else
      let s3 := msleep (p938x_set_boost s2 1) 100
      let (rc, s4) := p938x_program_mtp_downloader env s3
      if rc < 0 then
        let s5 := { s4 with chip := { s4.chip with program_fw_stat := FwStat.PROGRAM_FW_FAIL } }
        (rc, p938x_set_boost (release_firmware s5) 0)
      else
        let (rc, s5) := p938x_program_mtp env s4 fw (fw.length % 2 ^ 32)
        if rc < 0 then
          let s6 := { s5 with chip := { s5.chip with program_fw_stat := FwStat.PROGRAM_FW_FAIL } }
          (rc, p938x_set_boost (release_firmware s6) 0)
        else
          let s6 := { s5 with chip := { s5.chip with program_fw_stat := FwStat.PROGRAM_FW_SUCCESS } }
          (rc, p938x_set_boost (release_firmware s6) 0)

/-- The payload region of the packet buffer (offsets 8 to 143): the copied
bytes, then the zero fill left by `memset`. -/
def mtp_payload_region (src : List Nat) (addr size : Nat) : List Nat :=
  (List.range (mtp_code_len addr size)).map (fun i => src.getD i 0)
    ++ List.replicate (136 - mtp_code_len addr size) 0

/-- The bytes of a packet that go on the wire: the first `packet_len` bytes
of the packet buffer. -/
def mtp_wire (src : List Nat) (addr size : Nat) : List Nat :=
  (mtp_packet_buf src addr size).take (mtp_packet_len addr size)

/-- Checksum stored in a packet: bytes 6-7, little-endian. -/
def wire_stored_sum (wire : List Nat) : Nat :=
  le_val ((wire.drop 6).take 2)

/-- Checksum re-derived from a packet as received: address field (bytes 2-3)
plus length field (bytes 4-5) plus that many payload bytes from offset 8,
modulo 65536. -/
def wire_check_sum (wire : List Nat) : Nat :=
  (le_val ((wire.drop 2).take 2) + le_val ((wire.drop 4).take 2)
    + ((wire.drop 8).take (le_val ((wire.drop 4).take 2))).sum) % 2 ^ 16

/-- Packet layout as the wire format describes it: two reserved bytes, the
start address, the padded length and the checksum as little-endian 16-bit
fields, the payload, and zero padding up to `packet_len`. -/
def packet_layout (addr padded_len check_sum : Nat) (payload : List Nat)
    (packet_len : Nat) : List Nat :=
  [0, 0] ++ u16_bytes addr ++ u16_bytes padded_len ++ u16_bytes check_sum ++ payload
    ++ List.replicate (packet_len - 8 - payload.length) 0

/-- Log entries of writing `buf` to consecutive registers from `reg` on. -/
def reg_writes : Nat → List Nat → List Ev
  | _, [] => []
  | reg, b :: bs => Ev.reg_write reg b :: reg_writes (reg + 1) bs

/-- Log entries of `n` status polls: a 20 ms sleep, then a read of 0x400. -/
def poll_log : Nat → List Ev
  | 0 => []
  | n + 1 => Ev.msleep 20 :: Ev.reg_read 0x400 :: poll_log n

/-! ### Status handling -/

def p938x_check_system_mode (env : Env) (s : St) : Int × St :=
  let (rc, buf, s1) := p938x_read_buffer env s SYS_MODE_REG 1
  if rc < 0 then (rc, s1)
  else
    let mode := buf.getD 0 0
    if mode &&& SYS_MODE_WPCMODE ≠ 0 then
      let s2 : St :=
        if mode &&& SYS_MODE_EXTENDED ≠ 0 then
          let s2 := { s1 with chip := { s1.chip with epp_mode := true } }
          let (_, s3) := p938x_set_rx_vout env s2 EPP_MAX_VOUT
          let (_, s4) := p938x_set_rx_ocl env s3 EPP_MAX_IOUT
          s4
        else
          let s2 := { s1 with chip := { s1.chip with epp_mode := false } }
          let (_, s3) := p938x_set_rx_vout env s2 BPP_MAX_VOUT
          let (_, s4) := p938x_set_rx_ocl env s3 BPP_MAX_IOUT
          s4
      let s3 : St := if s2.chip.wls_vout_max ≠ 0 then
          (p938x_set_rx_vout env s2 s2.chip.wls_vout_max).2 else s2
      let s4 : St := if s3.chip.wls_iout_max ≠ 0 then
          (p938x_set_rx_ocl env s3 s3.chip.wls_iout_max).2 else s3
      (0, s4)
    else (0, s1)

/-- Reads IRQ_ENABLE, then DEV_STATUS and IRQ_STATUS together; returns the
code, `stat` and `irq_stat`. -/
def p938x_get_status (env : Env) (s : St) : Int × Nat × Nat × St :=
  let (rc, _, s1) := p938x_read_buffer env s IRQ_ENABLE_REG 2
  if rc < 0 then (rc, 0, 0, s1)
  else
    let (rc, buf, s2) := p938x_read_buffer env s1 DEV_STATUS_REG 4
    if rc < 0 then (rc, 0, 0, s2)
    else (rc, le_val (buf.take 2), le_val ((buf.drop 2).take 2), s2)

def p938x_check_status (env : Env) (s : St) : Int × St :=
  let (rc, status, irq_status, s1) := p938x_get_status env s
  if rc ≠ 0 then (1, s1)
  else
    let s2 := { s1 with chip := { s1.chip with stat := status, irq_stat := irq_status } }
    let s3 : St := if irq_status &&& status &&& ST_TX_CONFLICT ≠ 0 then
        p938x_set_tx_mode env s2 0 else s2
    let s4 : St := if irq_status &&& status &&& ST_VOUT_ON ≠ 0 then
        let (_, t1) := p938x_check_system_mode env s3
        let t2 := cancel_delayed_work t1
        let t3 := schedule_delayed_work t2 0
        power_supply_changed t3
      else s3
    let s5 : St := if irq_status &&& status &&& ST_VRECT_ON ≠ 0 then
        let (_, t1) := p938x_update_supplies_status env s4
        let t2 := if t1.chip.tx_mode_en then p938x_set_tx_mode env t1 0 else t1
        let t3 := p938x_pm_set_awake t2 true
        let t4 := { t3 with chip := { t3.chip with tx_attached := true } }
        let t5 := cancel_delayed_work t4
        schedule_delayed_work t5 2000
      else s4
    (0, p938x_clear_irq env s5 irq_status)

def p938x_irq_handler (env : Env) (s : St) : St :=
  if s.chip.program_fw_stat = FwStat.PROGRAM_FW_PENDING then s
  else (p938x_check_status env s).2

def p938x_det_irq_handler (env : Env) (s : St) : St :=
  let (tx_detected, s1) := gpio_get_value env s Gpio.wchg_det
  if tx_detected = 0 then p938x_handle_wls_removal env s1 else s1

/-! ### Operations driving the state machine -/

/-- The operations of the device state machine. -/
inductive Op where
  | check_status : Op
  | removal : Op
  | set_tx_mode (val : Int) : Op
  | set_boost (val : Int) : Op
  | program_fw : Op
deriving DecidableEq, Repr

/-- Runs one operation. -/
def Op.run (env : Env) (s : St) : Op → St
  | Op.check_status => (p938x_check_status env s).2
  | Op.removal => p938x_handle_wls_removal env s
  | Op.set_tx_mode val => p938x_set_tx_mode env s val
  | Op.set_boost val => p938x_set_boost s val
  | Op.program_fw => (p938x_program_fw env s).2

/-- Runs a sequence of operations, each against its own oracle. -/
def run_ops (s : St) : List (Op × Env) → St
  | [] => s
  | (op, env) :: rest => run_ops (op.run env s) rest

/-- A state in which every flag is clear, as after probe. -/
def flags_clear (c : Chip) : Prop :=
  c.boost_enabled = false ∧ c.tx_attached = false ∧ c.keep_awake = false ∧
  c.tx_mode_en = false ∧ c.usb_connected = false ∧ c.usb_keep_on = false

instance (c : Chip) : Decidable (flags_clear c) := by
  unfold flags_clear
  infer_instance

/-- The mutual-exclusion invariant of the device state: transmitter-attached
and tx-mode-enabled are not both set. -/
def tx_exclusive (c : Chip) : Prop :=
  ¬ (c.tx_attached = true ∧ c.tx_mode_en = true)

instance (c : Chip) : Decidable (tx_exclusive c) := by
  unfold tx_exclusive
  infer_instance

/-! ### Concrete environments used to exercise the model -/

/-- Every call succeeds and delivers no data. -/
def env_ok : Env := fun _ => ⟨Rc.ok, []⟩

/-- Every call succeeds; the status read (second call) delivers
`stat = VRECT_ON`, `irq_stat = 0`. -/
def env_vrect_level : Env :=
  fun n => if n = 1 then ⟨Rc.ok, [0x40, 0, 0, 0]⟩ else ⟨Rc.ok, []⟩

/-- Every call succeeds; the status read (second call) delivers
`stat = irq_stat = VRECT_ON`. -/
def env_vrect : Env :=
  fun n => if n = 1 then ⟨Rc.ok, [0x40, 0, 0x40, 0]⟩ else ⟨Rc.ok, []⟩

/-- Every call succeeds; for a 32-byte packet sent from tick 0 (writes at
ticks 0-32) the status byte reads 1 on the first 31 polls and 2 from the
32nd poll on. -/
def env_busy_31 : Env :=
  fun n => if n < 33 then ⟨Rc.ok, []⟩ else if n < 64 then ⟨Rc.ok, [1]⟩ else ⟨Rc.ok, [2]⟩

/-! ### Status handling in stages, and what the log may hold -/

/-- The `stat` word in the answer to the combined read of DEV_STATUS and
IRQ_STATUS: bytes 0-1, little-endian. -/
def snap_status (r : Resp) : Nat :=
  le_val [r.data.getD 0 0 % 256, r.data.getD 1 0 % 256]

/-- The `irq_stat` word in the answer to the combined read: bytes 2-3. -/
def snap_irq (r : Resp) : Nat :=
  le_val [r.data.getD 2 0 % 256, r.data.getD 3 0 % 256]

/-- Log of `p938x_clear_irq` for `mask`: the low byte to IRQ_CLEAR, the high
byte to the next register unless the low-byte write failed, then the
clear-IRQ command. -/
def irq_ack_log (low_ok : Bool) (mask : Nat) : List Ev :=
  if low_ok then
    [Ev.reg_write IRQ_CLEAR_REG (mask % 256), Ev.reg_write (IRQ_CLEAR_REG + 1) (mask / 256 % 256),
      Ev.reg_write SYS_CMD_REG CMD_RX_CLR_IRQ]
  else [Ev.reg_write IRQ_CLEAR_REG (mask % 256), Ev.reg_write SYS_CMD_REG CMD_RX_CLR_IRQ]

/-- Log of `p938x_check_system_mode` when the chip is powered, the mode byte is
read and it has the WPC bit: the read, the default limits for the mode, then
the overrides that are set, each clamped. -/
def mode_limit_log (mode vout_max iout_max : Nat) : List Ev :=
  [Ev.bulk_read SYS_MODE_REG 1,
    Ev.reg_write VOUT_SET_REG (if mode &&& SYS_MODE_EXTENDED ≠ 0 then 120 else 50),
    Ev.reg_write ILIMIT_SET_REG 15]
  ++ (if vout_max ≠ 0 then [Ev.reg_write VOUT_SET_REG (min (max vout_max 5000) 12000 / 100)]
      else [])
  ++ (if iout_max ≠ 0 then
        [Ev.reg_write ILIMIT_SET_REG ((min (max iout_max 500) 3000 - 100) / 100)]
      else [])

/-- Register writes to the two bytes of IRQ_CLEAR. -/
def Ev.is_irq_clear_write : Ev → Bool
  | Ev.reg_write reg _ => reg == IRQ_CLEAR_REG || reg == IRQ_CLEAR_REG + 1
  | _ => false

/-- Register writes. -/
def Ev.is_reg_write : Ev → Bool
  | Ev.reg_write _ _ => true
  | _ => false

/-- Register reads, single or bulk. -/
def Ev.is_reg_read : Ev → Bool
  | Ev.reg_read _ => true
  | Ev.bulk_read _ _ => true
  | _ => false

/-- Calls on the heartbeat work item. -/
def Ev.is_work : Ev → Bool
  | Ev.cancel_work => true
  | Ev.schedule_work _ => true
  | _ => false

/-- Calls that a tx-mode request, a supply update and the wake-lock helper
can make. -/
def ev_attach_step : Ev → Bool
  | Ev.gpio_set _ _ => true
  | Ev.dc_set _ _ => true
  | Ev.msleep _ => true
  | Ev.stay_awake => true
  | Ev.relax => true
  | Ev.reg_write reg _ => reg == SYS_MODE_REG
  | Ev.reg_read reg => reg == SYS_MODE_REG
  | Ev.usb_lookup => true
  | Ev.usb_get_present => true
  | _ => false

/-- Calls that status handling can make before the acknowledgment. -/
def ev_status_body (e : Ev) : Bool :=
  ev_attach_step e ||
  match e with
  | Ev.bulk_read _ _ => true
  | Ev.psy_changed => true
  | Ev.cancel_work => true
  | Ev.schedule_work _ => true
  | Ev.reg_write reg _ => reg == VOUT_SET_REG || reg == ILIMIT_SET_REG || reg == 0x3040
  | _ => false

/-- The state `s2` continues `s1`: its log is that of `s1` followed by calls
that all satisfy `p`. -/
def LogExt (p : Ev → Bool) (s1 s2 : St) : Prop :=
  ∃ ext, s2.log = s1.log ++ ext ∧ ∀ e ∈ ext, p e = true

/-- The state in which `p938x_check_status` looks at VOUT_ON: status words
recorded and a TX_CONFLICT, if actionable, handled. -/
def status_after_conflict (env : Env) (s : St) : St :=
  let r := p938x_get_status env s
  let s2 : St := { r.2.2.2 with chip := { r.2.2.2.chip with stat := r.2.1, irq_stat := r.2.2.1 } }
  if r.2.2.1 &&& r.2.1 &&& ST_TX_CONFLICT ≠ 0 then p938x_set_tx_mode env s2 0 else s2

/-- The state after `p938x_check_status` has dealt with VOUT_ON. -/
def status_after_vout (env : Env) (s : St) : St :=
  let r := p938x_get_status env s
  let s3 := status_after_conflict env s
  if r.2.2.1 &&& r.2.1 &&& ST_VOUT_ON ≠ 0 then
    power_supply_changed
      (schedule_delayed_work (cancel_delayed_work (p938x_check_system_mode env s3).2) 0)
  else s3

/-- What `p938x_check_status` does for an actionable VRECT_ON, from the
state `s4` reached so far: supplies re-evaluated, tx mode forced off,
wake-lock taken, transmitter-attached set, heartbeat queued 2000 ms out. -/
def status_attach (env : Env) (s4 : St) : St :=
  let t1 := (p938x_update_supplies_status env s4).2
  let t2 := if t1.chip.tx_mode_en then p938x_set_tx_mode env t1 0 else t1
  let t3 := p938x_pm_set_awake t2 true
  let t4 : St := { t3 with chip := { t3.chip with tx_attached := true } }
  schedule_delayed_work (cancel_delayed_work t4) 2000

/-- The state in which `p938x_check_status` starts the acknowledgment:
VRECT_ON dealt with as well. -/
def status_before_ack (env : Env) (s : St) : St :=
  let r := p938x_get_status env s
  let s4 := status_after_vout env s
  if r.2.2.1 &&& r.2.1 &&& ST_VRECT_ON ≠ 0 then status_attach env s4 else s4

/-- Every call succeeds; the status read delivers `stat = irq_stat = VOUT_ON`
and the mode read (third call) delivers WPC active. -/
def env_vout : Env :=
  fun n => if n = 1 then ⟨Rc.ok, [0x80, 0, 0x80, 0]⟩ else if n = 2 then ⟨Rc.ok, [0x01]⟩
    else ⟨Rc.ok, []⟩

/-- Every call succeeds; the status read delivers `stat = 0`,
`irq_stat = MODE_CHANGE | VRECT_ON`: bits set in `irq_stat` only. -/
def env_irq_only : Env :=
  fun n => if n = 1 then ⟨Rc.ok, [0, 0, 0x60, 0]⟩ else ⟨Rc.ok, []⟩

/-- Every call succeeds; the first call (a mode read) delivers
`0b00001001`: WPC active, extended profile. -/
def env_mode_epp : Env :=
  fun n => if n = 0 then ⟨Rc.ok, [0x09]⟩ else ⟨Rc.ok, []⟩

/-- Every call succeeds; for a 32-byte packet sent from tick 0 the status
byte reads 1 on every poll. -/
def env_busy_always : Env :=
  fun n => if n < 33 then ⟨Rc.ok, []⟩ else ⟨Rc.ok, [1]⟩

/-- A chip with a firmware name set and an upload marked as in progress. -/
def chip_fw_pending : Chip :=
  { Chip.init with fw_name_set := true, program_fw_stat := FwStat.PROGRAM_FW_PENDING }

/-- A chip with a firmware name set and no upload in progress. -/
def chip_fw_ready : Chip :=
  { Chip.init with fw_name_set := true }

/-- A chip with the transmitter attached. -/
def chip_attached : Chip :=
  { Chip.init with tx_attached := true, keep_awake := true }

/-- Writes to one of the two limit registers. -/
def Ev.is_limit_write : Ev → Bool
  | Ev.reg_write reg _ => reg == VOUT_SET_REG || reg == ILIMIT_SET_REG
  | _ => false

/-! ### Telemetry -/

def p938x_get_rx_vout (env : Env) (s : St) : Int × St :=
  if !p938x_is_tx_connected s.chip then (0, s)
  else
    let (rc, buf, s1) := p938x_read_buffer env s VOUT_READ_REG 2
    if rc < 0 then (rc, s1) else ((le_val buf : Nat), s1)

def p938x_get_rx_vrect (env : Env) (s : St) : Int × St :=
  if !p938x_is_tx_connected s.chip then (0, s)
  else
    let (rc, buf, s1) := p938x_read_buffer env s VRECT_READ_REG 2
    if rc < 0 then (rc, s1) else ((le_val buf : Nat), s1)

def p938x_get_rx_vout_set (env : Env) (s : St) : Int × St :=
  if !p938x_is_chip_on s.chip then (0, s)
  else
    let (rc, buf, s1) := p938x_read_buffer env s VOUT_SET_REG 1
    if rc < 0 then (rc, s1) else ((buf.getD 0 0 * 100 : Nat), s1)

def p938x_get_rx_iout (env : Env) (s : St) : Int × St :=
  if !p938x_is_tx_connected s.chip then (0, s)
  else
    let (rc, buf, s1) := p938x_read_buffer env s IOUT_READ_REG 2
    if rc < 0 then (rc, s1) else ((le_val buf : Nat), s1)

/-- Reads the current limit back: two bytes from ILIMIT_SET into a `u16`,
of which the low four bits are decoded. -/
def p938x_get_rx_ocl (env : Env) (s : St) : Int × St :=
  if !p938x_is_chip_on s.chip then (0, s)
  else
    let (rc, buf, s1) := p938x_read_buffer env s ILIMIT_SET_REG 2
    if rc < 0 then (rc, s1) else ((((le_val buf) &&& 0xf) * 100 + 100 : Nat), s1)

/-- The body of the heartbeat work item.  The values read are only printed. -/
def p938x_heartbeat_work (env : Env) (s : St) : St :=
  if p938x_is_tx_connected s.chip then
    if !p938x_is_ldo_on s.chip then
      schedule_delayed_work (cancel_delayed_work s) 2000
    else
      let (_, s1) := p938x_get_rx_vout env s
      let (_, s2) := p938x_get_rx_vout_set env s1
      let (_, s3) := p938x_get_rx_vrect env s2
      let (_, s4) := p938x_get_rx_iout env s3
      let (_, s5) := p938x_get_rx_ocl env s4
      schedule_delayed_work s5 HEARTBEAT_INTERVAL_MS
  else s

/-! ### Writable properties of the wireless supply -/

/-- The properties `p938x_wls_set_prop` distinguishes. -/
inductive WlsProp where
  | CURRENT_MAX : WlsProp
  | VOLTAGE_MAX : WlsProp
  | CHARGING_ENABLED : WlsProp
  | other : WlsProp
deriving DecidableEq, Repr

/-- An `int` divided by 1000 (C division, truncating) and stored in a `u16`. -/
def div1000_u16 (intval : Int) : Nat :=
  (Int.tdiv intval 1000 % 2 ^ 16).toNat

def p938x_wls_set_prop (env : Env) (s : St) (psp : WlsProp) (intval : Int) : Int × St :=
  match psp with
  | WlsProp.CURRENT_MAX =>
    let s1 := { s with chip := { s.chip with wls_iout_max := div1000_u16 intval } }
    let (rc, s2) := p938x_set_rx_ocl env s1 s1.chip.wls_iout_max
    (rc, power_supply_changed s2)
  | WlsProp.VOLTAGE_MAX =>
    let s1 := { s with chip := { s.chip with wls_vout_max := div1000_u16 intval } }
    let (rc, s2) := p938x_set_rx_vout env s1 s1.chip.wls_vout_max
    (rc, power_supply_changed s2)
  | WlsProp.CHARGING_ENABLED =>
    let (rc, s1) := p938x_enable_charging env s (intval != 0)
    (rc, power_supply_changed s1)
  | WlsProp.other => (-EINVAL, s)

/-! ### Set-up -/

/-- A set-up call with an answer. -/
def setup_ask (env : Env) (s : St) (c : SetupCall) : Resp × St :=
  s.ask env (Ev.setup c)

/-- A set-up call whose result the driver does not look at. -/
def setup_emit (s : St) (c : SetupCall) : St :=
  s.emit (Ev.setup c)

def p938x_init_gpio (env : Env) (s : St) (line : Gpio) (dir_out : Bool) (out_val : Nat) :
    Int × St :=
  let (r, s1) := setup_ask env s (SetupCall.gpio_request_one line)
  if r.rc.toInt ≠ 0 then (r.rc.toInt, s1)
  else
    let (r2, s2) :=
      if dir_out then setup_ask env s1 (SetupCall.gpio_direction_output line out_val)
      else setup_ask env s1 (SetupCall.gpio_direction_input line)
    if r2.rc.toInt ≠ 0 then (r2.rc.toInt, s2) else (0, s2)

/-- The code from the label `disable_vreg` of `p938x_hw_init` on. -/
def hw_init_disable_vreg (s : St) (rc : Int) : Int × St :=
  (rc, setup_emit s SetupCall.regulator_disable)

/-- The part of `p938x_hw_init` after the regulator has been enabled, where
`rc` holds the code of `regulator_enable`. -/
def hw_init_lines (env : Env) (s : St) (pinctrl_name : Bool) (rc : Int) : Int × St :=
  let (perr, s1) : Option Int × St :=
    if pinctrl_name then
      let (r, t) := setup_ask env s SetupCall.pinctrl_get_select
      (if r.rc ≠ Rc.ok then some r.rc.toInt else none, t)
    else (none, s)
  match perr with
  | some e => hw_init_disable_vreg s1 e
  | none =>
    let (g1, s2) := p938x_init_gpio env s1 Gpio.wchg_int_n false 0
    if g1 ≠ 0 then hw_init_disable_vreg s2 rc
    else
      let (g2, s3) := p938x_init_gpio env s2 Gpio.wchg_det false 0
      if g2 ≠ 0 then hw_init_disable_vreg s3 rc
      else
        let (g3, s4) := p938x_init_gpio env s3 Gpio.wchg_en_n true 0
        if g3 ≠ 0 then hw_init_disable_vreg s4 rc
        else
          let (g4, s5) := p938x_init_gpio env s4 Gpio.wchg_boost true 0
          if g4 ≠ 0 then hw_init_disable_vreg s5 rc
          else
            let (g5, s6) := p938x_init_gpio env s5 Gpio.wchg_sleep true 0
            if g5 ≠ 0 then hw_init_disable_vreg s6 rc
            else
              let (_, s7) := setup_ask env s6 (SetupCall.gpio_to_irq Gpio.wchg_det)
              hw_init_disable_vreg s7 rc

/-- Hardware set-up.  `pinctrl_name` tells whether `chip->pinctrl_name` is
set.  `regulator_count_voltages` answers with a count (first data word) or
an error. -/
def p938x_hw_init (env : Env) (s : St) (pinctrl_name : Bool) : Int × St :=
  let (r0, s0) := setup_ask env s SetupCall.regulator_count_voltages
  let count : Int := if r0.rc = Rc.ok then (r0.data.headD 0 : Nat) else r0.rc.toInt
  let (early, s1) : Option Int × St :=
    if count > 0 then
      let (r, t) := setup_ask env s0 (SetupCall.regulator_set_voltage 1800000 1800000)
      (if r.rc.toInt ≠ 0 then some r.rc.toInt else none, t)
    else (none, s0)
  match early with
  | some rc => (rc, s1)
  | none =>
    let (r2, s2) := setup_ask env s1 SetupCall.regulator_enable
    if r2.rc.toInt ≠ 0 then (r2.rc.toInt, s2)
    else hw_init_lines env s2 pinctrl_name r2.rc.toInt

/-- Looks one GPIO up in the device tree; `1` when it is not valid. -/
def p938x_parse_gpio (env : Env) (s : St) (idx : Nat) : Int × St :=
  let (r, s1) := setup_ask env s (SetupCall.of_get_gpio_flags idx)
  if r.rc ≠ Rc.ok then (1, s1) else (0, s1)

/-- Reads the device tree.  Besides the code it yields whether
`chip->pinctrl_name` is set. -/
def p938x_parse_dt (env : Env) (s : St) : Int × Bool × St :=
  let (n, s1) := setup_ask env s SetupCall.of_node
  if n.rc ≠ Rc.ok then (-EINVAL, false, s1)
  else
    let (f, s2) := setup_ask env s1 SetupCall.of_find_property_vdd_i2c
    let (verr, s3) : Option Int × St :=
      if f.rc = Rc.ok then
        let (r, t) := setup_ask env s2 SetupCall.devm_regulator_get
        (if r.rc ≠ Rc.ok then some r.rc.toInt else none, t)
      else (none, s2)
    match verr with
    | some e => (e, false, s3)
    | none =>
      let (c, s4) := setup_ask env s3 SetupCall.of_gpio_count
      if c.rc ≠ Rc.ok then (-EINVAL, false, s4)
      else
        let (g0, s5) := p938x_parse_gpio env s4 0
        if g0 ≠ 0 then (-EINVAL, false, s5)
        else
          let (g1, s6) := p938x_parse_gpio env s5 1
          if g1 ≠ 0 then (-EINVAL, false, s6)
          else
            let (g2, s7) := p938x_parse_gpio env s6 2
            if g2 ≠ 0 then (-EINVAL, false, s7)
            else
              let (g3, s8) := p938x_parse_gpio env s7 3
              if g3 ≠ 0 then (-EINVAL, false, s8)
              else
                let (g4, s9) := p938x_parse_gpio env s8 4
                if g4 ≠ 0 then (-EINVAL, false, s9)
                else
                  let (p, s10) := setup_ask env s9 SetupCall.of_get_property_pinctrl_names
                  (0, p.rc == Rc.ok, s10)

def p938x_register_power_supply (env : Env) (s : St) : Int × St :=
  let (r, s1) := setup_ask env s SetupCall.power_supply_register
  (r.rc.toInt, s1)

/-- The code from the label `free_mem` of `p938x_charger_probe` on. -/
def probe_free_mem (s : St) (rc : Int) : Int × St :=
  (rc, setup_emit s SetupCall.devm_kfree)

/-- The code from the label `free_psy` of `p938x_charger_probe` on. -/
def probe_free_psy (s : St) (rc : Int) : Int × St :=
  probe_free_mem (setup_emit s SetupCall.power_supply_unregister) rc

/-- The part of `p938x_charger_probe` after `p938x_hw_init` has returned a
code `rc` that is not negative. -/
def probe_after_hw_init (env : Env) (s : St) (rc : Int) : Int × St :=
  let (d, s1) := setup_ask env s SetupCall.power_supply_get_by_name_dc
  let s2 : St := { s1 with chip := { s1.chip with dc_psy := d.rc == Rc.ok } }
  if !s2.chip.dc_psy then probe_free_psy s2 rc
  else
    let (i1, s3) := setup_ask env s2 (SetupCall.request_threaded_irq Gpio.wchg_int_n)
    if i1.rc.toInt ≠ 0 then probe_free_psy s3 i1.rc.toInt
    else
      let s4 := setup_emit (setup_emit s3 SetupCall.enable_irq_wake)
        SetupCall.wakeup_source_init
      let (i2, s5) := setup_ask env s4 (SetupCall.request_threaded_irq Gpio.wchg_det)
      if i2.rc.toInt ≠ 0 then probe_free_psy s5 i2.rc.toInt
      else
        let s6 := p938x_reset env s5
        let s7 := setup_emit s6 SetupCall.create_debugfs_entries
        let (_, s8) := setup_ask env s7 SetupCall.sysfs_create_groups
        (0, s8)

/-- Device probe.  `s.chip` is the zeroed structure that `devm_kzalloc`
delivers when it succeeds. -/
def p938x_charger_probe (env : Env) (s : St) : Int × St :=
  let (a, s1) := setup_ask env s SetupCall.devm_kzalloc
  if a.rc ≠ Rc.ok then (-ENOMEM, s1)
  else
    let (m, s2) := setup_ask env s1 SetupCall.regmap_init_i2c
    if m.rc ≠ Rc.ok then probe_free_mem s2 m.rc.toInt
    else
      let (rc, pinctrl_name, s3) := p938x_parse_dt env s2
      if rc ≠ 0 then probe_free_mem s3 rc
      else
        let (rc, s4) := p938x_register_power_supply env s3
        if rc ≠ 0 then probe_free_mem s4 rc
        else
          let (rc, s5) := p938x_hw_init env s4 pinctrl_name
          if rc < 0 then probe_free_psy s5 rc
          else probe_after_hw_init env s5 rc

/-! ### Further log classes and concrete inputs -/

/-- Writes of the IRQ acknowledgment: to one of the two bytes of IRQ_CLEAR or
to SYS_CMD. -/
def Ev.is_ack_write : Ev → Bool
  | Ev.reg_write reg _ => reg == IRQ_CLEAR_REG || reg == IRQ_CLEAR_REG + 1 || reg == SYS_CMD_REG
  | _ => false

/-- The first call fails; every later call succeeds and delivers no data. -/
def env_fail_first : Env :=
  fun n => if n = 0 then ⟨Rc.err 4, []⟩ else ⟨Rc.ok, []⟩

/-- The second call fails; every other call succeeds and delivers no data. -/
def env_fail_second : Env :=
  fun n => if n = 1 then ⟨Rc.err 4, []⟩ else ⟨Rc.ok, []⟩

/-- The third call fails; every other call succeeds and delivers no data. -/
def env_fail_third : Env :=
  fun n => if n = 2 then ⟨Rc.err 4, []⟩ else ⟨Rc.ok, []⟩

/-- Every call succeeds; the second call (the read-back after one write)
delivers the bytes 29 and 0. -/
def env_ocl_echo : Env :=
  fun n => if n = 1 then ⟨Rc.ok, [29, 0]⟩ else ⟨Rc.ok, []⟩

/-- A chip charging from a transmitter: attached, awake, `stat` with VRECT_ON
and VOUT_ON. -/
def chip_charging : Chip :=
  { Chip.init with tx_attached := true, keep_awake := true, stat := 0xC0 }

/-- A chip with the boost switched on and no transmit mode. -/
def chip_boosted : Chip :=
  { Chip.init with boost_enabled := true, keep_awake := true }

/-- The zeroed chip structure at the start of probe. -/
def chip_zeroed : Chip :=
  { Chip.init with dc_psy := false }

/-- The calls of a tx-mode enable request on a chip in state `c`, up to and
including the write of the transmit-mode bit: the output-disable line
released if USB holds it, both `dc` overrides forced, the boost switched on
with its settle delay if the chip is not powered, the write. -/
def tx_enable_log (c : Chip) : List Ev :=
  (if c.usb_connected then [Ev.gpio_set Gpio.wchg_en_n 0] else [])
  ++ (if c.dc_psy then [Ev.dc_set DcProp.input_suspend 1, Ev.dc_set DcProp.pin_enabled 1]
      else [])
  ++ (if c.boost_enabled then []
      else [Ev.gpio_set Gpio.wchg_boost 1] ++ (if c.keep_awake then [] else [Ev.stay_awake])
        ++ [Ev.msleep 100])
  ++ [Ev.reg_write SYS_MODE_REG SYS_MODE_TXMODE]

/-- The calls made after the write of the transmit-mode bit has failed, for a
request issued in state `c`: boost off, wake-lock released if held, both
`dc` overrides written back to 0. -/
def tx_rollback_log (c : Chip) : List Ev :=
  [Ev.gpio_set Gpio.wchg_boost 0]
  ++ (if !c.boost_enabled || c.keep_awake then [Ev.relax] else [])
  ++ (if c.dc_psy then [Ev.dc_set DcProp.pin_enabled 0, Ev.dc_set DcProp.input_suspend 0]
      else [])

/-- Every call succeeds except the 28th, which in a probe whose earlier
calls all succeed is the look-up of the `dc` supply. -/
def env_no_dc : Env :=
  fun n => if n = 27 then ⟨Rc.err 18, []⟩ else ⟨Rc.ok, []⟩

/-- The `k`-th 128-byte chunk of an image of `n` bytes: the bytes from
`128 k` up to `min (128 k + 128) n`. -/
def chunk_payload (image : List Nat) (k : Nat) : List Nat :=
  (image.drop (128 * k)).take (min 128 (image.length - 128 * k))

/-- Log of the chunk loop for an image all of whose chunks, from the `k`-th
on, are accepted; `polls` holds the number of status polls of each chunk.
Per chunk: the packet with start address `128 k` and the chunk as payload
written from 0x400, the validation byte, the polls. -/
def upload_log (image : List Nat) : Nat → List Nat → List Ev
  | _, [] => []
  | k, m :: ms =>
    reg_writes 0x400
        (packet_layout (128 * k) (mtp_padded_len (128 * k) image.length)
          (mtp_check_sum (image.drop (128 * k)) (128 * k) image.length)
          (chunk_payload image k) (mtp_packet_len (128 * k) image.length))
      ++ [Ev.reg_write 0x400 1] ++ poll_log m ++ upload_log image (k + 1) ms

/-- Every call succeeds and every read delivers 2. -/
def env_accept : Env := fun _ => ⟨Rc.ok, [2]⟩

/-- An image of 129 bytes, each 0x5A: one full chunk and one byte more. -/
def image_129 : List Nat := List.replicate 129 0x5A

/-- Calls on the wake-up source. -/
def Ev.is_wake : Ev → Bool
  | Ev.stay_awake => true
  | Ev.relax => true
  | _ => false

/-- Any call but one on the wake-up source. -/
def ev_no_wake (e : Ev) : Bool := !e.is_wake

/-- Replays the wake-up source calls of a log on a lock that is held
(`true`) or not: acquiring a held lock or releasing a lock that is not held
gives `none`, otherwise the final state of the lock. -/
def wake_replay : Bool → List Ev → Option Bool
  | b, [] => some b
  | b, Ev.stay_awake :: es => if b then none else wake_replay true es
  | b, Ev.relax :: es => if b then wake_replay false es else none
  | b, _ :: es => wake_replay b es

/-- The state of the wake-lock after a log that starts with the lock not
held; `none` if the log acquires or releases twice in a row. -/
def wake_held (log : List Ev) : Option Bool := wake_replay false log

/-- In the sequence of wake-up source calls of a log no call is followed by
the same call. -/
def wake_alternates (log : List Ev) : Prop :=
  List.Chain' (fun a b => a ≠ b) (log.filter Ev.is_wake)

/-- The wake-lock discipline at the end of an operation: the log acquires
and releases in turn and ends in the state that keep-awake records, and
keep-awake is set exactly when the chip is powered (boost enabled or
transmitter attached). -/
def awake_inv (s : St) : Prop :=
  wake_held s.log = some s.chip.keep_awake ∧ s.chip.keep_awake = p938x_is_chip_on s.chip

instance (s : St) : Decidable (awake_inv s) := by
  unfold awake_inv
  infer_instance

/-- The state `s2` continues `s1` without a call on the wake-up source and
with boost-enabled, transmitter-attached and keep-awake as they were. -/
def Undisturbed (s1 s2 : St) : Prop :=
  s2.chip.boost_enabled = s1.chip.boost_enabled ∧
  s2.chip.tx_attached = s1.chip.tx_attached ∧
  s2.chip.keep_awake = s1.chip.keep_awake ∧ LogExt ev_no_wake s1 s2

/-- The calls of a tx-mode disable request on a chip in state `c` that is in
tx mode and not attached, with `v` the value written back to SYS_MODE. -/
def tx_disable_log (c : Chip) (v : Nat) : List Ev :=
  [Ev.reg_read SYS_MODE_REG, Ev.reg_write SYS_MODE_REG v, Ev.gpio_set Gpio.wchg_boost 0]
  ++ (if c.keep_awake then [Ev.relax] else [])
  ++ (if c.dc_psy then [Ev.dc_set DcProp.pin_enabled 0, Ev.dc_set DcProp.input_suspend 0]
      else [])
  ++ (if c.usb_connected && !c.usb_keep_on then [Ev.gpio_set Gpio.wchg_en_n 1] else [])

/-- A boost request, a status check that finds VRECT_ON, the boost switched
off, a removal event. -/
def ops_wake_demo : List (Op × Env) :=
  [(Op.set_boost 1, env_ok), (Op.check_status, env_vrect), (Op.set_boost 0, env_ok),
    (Op.removal, env_ok)]

/-- Every call succeeds except the third; the status read delivers
`stat = irq_stat = VOUT_ON`, so that the failing call is the mode read. -/
def env_vout_mode_fail : Env :=
  fun n => if n = 1 then ⟨Rc.ok, [0x80, 0, 0x80, 0]⟩ else if n = 2 then ⟨Rc.err 4, []⟩
    else ⟨Rc.ok, []⟩

/-- Every call succeeds except the third; the status read delivers
`stat = 0`, `irq_stat = 0x8000`, so that no bit is actionable and the failing
call is the write of the low acknowledgment byte. -/
def env_ack_refused : Env :=
  fun n => if n = 1 then ⟨Rc.ok, [0, 0, 0, 0x80]⟩ else if n = 2 then ⟨Rc.err 4, []⟩
    else ⟨Rc.ok, []⟩

/-- The firmware request of `p938x_program_fw`, made once both entry checks
have passed and the status has been set to Pending: code, image, state. -/
def fw_requested (env : Env) (s : St) : Int × List Nat × St :=
  request_firmware env
    { s with chip := { s.chip with program_fw_stat := FwStat.PROGRAM_FW_PENDING } }

/-- The bootstrap stage of `p938x_program_fw`: boost switched on, 100 ms,
then `p938x_program_mtp_downloader`. -/
def fw_bootstrap (env : Env) (s : St) : Int × St :=
  p938x_program_mtp_downloader env (msleep (p938x_set_boost (fw_requested env s).2.2 1) 100)

/-- The chunk loop of the main stage of `p938x_program_fw`, run on the image
that was delivered. -/
def fw_chunks (env : Env) (s : St) : Option Int × St :=
  mtp_chunk_loop (p938x_program_mtp_package env) (fw_bootstrap env s).2
    (fw_requested env s).2.1 0 ((fw_requested env s).2.1.length % 2 ^ 32)

/-- The main stage of `p938x_program_fw`: `p938x_program_mtp` on the image
that was delivered. -/
def fw_transfer (env : Env) (s : St) : Int × St :=
  p938x_program_mtp env (fw_bootstrap env s).2 (fw_requested env s).2.1
    ((fw_requested env s).2.1.length % 2 ^ 32)

/-- The state in which chunk `k` of `image` is sent by a chunk loop started
in `s`: the chunks before it have been sent, one after the other. -/
def chunk_state (env : Env) (s : St) (image : List Nat) (size : Nat) : Nat → St
  | 0 => s
  | k + 1 =>
    (p938x_program_mtp_package env (chunk_state env s image size k)
      (image.drop (FW_MTP_PACK_DATA_LEN * k)) (FW_MTP_PACK_DATA_LEN * k % 2 ^ 16) size).2

/-- The code that `p938x_program_mtp_package` returns for chunk `k`. -/
def chunk_code (env : Env) (s : St) (image : List Nat) (size k : Nat) : Int :=
  (p938x_program_mtp_package env (chunk_state env s image size k)
    (image.drop (FW_MTP_PACK_DATA_LEN * k)) (FW_MTP_PACK_DATA_LEN * k % 2 ^ 16) size).1

/-- The first call (the firmware request) succeeds and delivers `image_129`;
every later call succeeds and every read delivers 2. -/
def env_upload : Env :=
  fun n => if n = 0 then ⟨Rc.ok, image_129⟩ else ⟨Rc.ok, [2]⟩

/-- Every call succeeds; the status read delivers
`stat = irq_stat = VOUT_ON | VRECT_ON` and the mode read (third call)
delivers `0b00001001`: WPC active, extended profile. -/
def env_first_contact : Env :=
  fun n => if n = 1 then ⟨Rc.ok, [0xC0, 0, 0xC0, 0]⟩ else if n = 2 then ⟨Rc.ok, [0x09]⟩
    else ⟨Rc.ok, []⟩

/-! ## Supporting lemmas -/

theorem ceil_div_16 (n : ℕ) : ⌈(n : ℚ) / 16⌉₊ = (n + 15) / 16 := by
  apply le_antisymm
  · rw [Nat.ceil_le, div_le_iff₀ (by norm_num)]
    have h : n ≤ (n + 15) / 16 * 16 := by omega
    exact_mod_cast h
  · have h1 : (n : ℚ) / 16 ≤ (⌈(n : ℚ) / 16⌉₊ : ℚ) := Nat.le_ceil _
    rw [div_le_iff₀ (by norm_num)] at h1
    have h2 : n ≤ ⌈(n : ℚ) / 16⌉₊ * 16 := by exact_mod_cast h1
    omega

theorem mtp_code_len_eq (addr size : Nat) (hsize : size < 2 ^ 32) (hlt : addr < size) :
    mtp_code_len addr size = min 128 (size - addr) := by
  unfold mtp_code_len FW_MTP_PACK_DATA_LEN
  have h : (size + 2 ^ 32 - addr) % 2 ^ 32 = size - addr := by omega
  rw [h]
  split <;> omega

theorem mtp_code_len_le (addr size : Nat) : mtp_code_len addr size ≤ 128 := by
  unfold mtp_code_len FW_MTP_PACK_DATA_LEN
  split <;> omega

theorem mtp_buf_payload_eq (src : List Nat) (addr size : Nat) :
    mtp_buf_payload src addr size =
      [0, 0, 0, 0, 0, 0, 0, 0] ++ mtp_payload_region src addr size := by
  have hL := mtp_code_len_le addr size
  unfold mtp_buf_payload mtp_payload_region memcpy FW_MTP_PACK_SIZE FW_MTP_PACK_HEADER_LEN
    FW_MTP_PACK_DATA_LEN FW_MTP_PADDING
  simp only [List.take_replicate, List.drop_replicate, List.length_map, List.length_range]
  have h1 : 8 + 128 + 8 - (8 + mtp_code_len addr size) = 136 - mtp_code_len addr size := by
    omega
  rw [h1]
  simp [List.replicate]

theorem mtp_packet_buf_eq (src : List Nat) (addr size : Nat) :
    mtp_packet_buf src addr size =
      [0, 0] ++ u16_bytes addr ++ u16_bytes (mtp_padded_len addr size)
        ++ u16_bytes (mtp_check_sum src addr size) ++ mtp_payload_region src addr size := by
  unfold mtp_packet_buf
  simp only [mtp_buf_payload_eq]
  simp [memcpy, u16_bytes]

theorem sum_take_succ (l : List Nat) (n : Nat) :
    (l.take (n + 1)).sum = (l.take n).sum + l.getD n 0 := by
  rw [List.take_succ, List.sum_append, List.getD_eq_getElem?_getD]
  cases l[n]? <;> simp

theorem mtp_sum_loop_eq (buf : List Nat) (n cs : Nat) :
    mtp_sum_loop buf n cs % 2 ^ 16 = (cs + ((buf.drop 8).take n).sum) % 2 ^ 16 := by
  induction n generalizing cs with
  | zero => simp [mtp_sum_loop]
  | succ n ih =>
    rw [mtp_sum_loop, ih, sum_take_succ]
    have hg : (buf.drop 8).getD n 0 = buf.getD (n + FW_MTP_PACK_HEADER_LEN) 0 := by
      simp [List.getD_eq_getElem?_getD, FW_MTP_PACK_HEADER_LEN, Nat.add_comm]
    rw [hg]
    omega

theorem mtp_padded_len_bounds (addr size : Nat) :
    mtp_code_len addr size ≤ mtp_padded_len addr size ∧ mtp_padded_len addr size ≤ 128 ∧
    mtp_padded_len addr size + 8 ≤ mtp_packet_len addr size ∧
    mtp_packet_len addr size ≤ 144 := by
  have hL := mtp_code_len_le addr size
  have h1 : mtp_padded_len addr size = (mtp_code_len addr size + 15) / 16 * 16 := by
    unfold mtp_padded_len align_16; omega
  have h2 : mtp_packet_len addr size = (mtp_padded_len addr size + 8 + 15) / 16 * 16 := by
    unfold mtp_packet_len align_16 FW_MTP_PACK_HEADER_LEN; omega
  omega

theorem mtp_payload_region_length (src : List Nat) (addr size : Nat) :
    (mtp_payload_region src addr size).length = 136 := by
  have hL := mtp_code_len_le addr size
  simp [mtp_payload_region]
  omega

theorem mtp_check_sum_eq (src : List Nat) (addr size : Nat) :
    mtp_check_sum src addr size =
      (addr + mtp_padded_len addr size
        + ((mtp_payload_region src addr size).take (mtp_padded_len addr size)).sum) % 2 ^ 16 := by
  unfold mtp_check_sum
  have h := mtp_sum_loop_eq (mtp_buf_payload src addr size) (mtp_padded_len addr size) addr
  have h' : (mtp_buf_payload src addr size).drop 8 = mtp_payload_region src addr size := by
    rw [mtp_buf_payload_eq]; simp
  rw [h'] at h
  omega

theorem le_val_u16_bytes (v : Nat) (h : v < 2 ^ 16) : le_val (u16_bytes v) = v := by
  simp only [u16_bytes, le_val]
  omega

theorem mtp_wire_eq (src : List Nat) (addr size : Nat) :
    mtp_wire src addr size =
      [0, 0] ++ u16_bytes addr ++ u16_bytes (mtp_padded_len addr size)
        ++ u16_bytes (mtp_check_sum src addr size)
        ++ (mtp_payload_region src addr size).take (mtp_packet_len addr size - 8) := by
  have hb := mtp_padded_len_bounds addr size
  unfold mtp_wire
  rw [mtp_packet_buf_eq]
  obtain ⟨k, hk⟩ : ∃ k, mtp_packet_len addr size = k + 8 := ⟨mtp_packet_len addr size - 8, by omega⟩
  rw [hk]
  simp [u16_bytes, List.take]

@[simp] theorem emit_chip (s : St) (e : Ev) : (s.emit e).chip = s.chip := rfl

@[simp] theorem ask_chip (env : Env) (s : St) (e : Ev) : (s.ask env e).2.chip = s.chip := rfl

@[simp] theorem msleep_chip (s : St) (ms : Nat) : (msleep s ms).chip = s.chip := rfl

@[simp] theorem regmap_write_chip (env : Env) (s : St) (reg val : Nat) :
    (regmap_write env s reg val).2.chip = s.chip := rfl

@[simp] theorem write_reg_chip (env : Env) (s : St) (reg val : Nat) :
    (p938x_write_reg env s reg val).2.chip = s.chip := rfl

@[simp] theorem read_reg_chip (env : Env) (s : St) (reg val : Nat) :
    (p938x_read_reg env s reg val).2.2.chip = s.chip := by
  unfold p938x_read_reg regmap_read St.ask
  dsimp only
  split <;> rfl

@[simp] theorem reset_chip (env : Env) (s : St) : (p938x_reset env s).chip = s.chip := rfl

@[simp] theorem gpio_set_value_chip (s : St) (l : Gpio) (v : Nat) :
    (gpio_set_value s l v).chip = s.chip := rfl

@[simp] theorem power_supply_changed_chip (s : St) : (power_supply_changed s).chip = s.chip := rfl

@[simp] theorem write_reg_loop_chip (env : Env) (s : St) (reg : Nat) (buf : List Nat) (rc : Int) :
    (write_reg_loop env s reg buf rc).2.chip = s.chip := by
  induction buf generalizing s reg rc with
  | nil => rfl
  | cons b bs ih =>
    unfold write_reg_loop
    dsimp only
    split
    · rfl
    · rw [ih]; rfl

@[simp] theorem write_buffer_chip (env : Env) (s : St) (reg : Nat) (buf : List Nat) (rc : Int) :
    (p938x_write_buffer env s reg buf rc).2.chip = s.chip := by
  induction buf generalizing s reg rc with
  | nil => rfl
  | cons b bs ih =>
    unfold p938x_write_buffer
    dsimp only
    split
    · rfl
    · rw [ih]; rfl

theorem pm_set_awake_chip (s : St) (awake : Bool) :
    (p938x_pm_set_awake s awake).chip = { s.chip with keep_awake := awake } := by
  unfold p938x_pm_set_awake pm_stay_awake pm_relax St.emit
  cases hk : s.chip.keep_awake <;> cases awake <;> simp [hk]
  all_goals (cases s with | mk c t l => cases c; simp_all)

theorem handle_wls_removal_chip (env : Env) (s : St) :
    (p938x_handle_wls_removal env s).chip =
      if s.chip.tx_attached then
        { s.chip with tx_attached := false, heartbeat := none, stat := 0, irq_stat := 0,
                      keep_awake := s.chip.boost_enabled && s.chip.keep_awake }
      else s.chip := by
  unfold p938x_handle_wls_removal
  cases ha : s.chip.tx_attached
  · simp
  · cases hb : s.chip.boost_enabled
    · simp [hb, reset_chip, pm_set_awake_chip, cancel_delayed_work, power_supply_changed, St.emit]
    · simp [hb, cancel_delayed_work, power_supply_changed, St.emit]

@[simp] theorem mtp_status_wait_chip (env : Env) (s : St) (buf0 retry_cnt : Nat) :
    (mtp_status_wait env s buf0 retry_cnt).2.chip = s.chip := by
  induction s, buf0, retry_cnt using mtp_status_wait.induct env with
  | case1 s buf0 retry_cnt h =>
    rw [mtp_status_wait]; simp [h]
  | case2 s buf0 retry_cnt s1 r h1 h2 ih =>
    rw [mtp_status_wait]
    simp only [h1, if_false]
    rw [if_pos h2]
    exact ih.trans (by simp [r, s1])
  | case3 s buf0 retry_cnt s1 r h1 h2 =>
    rw [mtp_status_wait]
    simp only [h1, if_false]
    rw [if_neg h2]
    simp

@[simp] theorem program_mtp_package_chip (env : Env) (s : St) (src : List Nat) (addr size : Nat) :
    (p938x_program_mtp_package env s src addr size).2.chip = s.chip := by
  unfold p938x_program_mtp_package
  dsimp only
  split
  · simp
  · split
    · simp
    · split <;> simp

theorem mtp_chunk_loop_chip (pkg : St → List Nat → Nat → Nat → Int × St)
    (hpkg : ∀ s src addr size, (pkg s src addr size).2.chip = s.chip)
    (s : St) (src : List Nat) (i size : Nat) :
    (mtp_chunk_loop pkg s src i size).2.chip = s.chip := by
  induction s, src, i, size using mtp_chunk_loop.induct pkg with
  | case1 s src i size h r hr =>
    rw [mtp_chunk_loop]; rw [if_pos h]; simp only []; rw [if_pos hr]; exact hpkg _ _ _ _
  | case2 s src i size h r hr ih =>
    rw [mtp_chunk_loop]; rw [if_pos h]; simp only []; rw [if_neg hr]
    exact ih.trans (hpkg _ _ _ _)
  | case3 s src i size h =>
    rw [mtp_chunk_loop]; rw [if_neg h]

@[simp] theorem program_mtp_chip (env : Env) (s : St) (src : List Nat) (size : Nat) :
    (p938x_program_mtp env s src size).2.chip = s.chip := by
  unfold p938x_program_mtp
  have h := mtp_chunk_loop_chip (p938x_program_mtp_package env)
    (program_mtp_package_chip env) s src 0 size
  split
  · next rc s1 heq => rw [heq] at h; simpa using h
  · next s1 heq =>
    rw [heq] at h
    dsimp only
    split
    · simpa using h
    · split
      · simpa using h
      · simpa using h

@[simp] theorem program_mtp_downloader_chip (env : Env) (s : St) :
    (p938x_program_mtp_downloader env s).2.chip = s.chip := by
  unfold p938x_program_mtp_downloader
  dsimp only
  split_ifs <;> simp

/-! ### Mutual exclusion of transmitter-attached and tx-mode-enabled -/

theorem handle_wls_removal_not_attached (env : Env) (s : St)
    (h : s.chip.tx_attached = false) : p938x_handle_wls_removal env s = s := by
  unfold p938x_handle_wls_removal
  simp [h]

theorem handle_wls_removal_tx_attached (env : Env) (s : St) :
    (p938x_handle_wls_removal env s).chip.tx_attached = false := by
  rw [handle_wls_removal_chip]
  cases h : s.chip.tx_attached <;> simp [h]

theorem handle_wls_removal_tx_mode_en (env : Env) (s : St) :
    (p938x_handle_wls_removal env s).chip.tx_mode_en = s.chip.tx_mode_en := by
  rw [handle_wls_removal_chip]
  cases h : s.chip.tx_attached <;> simp [h]

theorem read_buffer_tx (env : Env) (s : St) (reg size : Nat) :
    (p938x_read_buffer env s reg size).2.2.chip.tx_mode_en = s.chip.tx_mode_en ∧
    ((p938x_read_buffer env s reg size).2.2.chip.tx_attached = true →
      s.chip.tx_attached = true) := by
  unfold p938x_read_buffer regmap_bulk_read St.ask
  dsimp only
  split
  · constructor
    · rw [handle_wls_removal_tx_mode_en]
    · intro h; rw [handle_wls_removal_tx_attached] at h; exact absurd h (by simp)
  · exact ⟨rfl, fun h => h⟩

@[simp] theorem set_rx_vout_chip (env : Env) (s : St) (mv : Nat) :
    (p938x_set_rx_vout env s mv).2.chip = s.chip := by
  unfold p938x_set_rx_vout
  split <;> simp

@[simp] theorem set_rx_ocl_chip (env : Env) (s : St) (ma : Nat) :
    (p938x_set_rx_ocl env s ma).2.chip = s.chip := by
  unfold p938x_set_rx_ocl
  split <;> simp

theorem set_boost_chip (s : St) (val : Int) :
    (p938x_set_boost s val).chip =
      { s.chip with boost_enabled := decide (val ≠ 0),
                    keep_awake := if val ≠ 0 then true
                                  else (s.chip.tx_attached && s.chip.keep_awake) } := by
  unfold p938x_set_boost
  by_cases hv : val = 0
  · simp only [hv, ne_eq, not_true_eq_false, if_false, decide_False]
    cases ha : s.chip.tx_attached
    · simp [p938x_is_chip_on, ha, pm_set_awake_chip]
    · simp [p938x_is_chip_on, ha]
  · simp [hv, pm_set_awake_chip]

@[simp] theorem set_dc_psp_prop_chip (env : Env) (s : St) (psp : DcProp) (val : Int) :
    (p938x_set_dc_psp_prop env s psp val).2.chip = s.chip := by
  unfold p938x_set_dc_psp_prop
  split <;> rfl

@[simp] theorem set_dc_suspend_chip (env : Env) (s : St) (en : Int) :
    (p938x_set_dc_suspend env s en).2.chip = s.chip := set_dc_psp_prop_chip _ _ _ _

@[simp] theorem set_dc_en_override_chip (env : Env) (s : St) (en : Int) :
    (p938x_set_dc_en_override env s en).2.chip = s.chip := set_dc_psp_prop_chip _ _ _ _

@[simp] theorem clear_irq_chip (env : Env) (s : St) (mask : Nat) :
    (p938x_clear_irq env s mask).chip = s.chip := by
  unfold p938x_clear_irq
  simp

theorem set_tx_mode_attached (env : Env) (s : St) (val : Int)
    (h : s.chip.tx_attached = true) : p938x_set_tx_mode env s val = s := by
  unfold p938x_set_tx_mode
  simp [h]

theorem set_tx_mode_off_chip (env : Env) (s : St) (h : s.chip.tx_attached = false) :
    (p938x_set_tx_mode env s 0).chip =
      if s.chip.tx_mode_en then
        { s.chip with boost_enabled := false, keep_awake := false, tx_mode_en := false }
      else s.chip := by
  unfold p938x_set_tx_mode
  cases hm : s.chip.tx_mode_en
  · simp [h, hm]
  · simp only [h, hm, Bool.false_eq_true, if_false, ne_eq, not_true_eq_false, Bool.not_true,
      if_true]
    split <;> simp [set_boost_chip, h]

theorem set_tx_mode_tx_attached (env : Env) (s : St) (val : Int) :
    (p938x_set_tx_mode env s val).chip.tx_attached = s.chip.tx_attached := by
  cases h : s.chip.tx_attached
  · by_cases hv : val = 0
    · subst hv
      rw [set_tx_mode_off_chip env s h]
      split <;> simp [h]
    · unfold p938x_set_tx_mode
      simp only [h, Bool.false_eq_true, if_false, ne_eq, hv, not_false_eq_true, if_true]
      split_ifs <;> simp [set_boost_chip, h]
  · rw [set_tx_mode_attached env s val h]; exact h

theorem tx_exclusive_of_step {c c' : Chip} (h : tx_exclusive c)
    (hm : c'.tx_mode_en = c.tx_mode_en) (ha : c'.tx_attached = true → c.tx_attached = true) :
    tx_exclusive c' := by
  intro ⟨h1, h2⟩
  exact h ⟨ha h1, hm ▸ h2⟩

theorem set_tx_mode_exclusive (env : Env) (s : St) (val : Int) (h : tx_exclusive s.chip) :
    tx_exclusive (p938x_set_tx_mode env s val).chip := by
  cases ha : s.chip.tx_attached
  · intro ⟨h1, _⟩
    rw [set_tx_mode_tx_attached, ha] at h1
    exact absurd h1 (by simp)
  · rw [set_tx_mode_attached env s val ha]; exact h

theorem update_supplies_status_chip (env : Env) (s : St) :
    ∃ a b c, (p938x_update_supplies_status env s).2.chip =
      { s.chip with usb_psy := a, wired_connected := b, usb_connected := c } := by
  unfold p938x_update_supplies_status power_supply_get_by_name_usb
    power_supply_get_property_present St.ask gpio_set_value St.emit
  dsimp only
  split_ifs <;> exact ⟨_, _, _, rfl⟩

theorem check_system_mode_tx (env : Env) (s : St) :
    (p938x_check_system_mode env s).2.chip.tx_mode_en = s.chip.tx_mode_en ∧
    ((p938x_check_system_mode env s).2.chip.tx_attached = true →
      s.chip.tx_attached = true) := by
  have hrb := read_buffer_tx env s SYS_MODE_REG 1
  unfold p938x_check_system_mode
  rcases hr : p938x_read_buffer env s SYS_MODE_REG 1 with ⟨rc, buf, s1⟩
  rw [hr] at hrb
  dsimp only at hrb ⊢
  split_ifs <;> simpa using hrb

theorem get_status_tx (env : Env) (s : St) :
    (p938x_get_status env s).2.2.2.chip.tx_mode_en = s.chip.tx_mode_en ∧
    ((p938x_get_status env s).2.2.2.chip.tx_attached = true → s.chip.tx_attached = true) := by
  unfold p938x_get_status
  have h1 := read_buffer_tx env s IRQ_ENABLE_REG 2
  rcases hr1 : p938x_read_buffer env s IRQ_ENABLE_REG 2 with ⟨rc1, buf1, s1⟩
  rw [hr1] at h1
  have h2 := read_buffer_tx env s1 DEV_STATUS_REG 4
  rcases hr2 : p938x_read_buffer env s1 DEV_STATUS_REG 4 with ⟨rc2, buf2, s2⟩
  rw [hr2] at h2
  dsimp only at h1 h2 ⊢
  split_ifs
  · exact h1
  · simp only [hr2]
    exact ⟨h2.1.trans h1.1, fun h => h1.2 (h2.2 h)⟩
  · simp only [hr2]
    exact ⟨h2.1.trans h1.1, fun h => h1.2 (h2.2 h)⟩

theorem check_status_exclusive (env : Env) (s : St) (h : tx_exclusive s.chip) :
    tx_exclusive (p938x_check_status env s).2.chip := by
  unfold p938x_check_status
  have hg := get_status_tx env s
  rcases hgs : p938x_get_status env s with ⟨rc, status, irq_status, s1⟩
  rw [hgs] at hg
  dsimp only at hg ⊢
  have e1 : tx_exclusive s1.chip := tx_exclusive_of_step h hg.1 hg.2
  split
  · exact e1
  · -- status and irq_status recorded
    generalize hs2 : ({ s1 with chip := { s1.chip with stat := status, irq_stat := irq_status } } : St) = s2
    have e2 : tx_exclusive s2.chip := by
      rw [← hs2]; exact e1
    generalize hs3 : (if irq_status &&& status &&& ST_TX_CONFLICT ≠ 0 then
        p938x_set_tx_mode env s2 0 else s2) = s3
    have e3 : tx_exclusive s3.chip := by
      rw [← hs3]; split
      · exact set_tx_mode_exclusive env s2 0 e2
      · exact e2
    generalize hs4 : (if irq_status &&& status &&& ST_VOUT_ON ≠ 0 then
        power_supply_changed (schedule_delayed_work
          (cancel_delayed_work (p938x_check_system_mode env s3).2) 0) else s3) = s4
    have e4 : tx_exclusive s4.chip := by
      rw [← hs4]; split
      · have hc := check_system_mode_tx env s3
        exact tx_exclusive_of_step e3 hc.1 hc.2
      · exact e3
    simp only [clear_irq_chip]
    split
    · intro ⟨_, hm⟩
      obtain ⟨a, b, c, hu⟩ := update_supplies_status_chip env s4
      generalize hx : (p938x_update_supplies_status env s4).2 = t1 at hu hm
      have et1 : tx_exclusive t1.chip := by
        rw [hu]; exact e4
      by_cases hmode : t1.chip.tx_mode_en = true
      · have hna : t1.chip.tx_attached = false := by
          cases hta : t1.chip.tx_attached
          · rfl
          · exact absurd ⟨hta, hmode⟩ et1
        simp [hmode, schedule_delayed_work, cancel_delayed_work, pm_set_awake_chip,
          set_tx_mode_off_chip env t1 hna] at hm
      · simp [hmode, schedule_delayed_work, cancel_delayed_work, pm_set_awake_chip] at hm
    · exact e4

theorem program_fw_chip (env : Env) (s : St) :
    ∃ st b k, (p938x_program_fw env s).2.chip =
      { s.chip with program_fw_stat := st, boost_enabled := b, keep_awake := k } := by
  unfold p938x_program_fw
  split
  · exact ⟨_, _, _, rfl⟩
  · split
    · exact ⟨_, _, _, rfl⟩
    · unfold request_firmware St.ask
      dsimp only
      split
      · exact ⟨_, _, _, rfl⟩
      · split
        · refine ⟨FwStat.PROGRAM_FW_FAIL, false, s.chip.tx_attached, ?_⟩
          simp [set_boost_chip, release_firmware]
        · split
          · refine ⟨FwStat.PROGRAM_FW_FAIL, false, s.chip.tx_attached, ?_⟩
            simp [set_boost_chip, release_firmware]
          · refine ⟨FwStat.PROGRAM_FW_SUCCESS, false, s.chip.tx_attached, ?_⟩
            simp [set_boost_chip, release_firmware]

theorem op_run_exclusive (env : Env) (s : St) (op : Op) (h : tx_exclusive s.chip) :
    tx_exclusive (op.run env s).chip := by
  cases op with
  | check_status => exact check_status_exclusive env s h
  | removal =>
    intro ⟨h1, _⟩
    simp only [Op.run] at h1
    rw [handle_wls_removal_tx_attached] at h1
    exact absurd h1 (by simp)
  | set_tx_mode val => exact set_tx_mode_exclusive env s val h
  | set_boost val =>
    simp only [Op.run]
    unfold tx_exclusive
    rw [set_boost_chip]
    exact h
  | program_fw =>
    simp only [Op.run]
    obtain ⟨st, b, k, hc⟩ := program_fw_chip env s
    unfold tx_exclusive
    rw [hc]
    exact h

theorem run_ops_exclusive (s : St) (ops : List (Op × Env)) (h : tx_exclusive s.chip) :
    tx_exclusive (run_ops s ops).chip := by
  induction ops generalizing s with
  | nil => exact h
  | cons o rest ih =>
    obtain ⟨op, env⟩ := o
    exact ih _ (op_run_exclusive env s op h)

theorem reg_writes_append (reg : Nat) (a b : List Nat) :
    reg_writes reg (a ++ b) = reg_writes reg a ++ reg_writes (reg + a.length) b := by
  induction a generalizing reg with
  | nil => simp [reg_writes]
  | cons x xs ih =>
    have h : reg + 1 + xs.length = reg + (xs.length + 1) := by omega
    show reg_writes reg (x :: (xs ++ b)) = _
    simp only [reg_writes, ih, List.length_cons, List.cons_append, h]

/-- The write loop in general: some prefix of the buffer is written in
order; the loop reports failure if it stopped early. -/
theorem write_reg_loop_log (env : Env) (s : St) (reg : Nat) (buf : List Nat) (rc : Int) :
    ∃ k, k ≤ buf.length ∧
      (write_reg_loop env s reg buf rc).2 =
        ⟨s.chip, s.tick + k, s.log ++ reg_writes reg (buf.take k)⟩ ∧
      (k < buf.length → (write_reg_loop env s reg buf rc).1 < 0) := by
  induction buf generalizing s reg rc with
  | nil => exact ⟨0, le_refl _, by simp [write_reg_loop, reg_writes], by simp⟩
  | cons b bs ih =>
    unfold write_reg_loop
    dsimp only
    split
    · next hneg =>
      refine ⟨1, by simp, ?_, fun _ => hneg⟩
      simp [p938x_write_reg, regmap_write, St.ask, reg_writes]
    · obtain ⟨k, hk, hst, hfail⟩ := ih (p938x_write_reg env s reg b).2 (reg + 1)
        (p938x_write_reg env s reg b).1
      refine ⟨k + 1, by simp [hk], ?_, ?_⟩
      · rw [hst]
        simp [p938x_write_reg, regmap_write, St.ask, reg_writes, Nat.add_assoc, Nat.add_comm 1 k]
      · intro hlt
        exact hfail (by simpa using hlt)

/-- The write loop on a bus that accepts every write. -/
theorem write_reg_loop_ok (env : Env) (s : St) (reg : Nat) (buf : List Nat) (rc : Int)
    (hok : ∀ i, i < buf.length → (env (s.tick + i)).rc = Rc.ok) :
    write_reg_loop env s reg buf rc =
      (if buf = [] then rc else 0, ⟨s.chip, s.tick + buf.length, s.log ++ reg_writes reg buf⟩) := by
  induction buf generalizing s reg rc with
  | nil => simp [write_reg_loop, reg_writes]
  | cons b bs ih =>
    have h0 : (env s.tick).rc = Rc.ok := by simpa using hok 0 (by simp)
    unfold write_reg_loop
    simp only [p938x_write_reg, regmap_write, St.ask, h0, Rc.toInt, lt_self_iff_false, if_false]
    rw [ih]
    · cases bs <;> simp [reg_writes, Nat.add_assoc, Nat.add_comm 1]
    · intro i hi
      have := hok (i + 1) (by simpa using hi)
      simpa [Nat.add_assoc, Nat.add_comm 1 i] using this

theorem poll_log_append (a b : Nat) : poll_log (a + b) = poll_log a ++ poll_log b := by
  induction a with
  | zero => simp [poll_log]
  | succ n ih =>
    have h : n + 1 + b = (n + b) + 1 := by omega
    rw [h]
    simp [poll_log, ih]

/-- One poll that reads "busy" before the cap: the wait goes round again. -/
theorem mtp_status_wait_busy_step (env : Env) (s : St) (b r : Nat) (hr : r ≤ 30)
    (hok : (env s.tick).rc = Rc.ok) (h1 : (env s.tick).data.headD 0 % 256 = 1) :
    mtp_status_wait env s b r =
      mtp_status_wait env ⟨s.chip, s.tick + 1, s.log ++ poll_log 1⟩ 1 (r + 1) := by
  rw [mtp_status_wait]
  have hr' : ¬ r > FW_MTP_CHECK_ST_RETRY_CNT := by
    simp only [FW_MTP_CHECK_ST_RETRY_CNT]; omega
  have h1' : (env s.tick).data.head?.getD 0 % 256 = 1 := by simpa using h1
  simp [hr', p938x_read_reg, regmap_read, St.ask, msleep, St.emit, hok, Rc.toInt, h1', poll_log]

/-- The poll made once the cap is exceeded: its value is returned whatever it is. -/
theorem mtp_status_wait_last (env : Env) (s : St) (b r : Nat) (hr : 30 < r) :
    mtp_status_wait env s b r =
      ((p938x_read_reg env (msleep s 20) 0x400 b).2.1,
        ⟨s.chip, s.tick + 1, s.log ++ poll_log 1⟩) := by
  rw [mtp_status_wait]
  have hr' : r > FW_MTP_CHECK_ST_RETRY_CNT := by
    simp only [FW_MTP_CHECK_ST_RETRY_CNT]; omega
  simp only [hr', if_true]
  unfold p938x_read_reg regmap_read St.ask msleep St.emit
  dsimp only
  split <;> simp [poll_log]

/-- After `n` busy polls the wait is where it would be when entered with
`retry_cnt` advanced by `n`. -/
theorem mtp_status_wait_busy (env : Env) (n : Nat) (s : St) (b r : Nat) (hr : r + n ≤ 31)
    (hbusy : ∀ i, i < n → (env (s.tick + i)).rc = Rc.ok ∧
      (env (s.tick + i)).data.headD 0 % 256 = 1) :
    mtp_status_wait env s b r =
      mtp_status_wait env ⟨s.chip, s.tick + n, s.log ++ poll_log n⟩
        (if n = 0 then b else 1) (r + n) := by
  induction n generalizing s b r with
  | zero => simp [poll_log]
  | succ n ih =>
    have h0 := hbusy 0 (by omega)
    rw [mtp_status_wait_busy_step env s b r (by omega) (by simpa using h0.1)
      (by simpa using h0.2)]
    rw [ih _ 1 (r + 1) (by omega)]
    · have e1 : s.tick + 1 + n = s.tick + (n + 1) := by omega
      have e2 : r + 1 + n = r + (n + 1) := by omega
      have e3 : poll_log 1 ++ poll_log n = poll_log (n + 1) := by
        rw [Nat.add_comm n 1, poll_log_append]
      simp only [e1, e2, List.append_assoc, e3]
      simp
    · intro i hi
      have := hbusy (i + 1) (by omega)
      have e : s.tick + 1 + i = s.tick + (i + 1) := by omega
      simpa [e] using this

/-- Every wait ends, having made between 1 and 32 polls and nothing else. -/
theorem mtp_status_wait_log (env : Env) (s : St) (b r : Nat) :
    ∃ n, 1 ≤ n ∧ n + r ≤ 32 + r - min r 31 ∧
      (mtp_status_wait env s b r).2 = ⟨s.chip, s.tick + n, s.log ++ poll_log n⟩ := by
  induction s, b, r using mtp_status_wait.induct env with
  | case1 s b r h =>
    simp only [FW_MTP_CHECK_ST_RETRY_CNT] at h
    rw [mtp_status_wait_last env s b r (by omega)]
    exact ⟨1, le_refl _, by omega, rfl⟩
  | case2 s b r s1 rd h1 h2 ih =>
    simp only [FW_MTP_CHECK_ST_RETRY_CNT] at h1
    obtain ⟨n, hn1, hn2, hst⟩ := ih
    refine ⟨n + 1, by omega, by omega, ?_⟩
    rw [mtp_status_wait]
    have hr' : ¬ r > FW_MTP_CHECK_ST_RETRY_CNT := by
      simp only [FW_MTP_CHECK_ST_RETRY_CNT]; omega
    simp only [hr', if_false]
    rw [if_pos h2, hst]
    have hrd : rd.2.2 = ⟨s.chip, s.tick + 1, s.log ++ poll_log 1⟩ := by
      simp only [rd, s1]
      unfold p938x_read_reg regmap_read St.ask msleep St.emit
      dsimp only
      split <;> simp [poll_log]
    rw [hrd]
    have e3 : poll_log 1 ++ poll_log n = poll_log (n + 1) := by
      rw [Nat.add_comm n 1, poll_log_append]
    simp [Nat.add_assoc, Nat.add_comm 1 n, e3]
  | case3 s b r s1 rd h1 h2 =>
    refine ⟨1, le_refl _, by omega, ?_⟩
    rw [mtp_status_wait]
    simp only [h1, if_false]
    rw [if_neg h2]
    simp only [rd, s1]
    unfold p938x_read_reg regmap_read St.ask msleep St.emit
    dsimp only
    split <;> simp [poll_log]

theorem map_getD_range_eq_take (src : List Nat) (n : Nat) (h : n ≤ src.length) :
    (List.range n).map (fun i => src.getD i 0) = src.take n := by
  apply List.ext_getElem
  · simp [h]
  · intro i h1 h2
    simp at h1 h2
    simp [List.getD_eq_getElem?_getD, List.getElem?_eq_getElem (by omega : i < src.length)]

theorem mtp_wire_length (src : List Nat) (addr size : Nat) :
    (mtp_wire src addr size).length = mtp_packet_len addr size := by
  have hb := mtp_padded_len_bounds addr size
  rw [mtp_wire_eq]
  simp [u16_bytes, mtp_payload_region_length]
  omega

theorem mtp_wire_layout (image : List Nat) (addr : Nat) (hsize : image.length < 2 ^ 32)
    (hlt : addr < image.length) :
    mtp_wire (image.drop addr) addr image.length =
      packet_layout addr (mtp_padded_len addr image.length)
        (mtp_check_sum (image.drop addr) addr image.length)
        ((image.drop addr).take (min 128 (image.length - addr)))
        (mtp_packet_len addr image.length) := by
  have hb := mtp_padded_len_bounds addr image.length
  have hL := mtp_code_len_eq addr image.length hsize hlt
  rw [mtp_wire_eq, packet_layout, mtp_payload_region, hL]
  rw [map_getD_range_eq_take _ _ (by simp)]
  have hlen : ((image.drop addr).take (min 128 (image.length - addr))).length
      = min 128 (image.length - addr) := by
    simp
  rw [List.take_append_eq_append_take, hlen, List.take_replicate]
  rw [List.take_of_length_le (by rw [hlen]; omega)]
  have e : min (mtp_packet_len addr image.length - 8 - min 128 (image.length - addr))
      (136 - min 128 (image.length - addr))
      = mtp_packet_len addr image.length - 8 - min 128 (image.length - addr) := by
    omega
  rw [e]
  simp [List.append_assoc]

/-- The log of one packet transfer in general. -/
theorem program_mtp_package_log (env : Env) (s : St) (src : List Nat) (addr size : Nat) :
    ∃ k rest, k ≤ (mtp_wire src addr size).length ∧
      (p938x_program_mtp_package env s src addr size).2.log =
        s.log ++ reg_writes 0x400 ((mtp_wire src addr size).take k) ++ rest ∧
      (k < (mtp_wire src addr size).length → rest = []) := by
  unfold p938x_program_mtp_package
  obtain ⟨k, hk, hst, hfail⟩ := write_reg_loop_log env s 0x400 (mtp_wire src addr size) 0
  unfold mtp_wire at hk hst hfail ⊢
  dsimp only
  refine ⟨k, ?_⟩
  split
  · exact ⟨[], hk, by rw [hst]; simp, fun _ => rfl⟩
  · next hnn =>
    have hkk : ¬ k < ((mtp_packet_buf src addr size).take (mtp_packet_len addr size)).length :=
      fun h => hnn (hfail h)
    split
    · refine ⟨[Ev.reg_write 1024 1], hk, ?_, fun h => absurd h hkk⟩
      rw [show (p938x_write_reg env _ 1024 1).2.log = _ ++ [Ev.reg_write 1024 1] from rfl, hst]
    · obtain ⟨n, _, _, hw⟩ := mtp_status_wait_log env
        (p938x_write_reg env (write_reg_loop env s 1024
          ((mtp_packet_buf src addr size).take (mtp_packet_len addr size)) 0).2 1024 1).2
        ((mtp_packet_buf src addr size).getD 0 0) 0
      refine ⟨[Ev.reg_write 1024 1] ++ poll_log n, hk, ?_, fun h => absurd h hkk⟩
      split
      · dsimp only
        rw [hw]
        rw [show (p938x_write_reg env _ 1024 1).2.log = _ ++ [Ev.reg_write 1024 1] from rfl, hst]
        simp
      · dsimp only
        rw [hw]
        rw [show (p938x_write_reg env _ 1024 1).2.log = _ ++ [Ev.reg_write 1024 1] from rfl, hst]
        simp

theorem mtp_packet_buf_head (src : List Nat) (addr size : Nat) :
    (mtp_packet_buf src addr size).getD 0 0 = 0 := by
  rw [mtp_packet_buf_eq]; rfl

/-- A packet whose bytes and validation byte were all accepted: the outcome
is decided by the status wait. -/
theorem program_mtp_package_sent (env : Env) (s : St) (src : List Nat) (addr size : Nat)
    (hok : ∀ i, i ≤ mtp_packet_len addr size → (env (s.tick + i)).rc = Rc.ok) :
    p938x_program_mtp_package env s src addr size =
      (if (mtp_status_wait env
            ⟨s.chip, s.tick + mtp_packet_len addr size + 1,
              s.log ++ reg_writes 0x400 (mtp_wire src addr size) ++ [Ev.reg_write 0x400 1]⟩
            0 0).1 ≠ 2 then -EAGAIN else 0,
       (mtp_status_wait env
            ⟨s.chip, s.tick + mtp_packet_len addr size + 1,
              s.log ++ reg_writes 0x400 (mtp_wire src addr size) ++ [Ev.reg_write 0x400 1]⟩
            0 0).2) := by
  have hlen := mtp_wire_length src addr size
  have hpl : 0 < mtp_packet_len addr size := by
    have := mtp_padded_len_bounds addr size; omega
  have hne : mtp_wire src addr size ≠ [] := by
    intro h; rw [h] at hlen; simp at hlen; omega
  have hw := write_reg_loop_ok env s 0x400 (mtp_wire src addr size) 0
    (fun i hi => hok i (by rw [hlen] at hi; omega))
  have hv : (env (s.tick + mtp_packet_len addr size)).rc = Rc.ok := hok _ (le_refl _)
  unfold p938x_program_mtp_package
  unfold mtp_wire at hw hne hlen
  dsimp only
  rw [hw]
  simp only [hne, if_false, lt_self_iff_false, p938x_write_reg, regmap_write, St.ask, hlen, hv,
    Rc.toInt, mtp_packet_buf_head]
  split <;> simp_all [mtp_wire]

/-- With the packet accepted, 31 busy polls followed by a poll that reads 2
end in success, after 32 polls. -/
theorem program_mtp_package_late_success (env : Env) (s : St) (src : List Nat)
    (addr size : Nat)
    (hok : ∀ i, i ≤ mtp_packet_len addr size → (env (s.tick + i)).rc = Rc.ok)
    (hbusy : ∀ i, i < 31 →
      (env (s.tick + mtp_packet_len addr size + 1 + i)).rc = Rc.ok ∧
      (env (s.tick + mtp_packet_len addr size + 1 + i)).data.headD 0 % 256 = 1)
    (hlast : (env (s.tick + mtp_packet_len addr size + 1 + 31)).rc = Rc.ok ∧
      (env (s.tick + mtp_packet_len addr size + 1 + 31)).data.headD 0 % 256 = 2) :
    p938x_program_mtp_package env s src addr size =
      (0, ⟨s.chip, s.tick + mtp_packet_len addr size + 33,
            s.log ++ reg_writes 0x400 (mtp_wire src addr size) ++ [Ev.reg_write 0x400 1]
              ++ poll_log 32⟩) := by
  rw [program_mtp_package_sent env s src addr size hok]
  rw [mtp_status_wait_busy env 31 _ 0 0 (by omega) hbusy]
  rw [mtp_status_wait_last env _ _ _ (by omega)]
  have h2 : (env (s.tick + mtp_packet_len addr size + 1 + 31)).data.head?.getD 0 % 256 = 2 := by
    simpa using hlast.2
  have e3 : poll_log 31 ++ poll_log 1 = poll_log 32 := by
    rw [← poll_log_append]
  simp [p938x_read_reg, regmap_read, St.ask, msleep, St.emit, hlast.1, Rc.toInt, h2,
    List.append_assoc, e3]

/-- With the packet accepted, 32 busy polls end in the time-out error. -/
theorem program_mtp_package_timeout (env : Env) (s : St) (src : List Nat)
    (addr size : Nat)
    (hok : ∀ i, i ≤ mtp_packet_len addr size → (env (s.tick + i)).rc = Rc.ok)
    (hbusy : ∀ i, i < 32 →
      (env (s.tick + mtp_packet_len addr size + 1 + i)).rc = Rc.ok ∧
      (env (s.tick + mtp_packet_len addr size + 1 + i)).data.headD 0 % 256 = 1) :
    p938x_program_mtp_package env s src addr size =
      (-EAGAIN, ⟨s.chip, s.tick + mtp_packet_len addr size + 33,
            s.log ++ reg_writes 0x400 (mtp_wire src addr size) ++ [Ev.reg_write 0x400 1]
              ++ poll_log 32⟩) := by
  rw [program_mtp_package_sent env s src addr size hok]
  rw [mtp_status_wait_busy env 31 _ 0 0 (by omega) (fun i hi => hbusy i (by omega))]
  rw [mtp_status_wait_last env _ _ _ (by omega)]
  have hl := hbusy 31 (by omega)
  have h2 : (env (s.tick + mtp_packet_len addr size + 1 + 31)).data.head?.getD 0 % 256 = 1 := by
    simpa using hl.2
  have e3 : poll_log 31 ++ poll_log 1 = poll_log 32 := by
    rw [← poll_log_append]
  simp [p938x_read_reg, regmap_read, St.ask, msleep, St.emit, hl.1, Rc.toInt, h2,
    List.append_assoc, e3]

/-- The log of one packet transfer when the bus accepts every packet byte. -/
theorem program_mtp_package_log_ok (env : Env) (s : St) (src : List Nat) (addr size : Nat)
    (hok : ∀ i, i < mtp_packet_len addr size → (env (s.tick + i)).rc = Rc.ok) :
    ∃ rest, (p938x_program_mtp_package env s src addr size).2.log =
      s.log ++ reg_writes 0x400 (mtp_wire src addr size) ++ Ev.reg_write 0x400 1 :: rest := by
  have hlen := mtp_wire_length src addr size
  have hpl : 0 < mtp_packet_len addr size := by
    have := mtp_padded_len_bounds addr size; omega
  have hne : mtp_wire src addr size ≠ [] := by
    intro h; rw [h] at hlen; simp at hlen; omega
  have hw := write_reg_loop_ok env s 0x400 (mtp_wire src addr size) 0
    (fun i hi => hok i (by rw [hlen] at hi; exact hi))
  unfold p938x_program_mtp_package
  unfold mtp_wire at hw hne hlen ⊢
  dsimp only
  rw [hw]
  simp only [hne, if_false, lt_self_iff_false]
  split
  · exact ⟨[], rfl⟩
  · obtain ⟨n, _, _, hwait⟩ := mtp_status_wait_log env
      (p938x_write_reg env
        ⟨s.chip, s.tick + ((mtp_packet_buf src addr size).take (mtp_packet_len addr size)).length,
          s.log ++ reg_writes 1024
            ((mtp_packet_buf src addr size).take (mtp_packet_len addr size))⟩ 1024 1).2
      ((mtp_packet_buf src addr size).getD 0 0) 0
    refine ⟨poll_log n, ?_⟩
    split
    · dsimp only
      rw [hwait]
      simp [p938x_write_reg, regmap_write, St.ask]
    · dsimp only
      rw [hwait]
      simp [p938x_write_reg, regmap_write, St.ask]

/-! ### Status handling, firmware return codes -/

theorem rc_toInt_nonpos (r : Rc) : r.toInt ≤ 0 := by
  cases r with
  | ok => simp [Rc.toInt]
  | err e => simp only [Rc.toInt]; omega

theorem rc_toInt_eq_zero (r : Rc) : r.toInt = 0 ↔ r = Rc.ok := by
  cases r with
  | ok => simp [Rc.toInt]
  | err e =>
    simp only [Rc.toInt]
    constructor
    · intro h; omega
    · intro h; cases h

theorem rc_toInt_neg (r : Rc) : r.toInt < 0 ↔ r ≠ Rc.ok := by
  have h1 := rc_toInt_nonpos r
  have h2 := rc_toInt_eq_zero r
  constructor
  · intro h hr; rw [h2.mpr hr] at h; omega
  · intro h
    have : r.toInt ≠ 0 := fun h0 => h (h2.mp h0)
    omega

/-- A bulk read that is answered returns the bytes and leaves the chip alone. -/
theorem read_buffer_ok (env : Env) (s : St) (reg size : Nat) (h : (env s.tick).rc = Rc.ok) :
    p938x_read_buffer env s reg size =
      (0, (List.range size).map (fun i => (env s.tick).data.getD i 0 % 256),
        ⟨s.chip, s.tick + 1, s.log ++ [Ev.bulk_read reg size]⟩) := by
  simp [p938x_read_buffer, regmap_bulk_read, St.ask, h, Rc.toInt]

/-- A bulk read that fails is followed by the removal handler. -/
theorem read_buffer_fail (env : Env) (s : St) (reg size : Nat) (h : (env s.tick).rc ≠ Rc.ok) :
    (p938x_read_buffer env s reg size).1 < 0 ∧
    (p938x_read_buffer env s reg size).2.2 =
      p938x_handle_wls_removal env ⟨s.chip, s.tick + 1, s.log ++ [Ev.bulk_read reg size]⟩ := by
  have hneg := (rc_toInt_neg _).mpr h
  have hne : (env s.tick).rc.toInt ≠ 0 := by omega
  simp [p938x_read_buffer, regmap_bulk_read, St.ask, hne, hneg]

/-- Both status reads answered: the snapshot is delivered. -/
theorem get_status_ok (env : Env) (s : St) (h0 : (env s.tick).rc = Rc.ok)
    (h1 : (env (s.tick + 1)).rc = Rc.ok) :
    p938x_get_status env s =
      (0, snap_status (env (s.tick + 1)), snap_irq (env (s.tick + 1)),
        ⟨s.chip, s.tick + 2,
          s.log ++ [Ev.bulk_read IRQ_ENABLE_REG 2, Ev.bulk_read DEV_STATUS_REG 4]⟩) := by
  unfold p938x_get_status
  rw [read_buffer_ok env s _ _ h0]
  simp only [lt_self_iff_false, if_false]
  rw [read_buffer_ok env _ _ _ h1]
  simp [snap_status, snap_irq, List.range, List.range.loop, le_val]

/-- The acknowledgment in full. -/
theorem clear_irq_eq (env : Env) (s : St) (mask : Nat) :
    p938x_clear_irq env s mask =
      ⟨s.chip, s.tick + (if (env s.tick).rc = Rc.ok then 3 else 2),
        s.log ++ irq_ack_log (decide ((env s.tick).rc = Rc.ok)) mask⟩ := by
  unfold p938x_clear_irq u16_bytes irq_ack_log
  by_cases h : (env s.tick).rc = Rc.ok
  · simp [p938x_write_buffer, regmap_write, St.ask, h, Rc.toInt, p938x_write_reg]
  · have hneg := (rc_toInt_neg _).mpr h
    simp [p938x_write_buffer, regmap_write, St.ask, h, hneg, p938x_write_reg]

/-- The voltage setter on a powered chip: one write of the clamped value. -/
theorem set_rx_vout_on (env : Env) (s : St) (mv : Nat)
    (hon : p938x_is_chip_on s.chip = true) :
    p938x_set_rx_vout env s mv =
      ((env s.tick).rc.toInt,
        ⟨s.chip, s.tick + 1,
          s.log ++ [Ev.reg_write VOUT_SET_REG (min (max mv 5000) 12000 / 100)]⟩) := by
  have hval : (if mv < 5000 then 5000 else if mv > 12000 then 12000 else mv) / 100 % 256
      = min (max mv 5000) 12000 / 100 := by
    split_ifs <;> omega
  simp only [p938x_set_rx_vout, hon, Bool.not_true, Bool.false_eq_true, if_false,
    p938x_write_reg, regmap_write, St.ask, MIN_VOUT_SET, MAX_VOUT_SET, hval]

/-- The current-limit setter on a powered chip: one write of the clamped value. -/
theorem set_rx_ocl_on (env : Env) (s : St) (ma : Nat)
    (hon : p938x_is_chip_on s.chip = true) :
    p938x_set_rx_ocl env s ma =
      ((env s.tick).rc.toInt,
        ⟨s.chip, s.tick + 1,
          s.log ++ [Ev.reg_write ILIMIT_SET_REG ((min (max ma 500) 3000 - 100) / 100)]⟩) := by
  have hval : ((if ma < 500 then 500 else if ma > 3000 then 3000 else ma) - 100) / 100 % 256
      = (min (max ma 500) 3000 - 100) / 100 := by
    split_ifs <;> omega
  simp only [p938x_set_rx_ocl, hon, Bool.not_true, Bool.false_eq_true, if_false,
    p938x_write_reg, regmap_write, St.ask, MIN_IOUT_SET, MAX_IOUT_SET, hval]

/-- The setters on a chip that is not powered: nothing happens. -/
theorem set_rx_vout_off (env : Env) (s : St) (mv : Nat)
    (hoff : p938x_is_chip_on s.chip = false) : p938x_set_rx_vout env s mv = (1, s) := by
  simp [p938x_set_rx_vout, hoff]

theorem set_rx_ocl_off (env : Env) (s : St) (ma : Nat)
    (hoff : p938x_is_chip_on s.chip = false) : p938x_set_rx_ocl env s ma = (1, s) := by
  simp [p938x_set_rx_ocl, hoff]

/-- Mode detection on a powered chip whose mode byte is read with WPC active. -/
theorem check_system_mode_wpc (env : Env) (s : St) (hon : p938x_is_chip_on s.chip = true)
    (hrd : (env s.tick).rc = Rc.ok)
    (hwpc : ((env s.tick).data.getD 0 0 % 256) &&& SYS_MODE_WPCMODE ≠ 0) :
    (p938x_check_system_mode env s).1 = 0 ∧
    (p938x_check_system_mode env s).2.chip =
      { s.chip with
        epp_mode := decide (((env s.tick).data.getD 0 0 % 256) &&& SYS_MODE_EXTENDED ≠ 0) } ∧
    (p938x_check_system_mode env s).2.log =
      s.log ++ mode_limit_log ((env s.tick).data.getD 0 0 % 256)
        s.chip.wls_vout_max s.chip.wls_iout_max := by
  have hv := set_rx_vout_on env
  have hi := set_rx_ocl_on env
  unfold p938x_check_system_mode
  rw [read_buffer_ok env s _ _ hrd]
  have hmode : ((List.range 1).map (fun i => (env s.tick).data.getD i 0 % 256)).getD 0 0
      = (env s.tick).data.getD 0 0 % 256 := by
    simp [List.range, List.range.loop]
  simp only [lt_self_iff_false, if_false, hmode, hwpc, ne_eq, not_false_eq_true, if_true]
  generalize (env s.tick).data.getD 0 0 % 256 = mode at hwpc ⊢
  unfold mode_limit_log
  by_cases hext : mode &&& SYS_MODE_EXTENDED = 0
  · simp only [hext, not_true_eq_false, if_false, decide_False]
    rw [hv _ _ (by simpa using hon)]
    simp only []
    rw [hi _ _ (by simpa using hon)]
    simp only []
    by_cases h1 : s.chip.wls_vout_max = 0 <;> by_cases h2 : s.chip.wls_iout_max = 0
    · simp [h1, h2, BPP_MAX_VOUT, BPP_MAX_IOUT, hext]
    · simp only [h1, h2, not_true_eq_false, not_false_eq_true, if_true, if_false]
      rw [hi _ _ (by simpa using hon)]
      simp [BPP_MAX_VOUT, BPP_MAX_IOUT, h1, h2, hext]
    · simp only [h1, h2, not_true_eq_false, not_false_eq_true, if_true, if_false]
      rw [hv _ _ (by simpa using hon)]
      simp [BPP_MAX_VOUT, BPP_MAX_IOUT, h1, h2, hext]
    · simp only [h1, h2, not_true_eq_false, not_false_eq_true, if_true, if_false]
      rw [hv _ _ (by simpa using hon)]
      simp only [h2, not_false_eq_true, if_true]
      rw [hi _ _ (by simpa using hon)]
      simp [BPP_MAX_VOUT, BPP_MAX_IOUT, h1, h2, hext]
  · simp only [hext, not_false_eq_true, if_true, decide_True]
    rw [hv _ _ (by simpa using hon)]
    simp only []
    rw [hi _ _ (by simpa using hon)]
    simp only []
    by_cases h1 : s.chip.wls_vout_max = 0 <;> by_cases h2 : s.chip.wls_iout_max = 0
    · simp [h1, h2, EPP_MAX_VOUT, EPP_MAX_IOUT, hext]
    · simp only [h1, h2, not_true_eq_false, not_false_eq_true, if_true, if_false]
      rw [hi _ _ (by simpa using hon)]
      simp [EPP_MAX_VOUT, EPP_MAX_IOUT, h1, h2, hext]
    · simp only [h1, h2, not_true_eq_false, not_false_eq_true, if_true, if_false]
      rw [hv _ _ (by simpa using hon)]
      simp [EPP_MAX_VOUT, EPP_MAX_IOUT, h1, h2, hext]
    · simp only [h1, h2, not_true_eq_false, not_false_eq_true, if_true, if_false]
      rw [hv _ _ (by simpa using hon)]
      simp only [h2, not_false_eq_true, if_true]
      rw [hi _ _ (by simpa using hon)]
      simp [EPP_MAX_VOUT, EPP_MAX_IOUT, h1, h2, hext]

theorem logExt_refl (p : Ev → Bool) (s : St) : LogExt p s s :=
  ⟨[], by simp, by simp⟩

theorem logExt_trans {p : Ev → Bool} {s1 s2 s3 : St} (h12 : LogExt p s1 s2)
    (h23 : LogExt p s2 s3) : LogExt p s1 s3 := by
  obtain ⟨a, ha, hpa⟩ := h12
  obtain ⟨b, hb, hpb⟩ := h23
  refine ⟨a ++ b, by rw [hb, ha, List.append_assoc], ?_⟩
  intro e he
  rcases List.mem_append.mp he with h | h
  · exact hpa e h
  · exact hpb e h

theorem logExt_mono {p q : Ev → Bool} (hpq : ∀ e, p e = true → q e = true) {s1 s2 : St}
    (h : LogExt p s1 s2) : LogExt q s1 s2 := by
  obtain ⟨a, ha, hpa⟩ := h
  exact ⟨a, ha, fun e he => hpq e (hpa e he)⟩

theorem logExt_of_log_eq (p : Ev → Bool) {s1 s2 : St} (h : s2.log = s1.log) : LogExt p s1 s2 :=
  ⟨[], by simp [h], by simp⟩

theorem logExt_of_append (p : Ev → Bool) {s1 s2 : St} (l : List Ev)
    (h : s2.log = s1.log ++ l) (hp : ∀ e ∈ l, p e = true) : LogExt p s1 s2 :=
  ⟨l, h, hp⟩

theorem logExt_emit {p : Ev → Bool} (s : St) (e : Ev) (h : p e = true) :
    LogExt p s (s.emit e) :=
  ⟨[e], rfl, by simpa using h⟩

theorem logExt_ask {p : Ev → Bool} (env : Env) (s : St) (e : Ev) (h : p e = true) :
    LogExt p s (s.ask env e).2 :=
  ⟨[e], rfl, by simpa using h⟩

theorem pm_set_awake_ext (s : St) (awake : Bool) :
    LogExt ev_attach_step s (p938x_pm_set_awake s awake) := by
  unfold p938x_pm_set_awake pm_stay_awake pm_relax St.emit
  split_ifs
  · exact ⟨[Ev.stay_awake], rfl, by simp [ev_attach_step]⟩
  · exact ⟨[Ev.relax], rfl, by simp [ev_attach_step]⟩
  · exact logExt_refl _ _

theorem set_boost_ext (s : St) (val : Int) :
    LogExt ev_attach_step s (p938x_set_boost s val) := by
  unfold p938x_set_boost
  dsimp only
  split_ifs
  · refine logExt_trans ?_ (pm_set_awake_ext _ _)
    exact ⟨[Ev.gpio_set Gpio.wchg_boost 1], rfl, by simp [ev_attach_step]⟩
  · refine logExt_trans ?_ (pm_set_awake_ext _ _)
    exact ⟨[Ev.gpio_set Gpio.wchg_boost 0], rfl, by simp [ev_attach_step]⟩
  · exact ⟨[Ev.gpio_set Gpio.wchg_boost 0], rfl, by simp [ev_attach_step]⟩

theorem set_dc_psp_prop_ext (env : Env) (s : St) (psp : DcProp) (val : Int) :
    LogExt ev_attach_step s (p938x_set_dc_psp_prop env s psp val).2 := by
  unfold p938x_set_dc_psp_prop power_supply_set_property_dc
  split_ifs
  · exact logExt_ask env _ _ (by simp [ev_attach_step])
  · exact logExt_refl _ _

theorem read_reg_sys_mode_ext (env : Env) (s : St) (val : Nat) :
    LogExt ev_attach_step s (p938x_read_reg env s SYS_MODE_REG val).2.2 := by
  unfold p938x_read_reg regmap_read
  dsimp only
  split_ifs <;> exact logExt_ask env _ _ (by simp [ev_attach_step])

theorem write_reg_sys_mode_ext (env : Env) (s : St) (val : Nat) :
    LogExt ev_attach_step s (p938x_write_reg env s SYS_MODE_REG val).2 :=
  logExt_ask env _ _ (by simp [ev_attach_step])

theorem set_tx_mode_ext (env : Env) (s : St) (val : Int) :
    LogExt ev_attach_step s (p938x_set_tx_mode env s val) := by
  have hg : ∀ (t : St) (v : Nat), LogExt ev_attach_step t (gpio_set_value t Gpio.wchg_en_n v) :=
    fun t v => logExt_emit _ _ (by simp [ev_attach_step])
  have hm : ∀ (t : St) (v : Nat), LogExt ev_attach_step t (msleep t v) :=
    fun t v => logExt_emit _ _ (by simp [ev_attach_step])
  have hdc := set_dc_psp_prop_ext env
  unfold p938x_set_tx_mode p938x_set_dc_suspend p938x_set_dc_en_override
  dsimp only
  split_ifs
  all_goals
    first
    | exact logExt_refl _ _
    | (repeat' (first
        | exact logExt_refl _ _
        | exact hg _ _
        | refine logExt_trans ?_ (hg _ _)
        | refine logExt_trans ?_ (hm _ _)
        | refine logExt_trans ?_ (hdc _ _ _)
        | refine logExt_trans ?_ (set_boost_ext _ _)
        | refine logExt_trans ?_ (write_reg_sys_mode_ext env _ _)
        | refine logExt_trans ?_ (read_reg_sys_mode_ext env _ _)))

/-- Status handling as its stages: when the snapshot is read, the result is
the acknowledgment run in `status_before_ack`. -/
theorem check_status_eq (env : Env) (s : St) (h : (p938x_get_status env s).1 = 0) :
    p938x_check_status env s =
      (0, p938x_clear_irq env (status_before_ack env s) (p938x_get_status env s).2.2.1) := by
  unfold p938x_check_status status_before_ack status_attach status_after_vout
    status_after_conflict
  rcases hg : p938x_get_status env s with ⟨rc, status, irq_status, s1⟩
  rw [hg] at h
  simp only at h
  simp only [h, ne_eq, not_true_eq_false, if_false]

theorem check_status_fail (env : Env) (s : St) (h : (p938x_get_status env s).1 ≠ 0) :
    p938x_check_status env s = (1, (p938x_get_status env s).2.2.2) := by
  unfold p938x_check_status
  rcases hg : p938x_get_status env s with ⟨rc, status, irq_status, s1⟩
  rw [hg] at h
  simp only at h
  simp only [ne_eq, h, not_false_eq_true, if_true]

theorem ev_attach_step_body (e : Ev) (h : ev_attach_step e = true) : ev_status_body e = true := by
  simp [ev_status_body, h]

theorem ev_status_body_not_irq_clear (e : Ev) (h : ev_status_body e = true) :
    e.is_irq_clear_write = false := by
  cases e <;> simp_all [ev_status_body, ev_attach_step, Ev.is_irq_clear_write, IRQ_CLEAR_REG,
    SYS_MODE_REG, VOUT_SET_REG, ILIMIT_SET_REG]
  omega

theorem ev_attach_step_not_work (e : Ev) (h : ev_attach_step e = true) : e.is_work = false := by
  cases e <;> simp_all [ev_attach_step, Ev.is_work]

theorem update_supplies_status_ext (env : Env) (s : St) :
    LogExt ev_attach_step s (p938x_update_supplies_status env s).2 := by
  unfold p938x_update_supplies_status power_supply_get_by_name_usb
    power_supply_get_property_present gpio_set_value St.emit St.ask
  dsimp only
  split_ifs <;> simp [LogExt, ev_attach_step]

theorem reset_ext (env : Env) (s : St) : LogExt ev_status_body s (p938x_reset env s) :=
  ⟨[Ev.reg_write 0x3040 0x80, Ev.msleep 100], by
    simp [p938x_reset, p938x_write_reg, regmap_write, St.ask, msleep, St.emit],
   by simp [ev_status_body, ev_attach_step]⟩

theorem handle_wls_removal_ext (env : Env) (s : St) :
    LogExt ev_status_body s (p938x_handle_wls_removal env s) := by
  unfold p938x_handle_wls_removal
  dsimp only
  split_ifs
  · refine logExt_trans ?_ (reset_ext env _)
    refine logExt_trans ?_ (logExt_mono ev_attach_step_body (pm_set_awake_ext _ _))
    exact ⟨[Ev.psy_changed, Ev.cancel_work], by
      simp [cancel_delayed_work, power_supply_changed, St.emit],
      by simp [ev_status_body, ev_attach_step]⟩
  · exact ⟨[Ev.psy_changed, Ev.cancel_work], by
      simp [cancel_delayed_work, power_supply_changed, St.emit],
      by simp [ev_status_body, ev_attach_step]⟩
  · exact logExt_refl _ _

theorem read_buffer_ext (env : Env) (s : St) (reg size : Nat) :
    LogExt ev_status_body s (p938x_read_buffer env s reg size).2.2 := by
  have h1 : LogExt ev_status_body s (s.ask env (Ev.bulk_read reg size)).2 :=
    logExt_ask env _ _ (by simp [ev_status_body])
  unfold p938x_read_buffer regmap_bulk_read
  dsimp only
  split_ifs
  · exact logExt_trans h1 (handle_wls_removal_ext env _)
  · exact h1

theorem set_rx_vout_ext (env : Env) (s : St) (mv : Nat) :
    LogExt ev_status_body s (p938x_set_rx_vout env s mv).2 := by
  unfold p938x_set_rx_vout p938x_write_reg regmap_write
  dsimp only
  split_ifs
  all_goals
    first
    | exact logExt_refl _ _
    | exact logExt_ask env _ _ (by simp [ev_status_body])

theorem set_rx_ocl_ext (env : Env) (s : St) (ma : Nat) :
    LogExt ev_status_body s (p938x_set_rx_ocl env s ma).2 := by
  unfold p938x_set_rx_ocl p938x_write_reg regmap_write
  dsimp only
  split_ifs
  all_goals
    first
    | exact logExt_refl _ _
    | exact logExt_ask env _ _ (by simp [ev_status_body])

theorem check_system_mode_ext (env : Env) (s : St) :
    LogExt ev_status_body s (p938x_check_system_mode env s).2 := by
  have hr := read_buffer_ext env s SYS_MODE_REG 1
  unfold p938x_check_system_mode
  rcases hrb : p938x_read_buffer env s SYS_MODE_REG 1 with ⟨rc, buf, s1⟩
  rw [hrb] at hr
  dsimp only at hr ⊢
  split_ifs
  all_goals
    first
    | exact hr
    | (repeat' (first
        | exact hr
        | refine logExt_trans ?_ (set_rx_vout_ext env _ _)
        | refine logExt_trans ?_ (set_rx_ocl_ext env _ _)))

theorem get_status_ext (env : Env) (s : St) :
    LogExt ev_status_body s (p938x_get_status env s).2.2.2 := by
  unfold p938x_get_status
  have h1 := read_buffer_ext env s IRQ_ENABLE_REG 2
  rcases hr1 : p938x_read_buffer env s IRQ_ENABLE_REG 2 with ⟨rc1, buf1, s1⟩
  rw [hr1] at h1
  have h2 := read_buffer_ext env s1 DEV_STATUS_REG 4
  rcases hr2 : p938x_read_buffer env s1 DEV_STATUS_REG 4 with ⟨rc2, buf2, s2⟩
  rw [hr2] at h2
  dsimp only at h1 h2 ⊢
  split_ifs
  · exact h1
  · simp only [hr2]; exact logExt_trans h1 h2
  · simp only [hr2]; exact logExt_trans h1 h2

theorem status_after_conflict_ext (env : Env) (s : St) :
    LogExt ev_status_body s (status_after_conflict env s) := by
  unfold status_after_conflict
  dsimp only
  split_ifs
  · refine logExt_trans ?_ (logExt_mono ev_attach_step_body (set_tx_mode_ext env _ 0))
    exact logExt_trans (get_status_ext env s) (logExt_of_log_eq _ rfl)
  · exact logExt_trans (get_status_ext env s) (logExt_of_log_eq _ rfl)

theorem status_after_vout_ext (env : Env) (s : St) :
    LogExt ev_status_body s (status_after_vout env s) := by
  unfold status_after_vout
  dsimp only
  split_ifs
  · refine logExt_trans (logExt_trans (status_after_conflict_ext env s)
      (check_system_mode_ext env _)) ?_
    exact ⟨[Ev.cancel_work, Ev.schedule_work 0, Ev.psy_changed], by
      simp [cancel_delayed_work, schedule_delayed_work, power_supply_changed, St.emit],
      by simp [ev_status_body, ev_attach_step]⟩
  · exact status_after_conflict_ext env s

theorem status_before_ack_ext (env : Env) (s : St) :
    LogExt ev_status_body s (status_before_ack env s) := by
  unfold status_before_ack status_attach
  dsimp only
  have hv := status_after_vout_ext env s
  have hu := logExt_mono ev_attach_step_body
    (update_supplies_status_ext env (status_after_vout env s))
  have htail : ∀ t : St, LogExt ev_status_body t
      (schedule_delayed_work (cancel_delayed_work
        ({ (p938x_pm_set_awake t true) with
            chip := { (p938x_pm_set_awake t true).chip with tx_attached := true } } : St)) 2000) := by
    intro t
    refine logExt_trans (logExt_mono ev_attach_step_body (pm_set_awake_ext t true)) ?_
    exact ⟨[Ev.cancel_work, Ev.schedule_work 2000], by
      simp [cancel_delayed_work, schedule_delayed_work],
      by simp [ev_status_body, ev_attach_step]⟩
  split_ifs
  · exact logExt_trans (logExt_trans (logExt_trans hv hu)
      (logExt_mono ev_attach_step_body (set_tx_mode_ext env _ 0))) (htail _)
  · exact logExt_trans (logExt_trans hv hu) (htail _)
  · exact hv

theorem snap_irq_lt (r : Resp) : snap_irq r < 2 ^ 16 := by
  simp only [snap_irq, le_val]
  omega

theorem snap_status_lt (r : Resp) : snap_status r < 2 ^ 16 := by
  simp only [snap_status, le_val]
  omega

/-- With the snapshot read, the conflict stage starts from the state that
records it. -/
theorem status_after_conflict_ok (env : Env) (s : St) (h0 : (env s.tick).rc = Rc.ok)
    (h1 : (env (s.tick + 1)).rc = Rc.ok) :
    status_after_conflict env s =
      if snap_irq (env (s.tick + 1)) &&& snap_status (env (s.tick + 1)) &&& ST_TX_CONFLICT ≠ 0
      then p938x_set_tx_mode env
        ⟨{ s.chip with stat := snap_status (env (s.tick + 1)),
                       irq_stat := snap_irq (env (s.tick + 1)) }, s.tick + 2,
          s.log ++ [Ev.bulk_read IRQ_ENABLE_REG 2, Ev.bulk_read DEV_STATUS_REG 4]⟩ 0
      else
        ⟨{ s.chip with stat := snap_status (env (s.tick + 1)),
                       irq_stat := snap_irq (env (s.tick + 1)) }, s.tick + 2,
          s.log ++ [Ev.bulk_read IRQ_ENABLE_REG 2, Ev.bulk_read DEV_STATUS_REG 4]⟩ := by
  unfold status_after_conflict
  rw [get_status_ok env s h0 h1]

/-- With the snapshot read and no actionable bit, nothing happens between
recording the snapshot and the acknowledgment. -/
theorem status_before_ack_idle (env : Env) (s : St) (h0 : (env s.tick).rc = Rc.ok)
    (h1 : (env (s.tick + 1)).rc = Rc.ok)
    (hc : snap_irq (env (s.tick + 1)) &&& snap_status (env (s.tick + 1)) &&& ST_TX_CONFLICT = 0)
    (hv : snap_irq (env (s.tick + 1)) &&& snap_status (env (s.tick + 1)) &&& ST_VOUT_ON = 0)
    (hr : snap_irq (env (s.tick + 1)) &&& snap_status (env (s.tick + 1)) &&& ST_VRECT_ON = 0) :
    status_before_ack env s =
      ⟨{ s.chip with stat := snap_status (env (s.tick + 1)),
                     irq_stat := snap_irq (env (s.tick + 1)) }, s.tick + 2,
        s.log ++ [Ev.bulk_read IRQ_ENABLE_REG 2, Ev.bulk_read DEV_STATUS_REG 4]⟩ := by
  unfold status_before_ack status_after_vout
  rw [status_after_conflict_ok env s h0 h1, get_status_ok env s h0 h1]
  simp only [hc, hv, hr, ne_eq, not_true_eq_false, if_false]

theorem testBit_low_byte (m i : Nat) (h : (m % 256).testBit i = true) : m.testBit i = true := by
  have : (256 : Nat) = 2 ^ 8 := by norm_num
  rw [this, Nat.testBit_mod_two_pow] at h
  simp at h
  exact h.2

theorem testBit_high_byte (m i : Nat) (h : (m / 256 % 256).testBit i = true) :
    m.testBit (i + 8) = true := by
  have : (256 : Nat) = 2 ^ 8 := by norm_num
  rw [this, Nat.testBit_mod_two_pow] at h
  simp at h
  have h2 := h.2
  have hd : m / 256 = m / 2 / 2 / 2 / 2 / 2 / 2 / 2 / 2 := by omega
  rw [hd] at h2
  simp only [Nat.testBit_div_two] at h2
  exact h2

/-- With only VRECT_ON actionable, the attach stage runs on the state that
records the snapshot. -/
theorem status_before_ack_vrect (env : Env) (s : St) (h0 : (env s.tick).rc = Rc.ok)
    (h1 : (env (s.tick + 1)).rc = Rc.ok)
    (hst : snap_status (env (s.tick + 1)) = 0x40) (hirq : snap_irq (env (s.tick + 1)) = 0x40) :
    status_before_ack env s =
      status_attach env
        ⟨{ s.chip with stat := 0x40, irq_stat := 0x40 }, s.tick + 2,
          s.log ++ [Ev.bulk_read IRQ_ENABLE_REG 2, Ev.bulk_read DEV_STATUS_REG 4]⟩ := by
  unfold status_before_ack status_after_vout
  rw [status_after_conflict_ok env s h0 h1, get_status_ok env s h0 h1]
  simp only [hst, hirq]
  have hc : (0x40 : Nat) &&& 0x40 &&& ST_TX_CONFLICT = 0 := by decide
  have hv : (0x40 : Nat) &&& 0x40 &&& ST_VOUT_ON = 0 := by decide
  have hr : (0x40 : Nat) &&& 0x40 &&& ST_VRECT_ON ≠ 0 := by decide
  simp only [hc, hv, hr, ne_eq, not_true_eq_false, not_false_eq_true, if_true, if_false]

/-- The attach stage: the flags it leaves, and its calls. -/
theorem status_attach_spec (env : Env) (s4 : St) :
    (status_attach env s4).chip.tx_attached = true ∧
    (status_attach env s4).chip.keep_awake = true ∧
    (status_attach env s4).chip.heartbeat = some 2000 ∧
    ∃ mid, (status_attach env s4).log =
        s4.log ++ mid ++ [Ev.cancel_work, Ev.schedule_work 2000] ∧
      ∀ e ∈ mid, ev_attach_step e = true := by
  unfold status_attach
  dsimp only
  refine ⟨by simp [schedule_delayed_work, cancel_delayed_work],
    by simp [schedule_delayed_work, cancel_delayed_work, pm_set_awake_chip],
    by simp [schedule_delayed_work, cancel_delayed_work], ?_⟩
  have hu := update_supplies_status_ext env s4
  have hm : LogExt ev_attach_step s4
      (p938x_pm_set_awake
        (if (p938x_update_supplies_status env s4).2.chip.tx_mode_en = true then
          p938x_set_tx_mode env (p938x_update_supplies_status env s4).2 0
         else (p938x_update_supplies_status env s4).2) true) := by
    refine logExt_trans ?_ (pm_set_awake_ext _ _)
    split_ifs
    · exact logExt_trans hu (set_tx_mode_ext env _ 0)
    · exact hu
  obtain ⟨mid, hlog, hp⟩ := hm
  refine ⟨mid, ?_, hp⟩
  simp [schedule_delayed_work, cancel_delayed_work, hlog]

theorem write_reg_rc (env : Env) (s : St) (reg val : Nat) :
    (p938x_write_reg env s reg val).1 ≤ 0 :=
  rc_toInt_nonpos _

theorem write_reg_loop_rc (env : Env) (s : St) (reg : Nat) (buf : List Nat) (rc : Int)
    (h : rc ≤ 0) : (write_reg_loop env s reg buf rc).1 ≤ 0 := by
  induction buf generalizing s reg rc with
  | nil => exact h
  | cons b bs ih =>
    unfold write_reg_loop
    dsimp only
    split
    · exact write_reg_rc env s reg b
    · exact ih _ _ _ (write_reg_rc env s reg b)

theorem program_mtp_downloader_rc (env : Env) (s : St) :
    (p938x_program_mtp_downloader env s).1 ≤ 0 := by
  unfold p938x_program_mtp_downloader
  dsimp only
  split_ifs
  all_goals
    try dsimp only
    first
    | exact write_reg_rc env _ _ _
    | exact write_reg_loop_rc env _ _ _ _ (write_reg_rc env _ _ _)

theorem program_mtp_package_rc (env : Env) (s : St) (src : List Nat) (addr size : Nat) :
    (p938x_program_mtp_package env s src addr size).1 ≤ 0 := by
  unfold p938x_program_mtp_package
  dsimp only
  split_ifs
  · exact write_reg_loop_rc env _ _ _ _ (le_refl _)
  · exact write_reg_rc env _ _ _
  · simp [EAGAIN]
  · exact le_refl _

theorem mtp_chunk_loop_rc (pkg : St → List Nat → Nat → Nat → Int × St) (s : St)
    (src : List Nat) (i size : Nat) (rc : Int)
    (h : (mtp_chunk_loop pkg s src i size).1 = some rc) : rc < 0 := by
  induction s, src, i, size using mtp_chunk_loop.induct pkg with
  | case1 s src i size hlt r hr =>
    rw [mtp_chunk_loop, if_pos hlt] at h
    simp only [] at h
    rw [if_pos hr] at h
    simp only [Option.some.injEq] at h
    rw [← h]; exact hr
  | case2 s src i size hlt r hr ih =>
    rw [mtp_chunk_loop, if_pos hlt] at h
    simp only [] at h
    rw [if_neg hr] at h
    exact ih h
  | case3 s src i size hlt =>
    rw [mtp_chunk_loop, if_neg hlt] at h
    simp at h

theorem program_mtp_rc (env : Env) (s : St) (src : List Nat) (size : Nat) :
    (p938x_program_mtp env s src size).1 ≤ 0 := by
  unfold p938x_program_mtp
  split
  · next rc s1 heq =>
    have := mtp_chunk_loop_rc (p938x_program_mtp_package env) s src 0 size rc (by rw [heq])
    exact le_of_lt this
  · dsimp only
    split_ifs
    all_goals
      try dsimp only
      exact write_reg_rc env _ _ _

theorem ev_attach_step_not_limit (e : Ev) (h : ev_attach_step e = true) :
    Ev.is_limit_write e = false := by
  cases e <;> simp_all [ev_attach_step, Ev.is_limit_write, SYS_MODE_REG, VOUT_SET_REG,
    ILIMIT_SET_REG]

theorem irq_ack_log_not_limit (b : Bool) (mask : Nat) :
    ∀ e ∈ irq_ack_log b mask, Ev.is_limit_write e = false := by
  intro e he
  cases b
  · simp [irq_ack_log, IRQ_CLEAR_REG, SYS_CMD_REG] at he
    rcases he with h | h <;>
      simp [h, Ev.is_limit_write, VOUT_SET_REG, ILIMIT_SET_REG]
  · simp [irq_ack_log, IRQ_CLEAR_REG, SYS_CMD_REG] at he
    rcases he with h | h | h <;>
      simp [h, Ev.is_limit_write, VOUT_SET_REG, ILIMIT_SET_REG]

theorem set_tx_mode_limits (env : Env) (s : St) (val : Int) :
    (p938x_set_tx_mode env s val).chip.wls_vout_max = s.chip.wls_vout_max ∧
    (p938x_set_tx_mode env s val).chip.wls_iout_max = s.chip.wls_iout_max := by
  unfold p938x_set_tx_mode
  dsimp only
  split_ifs <;> simp [set_boost_chip, gpio_set_value, St.emit, msleep]

theorem status_after_conflict_limits (env : Env) (s : St) (h0 : (env s.tick).rc = Rc.ok)
    (h1 : (env (s.tick + 1)).rc = Rc.ok) :
    (status_after_conflict env s).chip.wls_vout_max = s.chip.wls_vout_max ∧
    (status_after_conflict env s).chip.wls_iout_max = s.chip.wls_iout_max := by
  rw [status_after_conflict_ok env s h0 h1]
  split_ifs
  · rw [(set_tx_mode_limits env _ 0).1, (set_tx_mode_limits env _ 0).2]
    exact ⟨rfl, rfl⟩
  · exact ⟨rfl, rfl⟩

/-- The attach stage writes to no limit register. -/
theorem status_attach_ext (env : Env) (s4 : St) :
    ∃ ext, (status_attach env s4).log = s4.log ++ ext ∧
      ∀ e ∈ ext, Ev.is_limit_write e = false := by
  obtain ⟨_, _, _, mid, hlog, hmid⟩ := status_attach_spec env s4
  refine ⟨mid ++ [Ev.cancel_work, Ev.schedule_work 2000], by rw [hlog, List.append_assoc], ?_⟩
  intro e he
  rcases List.mem_append.mp he with h | h
  · exact ev_attach_step_not_limit e (hmid e h)
  · simp at h
    rcases h with h | h <;> simp [h, Ev.is_limit_write]

/-- The VOUT_ON stage on a powered chip whose mode byte has WPC active. -/
theorem status_after_vout_wpc (env : Env) (s : St) (h0 : (env s.tick).rc = Rc.ok)
    (h1 : (env (s.tick + 1)).rc = Rc.ok)
    (hv : snap_irq (env (s.tick + 1)) &&& snap_status (env (s.tick + 1)) &&& ST_VOUT_ON ≠ 0)
    (hon : p938x_is_chip_on (status_after_conflict env s).chip = true)
    (hrd : (env (status_after_conflict env s).tick).rc = Rc.ok)
    (hwpc : ((env (status_after_conflict env s).tick).data.getD 0 0 % 256)
      &&& SYS_MODE_WPCMODE ≠ 0) :
    (status_after_vout env s).log =
      (status_after_conflict env s).log ++
        mode_limit_log ((env (status_after_conflict env s).tick).data.getD 0 0 % 256)
          s.chip.wls_vout_max s.chip.wls_iout_max ++
        [Ev.cancel_work, Ev.schedule_work 0, Ev.psy_changed] := by
  obtain ⟨_, _, hlog⟩ := check_system_mode_wpc env (status_after_conflict env s) hon hrd hwpc
  obtain ⟨hvm, him⟩ := status_after_conflict_limits env s h0 h1
  rw [hvm, him] at hlog
  unfold status_after_vout
  rw [get_status_ok env s h0 h1]
  simp only [hv, ne_eq, not_false_eq_true, if_true]
  simp [power_supply_changed, schedule_delayed_work, cancel_delayed_work, St.emit, hlog]

/-- A poll that reads a value other than 1 ends the wait with that value,
whatever the retry count. -/
theorem mtp_status_wait_verdict (env : Env) (s : St) (b r v : Nat)
    (hok : (env s.tick).rc = Rc.ok) (hval : (env s.tick).data.headD 0 % 256 = v)
    (hv : v ≠ 1) :
    mtp_status_wait env s b r = (v, ⟨s.chip, s.tick + 1, s.log ++ poll_log 1⟩) := by
  have h2 : (env s.tick).data.head?.getD 0 % 256 = v := by simpa using hval
  rw [mtp_status_wait]
  split_ifs with ha hb
  · simp [p938x_read_reg, regmap_read, St.ask, msleep, St.emit, hok, Rc.toInt, h2, poll_log]
  · exfalso
    simp [p938x_read_reg, regmap_read, St.ask, msleep, St.emit, hok, Rc.toInt, h2] at hb
    exact hv hb
  · simp [p938x_read_reg, regmap_read, St.ask, msleep, St.emit, hok, Rc.toInt, h2, poll_log]

/-! ### Removal, telemetry, tx mode, set-up, upload order, wake-lock -/

theorem mtp_packet_buf_length (src : List Nat) (addr size : Nat) :
    (mtp_packet_buf src addr size).length = FW_MTP_PACK_SIZE := by
  rw [mtp_packet_buf_eq]
  simp [u16_bytes, mtp_payload_region_length, FW_MTP_PACK_SIZE, FW_MTP_PACK_HEADER_LEN,
    FW_MTP_PACK_DATA_LEN, FW_MTP_PADDING]

theorem low_nibble_of_u16 (b0 b1 : Nat) : (b0 + 256 * b1) &&& 0xf = b0 % 16 := by
  have h : (0xf : Nat) = 2 ^ 4 - 1 := by norm_num
  rw [h, Nat.and_pow_two_sub_one_eq_mod]
  omega

/-- The read-back of the current limit on a powered chip whose read is
answered: the low four bits of the first byte, decoded. -/
theorem get_rx_ocl_on (env : Env) (s : St) (hon : p938x_is_chip_on s.chip = true)
    (hrd : (env s.tick).rc = Rc.ok) :
    p938x_get_rx_ocl env s =
      ((((env s.tick).data.getD 0 0 % 256 % 16 * 100 + 100 : Nat) : Int),
        ⟨s.chip, s.tick + 1, s.log ++ [Ev.bulk_read ILIMIT_SET_REG 2]⟩) := by
  unfold p938x_get_rx_ocl
  rw [read_buffer_ok env s _ _ hrd]
  simp only [hon, Bool.not_true, Bool.false_eq_true, if_false, lt_self_iff_false]
  have : le_val ((List.range 2).map (fun i => (env s.tick).data.getD i 0 % 256))
      = (env s.tick).data.getD 0 0 % 256 + 256 * ((env s.tick).data.getD 1 0 % 256) := by
    simp [List.range, List.range.loop, le_val]
  rw [this, low_nibble_of_u16]

theorem ev_status_body_not_ack (e : Ev) (h : ev_status_body e = true) :
    e.is_ack_write = false := by
  cases e <;> simp_all [ev_status_body, ev_attach_step, Ev.is_ack_write, IRQ_CLEAR_REG,
    SYS_MODE_REG, VOUT_SET_REG, ILIMIT_SET_REG, SYS_CMD_REG]
  omega

/-- The removal handler yields the same chip state whatever the bus answers
and wherever the log stands. -/
theorem handle_wls_removal_chip_indep (env env' : Env) (s s' : St) (h : s'.chip = s.chip) :
    (p938x_handle_wls_removal env' s').chip = (p938x_handle_wls_removal env s).chip := by
  rw [handle_wls_removal_chip, handle_wls_removal_chip, h]

/-- A failed status read: `p938x_get_status` ends in the removal handler, run
right after the reads made. -/
theorem get_status_fail (env : Env) (s : St)
    (hfail : (env s.tick).rc ≠ Rc.ok ∨
      ((env s.tick).rc = Rc.ok ∧ (env (s.tick + 1)).rc ≠ Rc.ok)) :
    (p938x_get_status env s).1 < 0 ∧
    ∃ reads, (reads = [Ev.bulk_read IRQ_ENABLE_REG 2] ∨
        reads = [Ev.bulk_read IRQ_ENABLE_REG 2, Ev.bulk_read DEV_STATUS_REG 4]) ∧
      (p938x_get_status env s).2.2.2 =
        p938x_handle_wls_removal env ⟨s.chip, s.tick + reads.length, s.log ++ reads⟩ := by
  unfold p938x_get_status
  rcases hfail with h0 | ⟨h0, h1⟩
  · obtain ⟨hneg, hst⟩ := read_buffer_fail env s IRQ_ENABLE_REG 2 h0
    rcases hr : p938x_read_buffer env s IRQ_ENABLE_REG 2 with ⟨rc, buf, s1⟩
    rw [hr] at hneg hst
    dsimp only at hneg hst ⊢
    rw [if_pos hneg]
    exact ⟨hneg, [Ev.bulk_read IRQ_ENABLE_REG 2], Or.inl rfl, hst⟩
  · rw [read_buffer_ok env s _ _ h0]
    simp only [lt_self_iff_false, if_false]
    obtain ⟨hneg, hst⟩ := read_buffer_fail env
      ⟨s.chip, s.tick + 1, s.log ++ [Ev.bulk_read IRQ_ENABLE_REG 2]⟩ DEV_STATUS_REG 4 h1
    rcases hr : p938x_read_buffer env
      ⟨s.chip, s.tick + 1, s.log ++ [Ev.bulk_read IRQ_ENABLE_REG 2]⟩ DEV_STATUS_REG 4
      with ⟨rc, buf, s1⟩
    rw [hr] at hneg hst
    dsimp only at hneg hst ⊢
    rw [if_pos hneg]
    refine ⟨hneg, [Ev.bulk_read IRQ_ENABLE_REG 2, Ev.bulk_read DEV_STATUS_REG 4], Or.inr rfl, ?_⟩
    rw [hst]
    simp [List.append_assoc]

/-- On a chip that is not attached a bulk read only logs the read, whether
it fails or not. -/
theorem read_buffer_detached (env : Env) (s : St) (reg size : Nat)
    (h : s.chip.tx_attached = false) :
    (p938x_read_buffer env s reg size).2.2 =
      ⟨s.chip, s.tick + 1, s.log ++ [Ev.bulk_read reg size]⟩ := by
  unfold p938x_read_buffer regmap_bulk_read St.ask
  dsimp only
  split
  · exact handle_wls_removal_not_attached env _ h
  · rfl

/-- The removal handler on an attached chip: what it leaves and what it
calls. -/
theorem handle_wls_removal_attached (env : Env) (s : St) (h : s.chip.tx_attached = true) :
    (p938x_handle_wls_removal env s).chip.tx_attached = false ∧
    (p938x_handle_wls_removal env s).chip.stat = 0 ∧
    (p938x_handle_wls_removal env s).chip.heartbeat = none ∧
    ∃ rest, (p938x_handle_wls_removal env s).log =
        s.log ++ [Ev.psy_changed, Ev.cancel_work] ++ rest ∧
      ∀ e ∈ rest, e.is_work = false := by
  have hc := handle_wls_removal_chip env s
  rw [if_pos h] at hc
  refine ⟨by rw [hc], by rw [hc], by rw [hc], ?_⟩
  unfold p938x_handle_wls_removal
  simp only [h, if_true]
  cases hb : s.chip.boost_enabled <;> cases hk : s.chip.keep_awake <;>
    simp [hb, hk, cancel_delayed_work, power_supply_changed, St.emit, p938x_pm_set_awake,
      p938x_reset, p938x_write_reg, regmap_write, St.ask, msleep, pm_relax, Ev.is_work]

/-- A telemetry getter guarded by `p938x_is_tx_connected` does nothing when
`stat` is clear. -/
theorem get_rx_vrect_idle (env : Env) (s : St) (h : s.chip.stat = 0) :
    p938x_get_rx_vrect env s = (0, s) := by
  simp [p938x_get_rx_vrect, p938x_is_tx_connected, h]

theorem get_rx_iout_idle (env : Env) (s : St) (h : s.chip.stat = 0) :
    p938x_get_rx_iout env s = (0, s) := by
  simp [p938x_get_rx_iout, p938x_is_tx_connected, h]

/-- A getter guarded by `p938x_is_chip_on`, on a chip that is not attached:
the chip state is kept and at most one read is logged. -/
theorem get_rx_vout_set_detached (env : Env) (s : St) (h : s.chip.tx_attached = false) :
    (p938x_get_rx_vout_set env s).2.chip = s.chip ∧
    ∃ rest, (p938x_get_rx_vout_set env s).2.log = s.log ++ rest ∧
      ∀ e ∈ rest, e.is_work = false := by
  unfold p938x_get_rx_vout_set
  have hr := read_buffer_detached env s VOUT_SET_REG 1 h
  rcases hrb : p938x_read_buffer env s VOUT_SET_REG 1 with ⟨rc, buf, s1⟩
  rw [hrb] at hr
  dsimp only at hr ⊢
  split_ifs
  · exact ⟨rfl, [], by simp, by simp⟩
  all_goals
    rw [hr]
    exact ⟨rfl, [Ev.bulk_read VOUT_SET_REG 1], rfl, by simp [Ev.is_work]⟩

theorem get_rx_ocl_detached (env : Env) (s : St) (h : s.chip.tx_attached = false) :
    (p938x_get_rx_ocl env s).2.chip = s.chip ∧
    ∃ rest, (p938x_get_rx_ocl env s).2.log = s.log ++ rest ∧
      ∀ e ∈ rest, e.is_work = false := by
  unfold p938x_get_rx_ocl
  have hr := read_buffer_detached env s ILIMIT_SET_REG 2 h
  rcases hrb : p938x_read_buffer env s ILIMIT_SET_REG 2 with ⟨rc, buf, s1⟩
  rw [hrb] at hr
  dsimp only at hr ⊢
  split_ifs
  · exact ⟨rfl, [], by simp, by simp⟩
  all_goals
    rw [hr]
    exact ⟨rfl, [Ev.bulk_read ILIMIT_SET_REG 2], rfl, by simp [Ev.is_work]⟩

/-- A tx-mode enable request on a chip that is neither attached nor in tx
mode, by the answer to the write of the transmit-mode bit. -/
theorem set_tx_mode_enable_eq (env : Env) (s : St) (hna : s.chip.tx_attached = false)
    (hoff : s.chip.tx_mode_en = false) :
    ((env (s.tick + (if s.chip.dc_psy then 2 else 0))).rc = Rc.ok →
      (p938x_set_tx_mode env s 1).chip =
        { s.chip with boost_enabled := true,
                      keep_awake := !s.chip.boost_enabled || s.chip.keep_awake,
                      tx_mode_en := true } ∧
      (p938x_set_tx_mode env s 1).log = s.log ++ tx_enable_log s.chip) ∧
    ((env (s.tick + (if s.chip.dc_psy then 2 else 0))).rc ≠ Rc.ok →
      (p938x_set_tx_mode env s 1).chip =
        { s.chip with boost_enabled := false, keep_awake := false } ∧
      (p938x_set_tx_mode env s 1).log =
        s.log ++ tx_enable_log s.chip ++ tx_rollback_log s.chip) := by
  obtain ⟨c, t, l⟩ := s
  obtain ⟨b, a, k, m, u, uk, st, ist, wc, vm, im, ep, fs, fn, up, dp, hb⟩ := c
  simp only at hna hoff
  subst hna hoff
  constructor
  · intro hw
    cases u <;> cases dp <;> cases b <;> cases k <;>
      simp_all [p938x_set_tx_mode, p938x_set_dc_suspend, p938x_set_dc_en_override,
        p938x_set_dc_psp_prop, power_supply_set_property_dc, St.ask, St.emit, gpio_set_value,
        p938x_is_chip_on, p938x_set_boost, p938x_pm_set_awake, pm_stay_awake, pm_relax, msleep,
        p938x_write_reg, regmap_write, Rc.toInt, tx_enable_log]
  · intro hw
    have hneg : (env (t + (if dp = true then 2 else 0))).rc.toInt < 0 := (rc_toInt_neg _).mpr hw
    cases u <;> cases dp <;> cases b <;> cases k <;>
      simp_all [p938x_set_tx_mode, p938x_set_dc_suspend, p938x_set_dc_en_override,
        p938x_set_dc_psp_prop, power_supply_set_property_dc, St.ask, St.emit, gpio_set_value,
        p938x_is_chip_on, p938x_set_boost, p938x_pm_set_awake, pm_stay_awake, pm_relax, msleep,
        p938x_write_reg, regmap_write, tx_enable_log, tx_rollback_log]

/-- Once the regulator is enabled and no pin-control state is named,
`p938x_hw_init` returns the code it holds at that point, whatever the GPIO
calls answer. -/
theorem hw_init_lines_rc (env : Env) (s : St) (rc : Int) :
    (hw_init_lines env s false rc).1 = rc := by
  unfold hw_init_lines hw_init_disable_vreg
  simp only [Bool.false_eq_true, if_false]
  split_ifs <;> rfl

/-- A chunk that is not refused: the whole packet, the validation byte and
between 1 and 32 polls are in the log. -/
theorem program_mtp_package_accepted (env : Env) (s : St) (src : List Nat) (addr size : Nat)
    (h : ¬ (p938x_program_mtp_package env s src addr size).1 < 0) :
    ∃ m, 1 ≤ m ∧ m ≤ 32 ∧
      (p938x_program_mtp_package env s src addr size).2.log =
        s.log ++ reg_writes 0x400 (mtp_wire src addr size) ++ [Ev.reg_write 0x400 1]
          ++ poll_log m := by
  obtain ⟨k, hk, hst, hfail⟩ := write_reg_loop_log env s 0x400 (mtp_wire src addr size) 0
  unfold p938x_program_mtp_package at h ⊢
  unfold mtp_wire at hk hst hfail ⊢
  dsimp only at h ⊢
  split at h
  · next hneg => exact absurd hneg h
  · next hnn =>
    have hkk : k = ((mtp_packet_buf src addr size).take (mtp_packet_len addr size)).length := by
      by_contra hne
      exact hnn (hfail (lt_of_le_of_ne hk hne))
    rw [if_neg hnn]
    split at h
    · next hneg => exact absurd hneg h
    · next hnw =>
      rw [if_neg hnw]
      obtain ⟨n, hn1, hn2, hw⟩ := mtp_status_wait_log env
        (p938x_write_reg env (write_reg_loop env s 1024
          ((mtp_packet_buf src addr size).take (mtp_packet_len addr size)) 0).2 1024 1).2
        ((mtp_packet_buf src addr size).getD 0 0) 0
      refine ⟨n, hn1, by simpa using hn2, ?_⟩
      have hl : (p938x_write_reg env (write_reg_loop env s 1024
          ((mtp_packet_buf src addr size).take (mtp_packet_len addr size)) 0).2 1024 1).2.log
          = s.log ++ reg_writes 1024
              ((mtp_packet_buf src addr size).take (mtp_packet_len addr size))
            ++ [Ev.reg_write 1024 1] := by
        rw [show (p938x_write_reg env _ 1024 1).2.log = _ ++ [Ev.reg_write 1024 1] from rfl, hst,
          List.take_of_length_le (le_of_eq hkk.symm)]
      split
      · dsimp only
        rw [hw, hl]
      · dsimp only
        rw [hw, hl]

/-- The first `K` chunks of an image make up its first `128 K` bytes. -/
theorem chunks_join (image : List Nat) (K : Nat) :
    ((List.range K).map (chunk_payload image)).flatten = image.take (128 * K) := by
  induction K with
  | zero => simp
  | succ K ih =>
    rw [List.range_succ, List.map_append, List.flatten_append, ih]
    simp only [List.map_cons, List.map_nil, List.flatten_cons, List.flatten_nil, List.append_nil]
    unfold chunk_payload
    have h1 : (image.drop (128 * K)).take (min 128 (image.length - 128 * K))
        = (image.drop (128 * K)).take 128 := by
      rcases Nat.le_total 128 (image.length - 128 * K) with h | h
      · rw [Nat.min_eq_left h]
      · rw [Nat.min_eq_right h]
        rw [List.take_of_length_le (by simp), List.take_of_length_le (by simp; omega)]
    rw [h1, show 128 * (K + 1) = 128 * K + 128 by ring, List.take_add]

theorem ceil_div_128 (n : ℕ) : ⌈(n : ℚ) / 128⌉₊ = (n + 127) / 128 := by
  apply le_antisymm
  · rw [Nat.ceil_le, div_le_iff₀ (by norm_num)]
    have h : n ≤ (n + 127) / 128 * 128 := by omega
    exact_mod_cast h
  · have h1 : (n : ℚ) / 128 ≤ (⌈(n : ℚ) / 128⌉₊ : ℚ) := Nat.le_ceil _
    rw [div_le_iff₀ (by norm_num)] at h1
    have h2 : n ≤ ⌈(n : ℚ) / 128⌉₊ * 128 := by exact_mod_cast h1
    omega

/-- The log of the chunk loop when it runs to its end: chunk `k`, `k + 1`,
... of the image, each sent whole. -/
theorem mtp_chunk_loop_log (env : Env) (image : List Nat) (hsize : image.length ≤ 65536)
    (s : St) (src : List Nat) (i size : Nat) :
    ∀ k, i = 128 * k → src = image.drop i → size = image.length →
      (mtp_chunk_loop (p938x_program_mtp_package env) s src i size).1 = none →
      ∃ polls : List Nat, polls.length = (size + 127) / 128 - k ∧
        (∀ m ∈ polls, 1 ≤ m ∧ m ≤ 32) ∧
        (mtp_chunk_loop (p938x_program_mtp_package env) s src i size).2.log =
          s.log ++ upload_log image k polls := by
  induction s, src, i, size using mtp_chunk_loop.induct (p938x_program_mtp_package env) with
  | case1 s src i size hlt r hr =>
    intro k hi hsrc hsz hnone
    rw [mtp_chunk_loop, if_pos hlt] at hnone
    simp only [] at hnone
    rw [if_pos hr] at hnone
    simp at hnone
  | case2 s src i size hlt r hr ih =>
    intro k hi hsrc hsz hnone
    rw [mtp_chunk_loop, if_pos hlt] at hnone ⊢
    simp only [] at hnone ⊢
    rw [if_neg hr] at hnone ⊢
    simp only [FW_MTP_PACK_DATA_LEN] at ih hnone ⊢
    obtain ⟨polls, hlen, hb, hlog⟩ := ih (k + 1) (by omega)
      (by rw [hsrc, List.drop_drop]) hsz hnone
    obtain ⟨m, hm1, hm2, hpl⟩ := program_mtp_package_accepted env s src (i % 2 ^ 16) size hr
    refine ⟨m :: polls, by simp only [List.length_cons, hlen]; omega, ?_, ?_⟩
    · intro x hx
      rcases List.mem_cons.mp hx with h | h
      · rw [h]; exact ⟨hm1, hm2⟩
      · exact hb x h
    · rw [hlog]
      have hi16 : i % 2 ^ 16 = i := Nat.mod_eq_of_lt (by omega)
      have hw : mtp_wire src (i % 2 ^ 16) size =
          packet_layout (128 * k) (mtp_padded_len (128 * k) image.length)
            (mtp_check_sum (image.drop (128 * k)) (128 * k) image.length)
            (chunk_payload image k) (mtp_packet_len (128 * k) image.length) := by
        rw [hi16, hsrc, hsz, hi]
        exact mtp_wire_layout image (128 * k) (by omega) (by omega)
      change (p938x_program_mtp_package env s src (i % 2 ^ 16) size).2.log ++ _ = _
      rw [hpl, hw]
      simp [upload_log, List.append_assoc]
  | case3 s src i size hge =>
    intro k hi hsrc hsz _
    rw [mtp_chunk_loop, if_neg hge]
    exact ⟨[], by simp; omega, by simp, by simp [upload_log]⟩

/-- The finalisation of `p938x_program_mtp` after a complete chunk loop adds
a prefix of its four calls. -/
theorem program_mtp_log_of_loop (env : Env) (s : St) (src : List Nat) (size : Nat)
    (h : (mtp_chunk_loop (p938x_program_mtp_package env) s src 0 size).1 = none) :
    ∃ tail, (p938x_program_mtp env s src size).2.log =
        (mtp_chunk_loop (p938x_program_mtp_package env) s src 0 size).2.log ++ tail ∧
      tail <+: [Ev.reg_write 0x3000 0x5a, Ev.reg_write 0x3048 0x00, Ev.reg_write 0x3040 0x80,
        Ev.msleep 100] := by
  unfold p938x_program_mtp
  rcases hl : mtp_chunk_loop (p938x_program_mtp_package env) s src 0 size with ⟨o, s1⟩
  rw [hl] at h
  simp only at h
  subst h
  simp only [p938x_write_reg, regmap_write, St.ask, p938x_reset, msleep, St.emit]
  split_ifs
  · exact ⟨[Ev.reg_write 0x3000 0x5a], rfl, by decide⟩
  · exact ⟨[Ev.reg_write 0x3000 0x5a, Ev.reg_write 0x3048 0x00], by simp, by decide⟩
  · exact ⟨[Ev.reg_write 0x3000 0x5a, Ev.reg_write 0x3048 0x00, Ev.reg_write 0x3040 0x80,
      Ev.msleep 100], by simp, by decide⟩

/-- On a bus that accepts every write and answers every status read with 2,
a chunk is accepted. -/
theorem program_mtp_package_accept_all (env : Env) (s : St) (src : List Nat) (addr size : Nat)
    (hall : ∀ n, (env n).rc = Rc.ok ∧ (env n).data.headD 0 % 256 = 2) :
    (p938x_program_mtp_package env s src addr size).1 = 0 := by
  rw [program_mtp_package_sent env s src addr size (fun i _ => (hall _).1)]
  rw [mtp_status_wait_verdict env _ 0 0 2 (hall _).1 (hall _).2 (by decide)]
  simp

/-- On such a bus the chunk loop runs to its end. -/
theorem mtp_chunk_loop_accept_all (env : Env)
    (hall : ∀ n, (env n).rc = Rc.ok ∧ (env n).data.headD 0 % 256 = 2)
    (s : St) (src : List Nat) (i size : Nat) :
    (mtp_chunk_loop (p938x_program_mtp_package env) s src i size).1 = none := by
  induction s, src, i, size using mtp_chunk_loop.induct (p938x_program_mtp_package env) with
  | case1 s src i size hlt r hr =>
    have h0 := program_mtp_package_accept_all env s src (i % 2 ^ 16) size hall
    change (p938x_program_mtp_package env s src (i % 2 ^ 16) size).1 < 0 at hr
    omega
  | case2 s src i size hlt r hr ih =>
    rw [mtp_chunk_loop, if_pos hlt]
    simp only []
    rw [if_neg hr]
    exact ih
  | case3 s src i size hge =>
    rw [mtp_chunk_loop, if_neg hge]

theorem wake_replay_append (b : Bool) (l1 l2 : List Ev) :
    wake_replay b (l1 ++ l2) = (wake_replay b l1).bind (fun b1 => wake_replay b1 l2) := by
  induction l1 generalizing b with
  | nil => simp [wake_replay]
  | cons e es ih =>
    cases e <;> cases b <;> simp [wake_replay, ih]

theorem wake_replay_no_wake (b : Bool) (l : List Ev) (h : ∀ e ∈ l, ev_no_wake e = true) :
    wake_replay b l = some b := by
  induction l generalizing b with
  | nil => rfl
  | cons e es ih =>
    have he := h e (by simp)
    have ih1 : ∀ c, wake_replay c es = some c :=
      fun c => ih c (fun x hx => h x (by simp [hx]))
    cases e
    case stay_awake => simp [ev_no_wake, Ev.is_wake] at he
    case relax => simp [ev_no_wake, Ev.is_wake] at he
    all_goals simp [wake_replay, ih1]

theorem wake_held_of_logExt {s1 s2 : St} (h : LogExt ev_no_wake s1 s2) :
    wake_held s2.log = wake_held s1.log := by
  obtain ⟨ext, hl, hp⟩ := h
  unfold wake_held
  rw [hl, wake_replay_append]
  have : (fun b1 => wake_replay b1 ext) = some := by
    funext b1
    exact wake_replay_no_wake b1 ext hp
  rw [this, Option.bind_some]

/-- A log that replays to a lock state acquires and releases in turn, and
its first call, if any, fits the initial state. -/
theorem wake_replay_alternates (b : Bool) (l : List Ev) (c : Bool)
    (h : wake_replay b l = some c) :
    List.Chain' (fun x y => x ≠ y) (l.filter Ev.is_wake) ∧
    ∀ e ∈ (l.filter Ev.is_wake).head?, e = (if b then Ev.relax else Ev.stay_awake) := by
  induction l generalizing b with
  | nil => simp
  | cons e es ih =>
    cases e
    case stay_awake =>
      cases b
      · simp only [wake_replay, Bool.false_eq_true, if_false] at h
        obtain ⟨h1, h2⟩ := ih true h
        simp only [Ev.is_wake, List.filter_cons_of_pos, List.head?_cons, Option.mem_def,
          Option.some.injEq, Bool.false_eq_true, if_false]
        refine ⟨?_, fun e he => he.symm⟩
        rw [List.chain'_cons']
        refine ⟨?_, h1⟩
        intro y hy
        rw [h2 y hy]
        simp
      · simp [wake_replay] at h
    case relax =>
      cases b
      · simp [wake_replay] at h
      · simp only [wake_replay, if_true] at h
        obtain ⟨h1, h2⟩ := ih false h
        simp only [Ev.is_wake, List.filter_cons_of_pos, List.head?_cons, Option.mem_def,
          Option.some.injEq, if_true]
        refine ⟨?_, fun e he => he.symm⟩
        rw [List.chain'_cons']
        refine ⟨?_, h1⟩
        intro y hy
        rw [h2 y hy]
        simp
    all_goals
      simp only [wake_replay] at h
      simpa [Ev.is_wake] using ih b h

theorem wake_alternates_of_held (log : List Ev) (c : Bool) (h : wake_held log = some c) :
    wake_alternates log :=
  (wake_replay_alternates false log c h).1

theorem undisturbed_refl (s : St) : Undisturbed s s :=
  ⟨rfl, rfl, rfl, logExt_refl _ _⟩

theorem undisturbed_trans {s1 s2 s3 : St} (h12 : Undisturbed s1 s2) (h23 : Undisturbed s2 s3) :
    Undisturbed s1 s3 :=
  ⟨h23.1.trans h12.1, h23.2.1.trans h12.2.1, h23.2.2.1.trans h12.2.2.1,
    logExt_trans h12.2.2.2 h23.2.2.2⟩

theorem undisturbed_emit (s : St) (e : Ev) (h : ev_no_wake e = true) :
    Undisturbed s (s.emit e) :=
  ⟨rfl, rfl, rfl, logExt_emit s e h⟩

theorem undisturbed_ask (env : Env) (s : St) (e : Ev) (h : ev_no_wake e = true) :
    Undisturbed s (s.ask env e).2 :=
  ⟨rfl, rfl, rfl, logExt_ask env s e h⟩

theorem awake_inv_of_undisturbed {s1 s2 : St} (h : Undisturbed s1 s2) (hi : awake_inv s1) :
    awake_inv s2 := by
  obtain ⟨hb, ha, hk, hl⟩ := h
  obtain ⟨h1, h2⟩ := hi
  refine ⟨by rw [wake_held_of_logExt hl, h1, hk], ?_⟩
  rw [hk, h2]
  simp [p938x_is_chip_on, hb, ha]

theorem undisturbed_write_reg (env : Env) (s : St) (reg val : Nat) :
    Undisturbed s (p938x_write_reg env s reg val).2 :=
  undisturbed_ask env s _ rfl

theorem undisturbed_read_reg (env : Env) (s : St) (reg val : Nat) :
    Undisturbed s (p938x_read_reg env s reg val).2.2 := by
  unfold p938x_read_reg regmap_read
  dsimp only
  split_ifs <;> exact undisturbed_ask env s _ rfl

theorem undisturbed_msleep (s : St) (ms : Nat) : Undisturbed s (msleep s ms) :=
  undisturbed_emit s _ rfl

theorem undisturbed_reset (env : Env) (s : St) : Undisturbed s (p938x_reset env s) :=
  undisturbed_trans (undisturbed_write_reg env s _ _) (undisturbed_msleep _ _)

theorem undisturbed_gpio_set (s : St) (l : Gpio) (v : Nat) :
    Undisturbed s (gpio_set_value s l v) :=
  undisturbed_emit s _ rfl

theorem undisturbed_psy_changed (s : St) : Undisturbed s (power_supply_changed s) :=
  undisturbed_emit s _ rfl

theorem undisturbed_cancel (s : St) : Undisturbed s (cancel_delayed_work s) :=
  ⟨rfl, rfl, rfl, ⟨[Ev.cancel_work], rfl, by simp [ev_no_wake, Ev.is_wake]⟩⟩

theorem undisturbed_schedule (s : St) (ms : Nat) : Undisturbed s (schedule_delayed_work s ms) :=
  ⟨rfl, rfl, rfl, ⟨[Ev.schedule_work ms], rfl, by simp [ev_no_wake, Ev.is_wake]⟩⟩

theorem undisturbed_set_rx_vout (env : Env) (s : St) (mv : Nat) :
    Undisturbed s (p938x_set_rx_vout env s mv).2 := by
  unfold p938x_set_rx_vout
  dsimp only
  split_ifs
  all_goals
    first
    | exact undisturbed_refl _
    | exact undisturbed_write_reg env _ _ _

theorem undisturbed_set_rx_ocl (env : Env) (s : St) (ma : Nat) :
    Undisturbed s (p938x_set_rx_ocl env s ma).2 := by
  unfold p938x_set_rx_ocl
  dsimp only
  split_ifs
  all_goals
    first
    | exact undisturbed_refl _
    | exact undisturbed_write_reg env _ _ _

theorem undisturbed_set_dc_psp_prop (env : Env) (s : St) (psp : DcProp) (val : Int) :
    Undisturbed s (p938x_set_dc_psp_prop env s psp val).2 := by
  unfold p938x_set_dc_psp_prop power_supply_set_property_dc
  split_ifs
  · exact undisturbed_ask env _ _ rfl
  · exact undisturbed_refl _

theorem undisturbed_update_supplies_status (env : Env) (s : St) :
    Undisturbed s (p938x_update_supplies_status env s).2 := by
  unfold p938x_update_supplies_status power_supply_get_by_name_usb
    power_supply_get_property_present gpio_set_value St.emit St.ask
  dsimp only
  split_ifs <;> simp [Undisturbed, LogExt, ev_no_wake, Ev.is_wake]

theorem undisturbed_write_buffer (env : Env) (s : St) (reg : Nat) (buf : List Nat) (rc : Int) :
    Undisturbed s (p938x_write_buffer env s reg buf rc).2 := by
  induction buf generalizing s reg rc with
  | nil => exact undisturbed_refl _
  | cons b bs ih =>
    unfold p938x_write_buffer
    dsimp only
    split
    · exact undisturbed_write_reg env s _ _
    · exact undisturbed_trans (undisturbed_write_reg env s _ _) (ih _ _ _)

theorem undisturbed_clear_irq (env : Env) (s : St) (mask : Nat) :
    Undisturbed s (p938x_clear_irq env s mask) := by
  unfold p938x_clear_irq
  dsimp only
  exact undisturbed_trans (undisturbed_write_buffer env s _ _ _) (undisturbed_write_reg env _ _ _)

theorem undisturbed_write_reg_loop (env : Env) (s : St) (reg : Nat) (buf : List Nat)
    (rc : Int) : Undisturbed s (write_reg_loop env s reg buf rc).2 := by
  induction buf generalizing s reg rc with
  | nil => exact undisturbed_refl _
  | cons b bs ih =>
    unfold write_reg_loop
    dsimp only
    split
    · exact undisturbed_write_reg env s _ _
    · exact undisturbed_trans (undisturbed_write_reg env s _ _) (ih _ _ _)

theorem undisturbed_program_mtp_downloader (env : Env) (s : St) :
    Undisturbed s (p938x_program_mtp_downloader env s).2 := by
  unfold p938x_program_mtp_downloader
  dsimp only
  split_ifs
  all_goals
    repeat' (first
      | exact undisturbed_write_reg env _ _ _
      | refine undisturbed_trans ?_ (undisturbed_reset env _)
      | refine undisturbed_trans ?_ (undisturbed_write_reg env _ _ _)
      | refine undisturbed_trans ?_ (undisturbed_write_reg_loop env _ _ _ _)
      | refine undisturbed_trans ?_ (undisturbed_msleep _ _))

theorem poll_log_no_wake (n : Nat) : ∀ e ∈ poll_log n, ev_no_wake e = true := by
  induction n with
  | zero => simp [poll_log]
  | succ n ih =>
    intro e he
    simp only [poll_log, List.mem_cons] at he
    rcases he with h | h | h
    · rw [h]; rfl
    · rw [h]; rfl
    · exact ih e h

theorem undisturbed_mtp_status_wait (env : Env) (s : St) (b r : Nat) :
    Undisturbed s (mtp_status_wait env s b r).2 := by
  obtain ⟨n, _, _, h⟩ := mtp_status_wait_log env s b r
  rw [h]
  exact ⟨rfl, rfl, rfl, poll_log n, rfl, poll_log_no_wake n⟩

theorem undisturbed_program_mtp_package (env : Env) (s : St) (src : List Nat)
    (addr size : Nat) : Undisturbed s (p938x_program_mtp_package env s src addr size).2 := by
  unfold p938x_program_mtp_package
  dsimp only
  split_ifs
  all_goals
    repeat' (first
      | exact undisturbed_write_reg_loop env _ _ _ _
      | refine undisturbed_trans ?_ (undisturbed_mtp_status_wait env _ _ _)
      | refine undisturbed_trans ?_ (undisturbed_write_reg env _ _ _))

theorem undisturbed_mtp_chunk_loop (pkg : St → List Nat → Nat → Nat → Int × St)
    (hpkg : ∀ s src addr size, Undisturbed s (pkg s src addr size).2)
    (s : St) (src : List Nat) (i size : Nat) :
    Undisturbed s (mtp_chunk_loop pkg s src i size).2 := by
  induction s, src, i, size using mtp_chunk_loop.induct pkg with
  | case1 s src i size h r hr =>
    rw [mtp_chunk_loop]; rw [if_pos h]; simp only []; rw [if_pos hr]; exact hpkg _ _ _ _
  | case2 s src i size h r hr ih =>
    rw [mtp_chunk_loop]; rw [if_pos h]; simp only []; rw [if_neg hr]
    exact undisturbed_trans (hpkg _ _ _ _) ih
  | case3 s src i size h =>
    rw [mtp_chunk_loop]; rw [if_neg h]; exact undisturbed_refl _

theorem undisturbed_program_mtp (env : Env) (s : St) (src : List Nat) (size : Nat) :
    Undisturbed s (p938x_program_mtp env s src size).2 := by
  unfold p938x_program_mtp
  have h := undisturbed_mtp_chunk_loop (p938x_program_mtp_package env)
    (undisturbed_program_mtp_package env) s src 0 size
  split
  · next rc s1 heq => rw [heq] at h; exact h
  · next s1 heq =>
    rw [heq] at h
    dsimp only at h ⊢
    split_ifs
    all_goals
      repeat' (first
        | exact h
        | refine undisturbed_trans ?_ (undisturbed_reset env _)
        | refine undisturbed_trans ?_ (undisturbed_write_reg env _ _ _))

theorem wake_held_append (l ext : List Ev) :
    wake_held (l ++ ext) = (wake_held l).bind (fun b => wake_replay b ext) :=
  wake_replay_append false l ext

/-- The wake-lock helper keeps the log in step with keep-awake. -/
theorem pm_set_awake_held (s : St) (b : Bool) (h : wake_held s.log = some s.chip.keep_awake) :
    wake_held (p938x_pm_set_awake s b).log = some (p938x_pm_set_awake s b).chip.keep_awake := by
  obtain ⟨c, t, l⟩ := s
  simp only at h
  cases hk : c.keep_awake <;> cases b <;>
    simp_all [p938x_pm_set_awake, pm_stay_awake, pm_relax, St.emit, wake_held_append, wake_replay]

theorem set_boost_inv (s : St) (val : Int) (h : awake_inv s) :
    awake_inv (p938x_set_boost s val) := by
  obtain ⟨c, t, l⟩ := s
  obtain ⟨h1, h2⟩ := h
  simp only at h1 h2
  by_cases hv : val = 0
  · cases hb : c.boost_enabled <;> cases ha : c.tx_attached <;> cases hk : c.keep_awake <;>
      simp_all [awake_inv, p938x_set_boost, gpio_set_value, St.emit, p938x_pm_set_awake,
        pm_stay_awake, pm_relax, p938x_is_chip_on, wake_held_append, wake_replay]
  · cases hb : c.boost_enabled <;> cases ha : c.tx_attached <;> cases hk : c.keep_awake <;>
      simp_all [awake_inv, p938x_set_boost, gpio_set_value, St.emit, p938x_pm_set_awake,
        pm_stay_awake, pm_relax, p938x_is_chip_on, wake_held_append, wake_replay]

theorem handle_wls_removal_inv (env : Env) (s : St) (h : awake_inv s) :
    awake_inv (p938x_handle_wls_removal env s) := by
  obtain ⟨h1, h2⟩ := h
  refine ⟨?_, ?_⟩
  · unfold p938x_handle_wls_removal
    dsimp only
    have hc : wake_held (cancel_delayed_work (power_supply_changed
        { s with chip := { s.chip with tx_attached := false } })).log
        = some s.chip.keep_awake := by
      rw [← h1]
      exact wake_held_of_logExt
        ⟨[Ev.psy_changed, Ev.cancel_work],
          by simp [cancel_delayed_work, power_supply_changed, St.emit],
          by simp [ev_no_wake, Ev.is_wake]⟩
    split_ifs
    · rw [wake_held_of_logExt (undisturbed_reset env _).2.2.2]
      exact pm_set_awake_held _ _ hc
    · exact hc
    · exact h1
  · rw [handle_wls_removal_chip]
    cases ha : s.chip.tx_attached <;> cases hb : s.chip.boost_enabled <;>
      simp_all [p938x_is_chip_on]

theorem read_buffer_inv (env : Env) (s : St) (reg size : Nat) (h : awake_inv s) :
    awake_inv (p938x_read_buffer env s reg size).2.2 := by
  have h1 : awake_inv (s.ask env (Ev.bulk_read reg size)).2 :=
    awake_inv_of_undisturbed (undisturbed_ask env s _ rfl) h
  unfold p938x_read_buffer regmap_bulk_read
  dsimp only
  split_ifs
  · exact handle_wls_removal_inv env _ h1
  · exact h1

theorem get_status_inv (env : Env) (s : St) (h : awake_inv s) :
    awake_inv (p938x_get_status env s).2.2.2 := by
  unfold p938x_get_status
  have h1 := read_buffer_inv env s IRQ_ENABLE_REG 2 h
  rcases hr1 : p938x_read_buffer env s IRQ_ENABLE_REG 2 with ⟨rc1, buf1, s1⟩
  rw [hr1] at h1
  have h2 := read_buffer_inv env s1 DEV_STATUS_REG 4 h1
  rcases hr2 : p938x_read_buffer env s1 DEV_STATUS_REG 4 with ⟨rc2, buf2, s2⟩
  rw [hr2] at h2
  dsimp only at h1 h2 ⊢
  split_ifs
  · exact h1
  · simp only [hr2]; exact h2
  · simp only [hr2]; exact h2

/-- A change of fields other than the three flags leaves the discipline as it
is. -/
theorem awake_inv_of_flags {s1 s2 : St} (hb : s2.chip.boost_enabled = s1.chip.boost_enabled)
    (ha : s2.chip.tx_attached = s1.chip.tx_attached)
    (hk : s2.chip.keep_awake = s1.chip.keep_awake) (hl : s2.log = s1.log)
    (h : awake_inv s1) : awake_inv s2 :=
  awake_inv_of_undisturbed ⟨hb, ha, hk, logExt_of_log_eq _ hl⟩ h

theorem check_system_mode_inv (env : Env) (s : St) (h : awake_inv s) :
    awake_inv (p938x_check_system_mode env s).2 := by
  have hr := read_buffer_inv env s SYS_MODE_REG 1 h
  unfold p938x_check_system_mode
  rcases hrb : p938x_read_buffer env s SYS_MODE_REG 1 with ⟨rc, buf, s1⟩
  rw [hrb] at hr
  dsimp only at hr ⊢
  have he : ∀ b, awake_inv ({ s1 with chip := { s1.chip with epp_mode := b } } : St) :=
    fun b => awake_inv_of_flags rfl rfl rfl rfl hr
  split_ifs
  all_goals
    repeat' (first
      | exact hr
      | exact he _
      | refine awake_inv_of_undisturbed (undisturbed_set_rx_vout env _ _) ?_
      | refine awake_inv_of_undisturbed (undisturbed_set_rx_ocl env _ _) ?_)

theorem awake_inv_tx_mode_en (s : St) (b : Bool) (h : awake_inv s) :
    awake_inv ({ s with chip := { s.chip with tx_mode_en := b } } : St) :=
  awake_inv_of_flags rfl rfl rfl rfl h

theorem set_tx_mode_nonzero (env : Env) (s : St) (val : Int) (hv : val ≠ 0) :
    p938x_set_tx_mode env s val = p938x_set_tx_mode env s 1 := by
  unfold p938x_set_tx_mode
  simp [hv]

/-- A tx-mode disable request on a chip in tx mode that is not attached. -/
theorem set_tx_mode_disable_eq (env : Env) (s : St) (hna : s.chip.tx_attached = false)
    (hon : s.chip.tx_mode_en = true) :
    (p938x_set_tx_mode env s 0).chip =
      { s.chip with boost_enabled := false, keep_awake := false, tx_mode_en := false } ∧
    ∃ v, (p938x_set_tx_mode env s 0).log = s.log ++ tx_disable_log s.chip v := by
  obtain ⟨c, t, l⟩ := s
  obtain ⟨b, a, k, m, u, uk, st, ist, wc, vm, im, ep, fs, fn, up, dp, hb⟩ := c
  simp only at hna hon
  subst hna hon
  have hrd : ∃ v, p938x_read_reg env
      ⟨⟨b, false, k, true, u, uk, st, ist, wc, vm, im, ep, fs, fn, up, dp, hb⟩, t, l⟩
      SYS_MODE_REG 0 =
      ((env t).rc.toInt, v,
        ⟨⟨b, false, k, true, u, uk, st, ist, wc, vm, im, ep, fs, fn, up, dp, hb⟩, t + 1,
          l ++ [Ev.reg_read SYS_MODE_REG]⟩) := by
    unfold p938x_read_reg regmap_read St.ask
    dsimp only
    split_ifs
    · exact ⟨_, rfl⟩
    · exact ⟨_, rfl⟩
  obtain ⟨v, hv⟩ := hrd
  unfold p938x_set_tx_mode
  simp only [Bool.false_eq_true, if_false, ne_eq, not_true_eq_false, Bool.not_true]
  rw [hv]
  refine ⟨?_, v &&& (255 - SYS_MODE_TXMODE), ?_⟩
  · cases u <;> cases uk <;> cases dp <;> cases b <;> cases k <;>
      simp [p938x_set_dc_suspend, p938x_set_dc_en_override,
        p938x_set_dc_psp_prop, power_supply_set_property_dc, St.ask, St.emit, gpio_set_value,
        p938x_is_chip_on, p938x_set_boost, p938x_pm_set_awake, pm_stay_awake, pm_relax,
        p938x_write_reg, regmap_write]
  · cases u <;> cases uk <;> cases dp <;> cases b <;> cases k <;>
      simp [p938x_set_dc_suspend, p938x_set_dc_en_override,
        p938x_set_dc_psp_prop, power_supply_set_property_dc, St.ask, St.emit, gpio_set_value,
        p938x_is_chip_on, p938x_set_boost, p938x_pm_set_awake, pm_stay_awake, pm_relax,
        p938x_write_reg, regmap_write, tx_disable_log]

theorem wake_replay_tx_enable (c : Chip) :
    wake_replay c.keep_awake (tx_enable_log c) = some (!c.boost_enabled || c.keep_awake) ∧
    (c.keep_awake = c.boost_enabled →
      wake_replay c.keep_awake (tx_enable_log c ++ tx_rollback_log c) = some false) := by
  obtain ⟨b, a, k, m, u, uk, st, ist, wc, vm, im, ep, fs, fn, up, dp, hb⟩ := c
  cases u <;> cases dp <;> cases b <;> cases k <;>
    simp [tx_enable_log, tx_rollback_log, wake_replay]

theorem wake_replay_tx_disable (c : Chip) (v : Nat) :
    wake_replay c.keep_awake (tx_disable_log c v) = some false := by
  obtain ⟨b, a, k, m, u, uk, st, ist, wc, vm, im, ep, fs, fn, up, dp, hb⟩ := c
  cases u <;> cases uk <;> cases dp <;> cases k <;>
    simp [tx_disable_log, wake_replay]

theorem set_tx_mode_inv (env : Env) (s : St) (val : Int) (h : awake_inv s) :
    awake_inv (p938x_set_tx_mode env s val) := by
  cases ha : s.chip.tx_attached
  swap
  · rw [set_tx_mode_attached env s val ha]; exact h
  obtain ⟨h1, h2⟩ := h
  have hkb : s.chip.keep_awake = s.chip.boost_enabled := by
    rw [h2]; simp [p938x_is_chip_on, ha]
  by_cases hv : val = 0
  · subst hv
    cases hm : s.chip.tx_mode_en
    · have : p938x_set_tx_mode env s 0 = s := by
        unfold p938x_set_tx_mode
        simp [ha, hm]
      rw [this]; exact ⟨h1, h2⟩
    · obtain ⟨hc, v, hl⟩ := set_tx_mode_disable_eq env s ha hm
      refine ⟨?_, ?_⟩
      · rw [hl, wake_held_append, h1, hc]
        exact wake_replay_tx_disable s.chip v
      · rw [hc]; simp [p938x_is_chip_on, ha]
  · rw [set_tx_mode_nonzero env s val hv]
    cases hm : s.chip.tx_mode_en
    swap
    · have : p938x_set_tx_mode env s 1 = s := by
        unfold p938x_set_tx_mode
        simp [ha, hm]
      rw [this]; exact ⟨h1, h2⟩
    · obtain ⟨hs, hf⟩ := set_tx_mode_enable_eq env s ha hm
      by_cases hw : (env (s.tick + (if s.chip.dc_psy then 2 else 0))).rc = Rc.ok
      · obtain ⟨hc, hl⟩ := hs hw
        refine ⟨?_, ?_⟩
        · rw [hl, wake_held_append, h1, hc]
          exact (wake_replay_tx_enable s.chip).1
        · rw [hc]; simp [p938x_is_chip_on, hkb]
      · obtain ⟨hc, hl⟩ := hf hw
        refine ⟨?_, ?_⟩
        · rw [hl, List.append_assoc, wake_held_append, h1, hc]
          exact (wake_replay_tx_enable s.chip).2 hkb
        · rw [hc]; simp [p938x_is_chip_on, ha]

theorem status_attach_inv (env : Env) (s4 : St) (h : awake_inv s4) :
    awake_inv (status_attach env s4) := by
  unfold status_attach
  dsimp only
  have h1 : awake_inv (p938x_update_supplies_status env s4).2 :=
    awake_inv_of_undisturbed (undisturbed_update_supplies_status env s4) h
  have h2 : awake_inv (if (p938x_update_supplies_status env s4).2.chip.tx_mode_en = true then
      p938x_set_tx_mode env (p938x_update_supplies_status env s4).2 0
      else (p938x_update_supplies_status env s4).2) := by
    split_ifs
    · exact set_tx_mode_inv env _ 0 h1
    · exact h1
  generalize (if (p938x_update_supplies_status env s4).2.chip.tx_mode_en = true then
      p938x_set_tx_mode env (p938x_update_supplies_status env s4).2 0
      else (p938x_update_supplies_status env s4).2) = t2 at h2 ⊢
  have h3 := pm_set_awake_held t2 true h2.1
  have hc := pm_set_awake_chip t2 true
  have h4 : awake_inv ({ p938x_pm_set_awake t2 true with
      chip := { (p938x_pm_set_awake t2 true).chip with tx_attached := true } } : St) := by
    refine ⟨?_, ?_⟩
    · rw [h3, hc]
    · rw [hc]; simp [p938x_is_chip_on]
  exact awake_inv_of_undisturbed
    (undisturbed_trans (undisturbed_cancel _) (undisturbed_schedule _ _)) h4

theorem status_before_ack_inv (env : Env) (s : St) (h : awake_inv s) :
    awake_inv (status_before_ack env s) := by
  have hg := get_status_inv env s h
  have hc : awake_inv (status_after_conflict env s) := by
    unfold status_after_conflict
    dsimp only
    have h2 : awake_inv ({ (p938x_get_status env s).2.2.2 with
        chip := { (p938x_get_status env s).2.2.2.chip with
          stat := (p938x_get_status env s).2.1,
          irq_stat := (p938x_get_status env s).2.2.1 } } : St) :=
      awake_inv_of_flags rfl rfl rfl rfl hg
    split_ifs
    · exact set_tx_mode_inv env _ 0 h2
    · exact h2
  have hv : awake_inv (status_after_vout env s) := by
    unfold status_after_vout
    dsimp only
    split_ifs
    · exact awake_inv_of_undisturbed
        (undisturbed_trans (undisturbed_trans (undisturbed_cancel _) (undisturbed_schedule _ _))
          (undisturbed_psy_changed _))
        (check_system_mode_inv env _ hc)
    · exact hc
  unfold status_before_ack
  dsimp only
  split_ifs
  · exact status_attach_inv env _ hv
  · exact hv

theorem check_status_inv (env : Env) (s : St) (h : awake_inv s) :
    awake_inv (p938x_check_status env s).2 := by
  by_cases hg : (p938x_get_status env s).1 = 0
  · rw [check_status_eq env s hg]
    exact awake_inv_of_undisturbed (undisturbed_clear_irq env _ _)
      (status_before_ack_inv env s h)
  · rw [check_status_fail env s hg]
    exact get_status_inv env s h

theorem program_fw_inv (env : Env) (s : St) (h : awake_inv s) :
    awake_inv (p938x_program_fw env s).2 := by
  have hstat : ∀ (t : St) (f : FwStat), awake_inv t →
      awake_inv ({ t with chip := { t.chip with program_fw_stat := f } } : St) :=
    fun t f ht => awake_inv_of_flags rfl rfl rfl rfl ht
  have hrel : ∀ t : St, awake_inv t → awake_inv (release_firmware t) :=
    fun t ht => awake_inv_of_undisturbed (undisturbed_emit t _ rfl) ht
  have h1 := hstat s FwStat.PROGRAM_FW_PENDING h
  have h2 : awake_inv (request_firmware env
      { s with chip := { s.chip with program_fw_stat := FwStat.PROGRAM_FW_PENDING } }).2.2 :=
    awake_inv_of_undisturbed (undisturbed_ask env _ _ rfl) h1
  have h3 := awake_inv_of_undisturbed (undisturbed_msleep _ 100) (set_boost_inv _ 1 h2)
  have h4 := awake_inv_of_undisturbed (undisturbed_program_mtp_downloader env _) h3
  unfold p938x_program_fw
  split_ifs
  · exact h
  · exact h
  · dsimp only
    split_ifs
    · exact hstat _ _ h2
    · exact set_boost_inv _ 0 (hrel _ (hstat _ _ h4))
    · exact set_boost_inv _ 0 (hrel _ (hstat _ _
        (awake_inv_of_undisturbed (undisturbed_program_mtp env _ _ _) h4)))
    · exact set_boost_inv _ 0 (hrel _ (hstat _ _
        (awake_inv_of_undisturbed (undisturbed_program_mtp env _ _ _) h4)))

theorem op_run_inv (env : Env) (s : St) (op : Op) (h : awake_inv s) :
    awake_inv (op.run env s) := by
  cases op with
  | check_status => exact check_status_inv env s h
  | removal => exact handle_wls_removal_inv env s h
  | set_tx_mode val => exact set_tx_mode_inv env s val h
  | set_boost val => exact set_boost_inv s val h
  | program_fw => exact program_fw_inv env s h

theorem run_ops_inv (s : St) (ops : List (Op × Env)) (h : awake_inv s) :
    awake_inv (run_ops s ops) := by
  induction ops generalizing s with
  | nil => exact h
  | cons o rest ih =>
    obtain ⟨op, env⟩ := o
    exact ih _ (op_run_inv env s op h)

/-- In status handling too a removal can be followed by a new heartbeat: when
the mode read of the VOUT_ON branch fails on an attached chip, the removal
handler runs and the heartbeat is queued right after it. -/
theorem check_status_requeues_after_removal :
    (p938x_check_status env_vout_mode_fail ⟨chip_attached, 0, []⟩).2.chip.tx_attached = false ∧
    (p938x_check_status env_vout_mode_fail ⟨chip_attached, 0, []⟩).2.chip.heartbeat = some 0 := by
  decide

/-! ### Upload stages, acknowledgment, mode detection on an unpowered chip -/

set_option maxRecDepth 8192 in
theorem mtp_downloader_length : mtp_downloader.length = 364 := by
  decide

/-- The write loop entered with code 0 ends with code 0 exactly when the bus
accepts every byte of the buffer. -/
theorem write_reg_loop_zero_iff (env : Env) (s : St) (reg : Nat) (buf : List Nat) (rc : Int)
    (hrc : rc = 0) :
    (write_reg_loop env s reg buf rc).1 = 0 ↔
      ∀ i, i < buf.length → (env (s.tick + i)).rc = Rc.ok := by
  induction buf generalizing s reg rc with
  | nil => simp [write_reg_loop, hrc]
  | cons b bs ih =>
    unfold write_reg_loop
    simp only [p938x_write_reg, regmap_write, St.ask]
    by_cases h0 : (env s.tick).rc = Rc.ok
    · have hz : (env s.tick).rc.toInt = 0 := (rc_toInt_eq_zero _).mpr h0
      simp only [hz, lt_self_iff_false, if_false]
      rw [ih _ _ 0 rfl]
      constructor
      · intro h i hi
        cases i with
        | zero => simpa using h0
        | succ j =>
          have := h j (by simpa using hi)
          simpa [Nat.add_assoc, Nat.add_comm 1 j] using this
      · intro h i hi
        have := h (i + 1) (by simpa using hi)
        simpa [Nat.add_assoc, Nat.add_comm 1 i] using this
    · have hn := (rc_toInt_neg _).mpr h0
      simp only [hn, if_true]
      constructor
      · intro h; omega
      · intro h
        exact absurd (by simpa using h 0 (by simp)) h0

/-- The downloader returns 0 exactly when the bus accepts each of its
checked writes: the two unlock writes, the bytes of the boot loader, and the
two writes that start it. -/
theorem program_mtp_downloader_zero_iff (env : Env) (s : St) :
    (p938x_program_mtp_downloader env s).1 = 0 ↔
      ∀ i, i < mtp_downloader.length + 4 → (env (s.tick + i)).rc = Rc.ok := by
  unfold p938x_program_mtp_downloader
  simp only [p938x_write_reg, regmap_write, St.ask, msleep, St.emit]
  generalize mtp_downloader = dl
  by_cases h0 : (env s.tick).rc = Rc.ok
  swap
  · have hn := (rc_toInt_neg _).mpr h0
    simp only [hn, if_true]
    exact ⟨fun h => by omega, fun h => absurd (by simpa using h 0 (by omega)) h0⟩
  have hz0 := (rc_toInt_eq_zero _).mpr h0
  simp only [hz0, lt_self_iff_false, if_false]
  by_cases h1 : (env (s.tick + 1)).rc = Rc.ok
  swap
  · have hn := (rc_toInt_neg _).mpr h1
    simp only [hn, if_true]
    exact ⟨fun h => by omega, fun h => absurd (h 1 (by omega)) h1⟩
  have hz1 := (rc_toInt_eq_zero _).mpr h1
  simp only [hz1, lt_self_iff_false, if_false]
  have hok := write_reg_loop_ok env
    ⟨s.chip, s.tick + 1 + 1, s.log ++ [Ev.reg_write 12288 90] ++ [Ev.msleep 10] ++
      [Ev.reg_write 12352 16] ++ [Ev.msleep 10]⟩ 7168 dl 0
  have hiff := write_reg_loop_zero_iff env
    ⟨s.chip, s.tick + 1 + 1, s.log ++ [Ev.reg_write 12288 90] ++ [Ev.msleep 10] ++
      [Ev.reg_write 12352 16] ++ [Ev.msleep 10]⟩ 7168 dl 0 rfl
  have hle := write_reg_loop_rc env
    ⟨s.chip, s.tick + 1 + 1, s.log ++ [Ev.reg_write 12288 90] ++ [Ev.msleep 10] ++
      [Ev.reg_write 12352 16] ++ [Ev.msleep 10]⟩ 7168 dl 0 (le_refl _)
  simp only [] at hok hiff
  generalize write_reg_loop env
    ⟨s.chip, s.tick + 1 + 1, s.log ++ [Ev.reg_write 12288 90] ++ [Ev.msleep 10] ++
      [Ev.reg_write 12352 16] ++ [Ev.msleep 10]⟩ 7168 dl 0 = r at hok hiff hle ⊢
  by_cases hl : ∀ i, i < dl.length → (env (s.tick + 1 + 1 + i)).rc = Rc.ok
  swap
  · have hne : r.1 ≠ 0 := fun h => hl (hiff.mp h)
    have hneg : r.1 < 0 := by omega
    simp only [hneg, if_true]
    refine ⟨fun h => absurd h hne, fun h => absurd ?_ hl⟩
    intro i hi
    have := h (i + 2) (by omega)
    have he : s.tick + (i + 2) = s.tick + 1 + 1 + i := by omega
    rwa [he] at this
  rw [hok hl]
  simp only [ite_self, lt_self_iff_false, if_false]
  by_cases h2 : (env (s.tick + 1 + 1 + dl.length)).rc = Rc.ok
  swap
  · have hn := (rc_toInt_neg _).mpr h2
    simp only [hn, if_true]
    refine ⟨fun h => by omega, fun h => absurd ?_ h2⟩
    have := h (dl.length + 2) (by omega)
    have he : s.tick + (dl.length + 2) = s.tick + 1 + 1 + dl.length := by omega
    rwa [he] at this
  have hz2 := (rc_toInt_eq_zero _).mpr h2
  simp only [hz2, lt_self_iff_false, if_false]
  by_cases h3 : (env (s.tick + 1 + 1 + dl.length + 1)).rc = Rc.ok
  swap
  · have hn := (rc_toInt_neg _).mpr h3
    simp only [hn, if_true]
    refine ⟨fun h => by omega, fun h => absurd ?_ h3⟩
    have := h (dl.length + 3) (by omega)
    have he : s.tick + (dl.length + 3) = s.tick + 1 + 1 + dl.length + 1 := by omega
    rwa [he] at this
  have hz3 := (rc_toInt_eq_zero _).mpr h3
  simp only [hz3, lt_self_iff_false, if_false, true_iff]
  intro i hi
  by_cases c0 : i = 0
  · subst c0; simpa using h0
  by_cases c1 : i = 1
  · subst c1; exact h1
  by_cases c2 : i < dl.length + 2
  · have := hl (i - 2) (by omega)
    have he : s.tick + 1 + 1 + (i - 2) = s.tick + i := by omega
    rwa [he] at this
  by_cases c3 : i = dl.length + 2
  · have he : s.tick + i = s.tick + 1 + 1 + dl.length := by omega
    rw [he]; exact h2
  · have he : s.tick + i = s.tick + 1 + 1 + dl.length + 1 := by omega
    rw [he]; exact h3

/-- The chunk loop runs to its end exactly when every chunk it sends is
accepted. -/
theorem mtp_chunk_loop_none_iff (env : Env) (s0 : St) (image : List Nat) (s : St)
    (src : List Nat) (i size : Nat) :
    ∀ k, i = 128 * k → src = image.drop i → s = chunk_state env s0 image size k →
      ((mtp_chunk_loop (p938x_program_mtp_package env) s src i size).1 = none ↔
        ∀ j, k ≤ j → 128 * j < size → chunk_code env s0 image size j = 0) := by
  induction s, src, i, size using mtp_chunk_loop.induct (p938x_program_mtp_package env) with
  | case1 s src i size hlt r hr =>
    intro k hi hsrc hs
    rw [mtp_chunk_loop, if_pos hlt]
    simp only []
    rw [if_pos hr]
    simp only [reduceCtorEq, false_iff, not_forall]
    refine ⟨k, le_refl _, by omega, ?_⟩
    have hc : chunk_code env s0 image size k = r.1 := by
      simp only [chunk_code, FW_MTP_PACK_DATA_LEN, ← hs, ← hi, ← hsrc]
    rw [hc]
    omega
  | case2 s src i size hlt r hr ih =>
    intro k hi hsrc hs
    rw [mtp_chunk_loop, if_pos hlt]
    simp only []
    rw [if_neg hr]
    have hc : chunk_code env s0 image size k = r.1 := by
      simp only [chunk_code, FW_MTP_PACK_DATA_LEN, ← hs, ← hi, ← hsrc]
    have hz : r.1 = 0 := by
      have := program_mtp_package_rc env s src (i % 2 ^ 16) size
      change r.1 ≤ 0 at this
      omega
    have hst : r.2 = chunk_state env s0 image size (k + 1) := by
      simp only [chunk_state, FW_MTP_PACK_DATA_LEN, ← hs, ← hi, ← hsrc]
    simp only [FW_MTP_PACK_DATA_LEN] at ih ⊢
    rw [ih (k + 1) (by omega) (by rw [hsrc, List.drop_drop]) hst]
    constructor
    · intro h j hj hlt2
      by_cases hjk : j = k
      · rw [hjk, hc, hz]
      · exact h j (by omega) hlt2
    · intro h j hj hlt2
      exact h j (by omega) hlt2
  | case3 s src i size hge =>
    intro k hi hsrc hs
    rw [mtp_chunk_loop, if_neg hge]
    simp only [true_iff]
    intro j hj hlt2
    omega

/-- The main stage returns 0 exactly when the chunk loop runs to its end and
the bus accepts the two writes of the finalisation. -/
theorem program_mtp_zero_iff (env : Env) (s : St) (src : List Nat) (size : Nat) :
    (p938x_program_mtp env s src size).1 = 0 ↔
      (mtp_chunk_loop (p938x_program_mtp_package env) s src 0 size).1 = none ∧
      (env (mtp_chunk_loop (p938x_program_mtp_package env) s src 0 size).2.tick).rc = Rc.ok ∧
      (env ((mtp_chunk_loop (p938x_program_mtp_package env) s src 0 size).2.tick + 1)).rc
        = Rc.ok := by
  unfold p938x_program_mtp
  rcases hl : mtp_chunk_loop (p938x_program_mtp_package env) s src 0 size with ⟨o, s1⟩
  cases o with
  | some rc =>
    have hneg := mtp_chunk_loop_rc (p938x_program_mtp_package env) s src 0 size rc (by rw [hl])
    simp only [reduceCtorEq, false_and, iff_false]
    omega
  | none =>
    simp only [p938x_write_reg, regmap_write, St.ask, true_and]
    by_cases h0 : (env s1.tick).rc = Rc.ok
    · have hz0 := (rc_toInt_eq_zero _).mpr h0
      simp only [hz0, lt_self_iff_false, if_false]
      by_cases h1 : (env (s1.tick + 1)).rc = Rc.ok
      · have hz1 := (rc_toInt_eq_zero _).mpr h1
        simp only [hz1, lt_self_iff_false, if_false]
        exact ⟨fun _ => ⟨h0, h1⟩, fun _ => trivial⟩
      · have hn := (rc_toInt_neg _).mpr h1
        simp only [hn, if_true]
        exact ⟨fun h => by omega, fun h => absurd h.2 h1⟩
    · have hn := (rc_toInt_neg _).mpr h0
      simp only [hn, if_true]
      exact ⟨fun h => by omega, fun h => absurd h.1 h0⟩

theorem fw_requested_rc (env : Env) (s : St) : (fw_requested env s).1 ≤ 0 :=
  rc_toInt_nonpos _

/-- The code of `p938x_program_fw` past its entry checks is that of the first
stage that fails, and that of the main stage when none does. -/
theorem program_fw_rc_eq (env : Env) (s : St) (hname : s.chip.fw_name_set = true)
    (hnp : s.chip.program_fw_stat ≠ FwStat.PROGRAM_FW_PENDING) :
    (p938x_program_fw env s).1 =
      if (fw_requested env s).1 < 0 then (fw_requested env s).1
      else if (fw_bootstrap env s).1 < 0 then (fw_bootstrap env s).1
      else (fw_transfer env s).1 := by
  unfold p938x_program_fw fw_transfer fw_bootstrap fw_requested
  simp only [hname, Bool.not_true, Bool.false_eq_true, if_false, hnp]
  split_ifs <;> rfl

/-- The code is 0 exactly when each stage returned 0. -/
theorem program_fw_zero_iff (env : Env) (s : St) (hname : s.chip.fw_name_set = true)
    (hnp : s.chip.program_fw_stat ≠ FwStat.PROGRAM_FW_PENDING) :
    (p938x_program_fw env s).1 = 0 ↔
      (fw_requested env s).1 = 0 ∧ (fw_bootstrap env s).1 = 0 ∧ (fw_transfer env s).1 = 0 := by
  rw [program_fw_rc_eq env s hname hnp]
  have h1 := fw_requested_rc env s
  have h2 : (fw_bootstrap env s).1 ≤ 0 := program_mtp_downloader_rc env _
  have h3 : (fw_transfer env s).1 ≤ 0 := program_mtp_rc env _ _ _
  split_ifs with a b
  · constructor
    · intro h; omega
    · intro h; omega
  · constructor
    · intro h; omega
    · intro h; omega
  · constructor
    · intro h; exact ⟨by omega, by omega, h⟩
    · intro h; exact h.2.2

theorem set_boost_tick (s : St) (val : Int) : (p938x_set_boost s val).tick = s.tick := by
  unfold p938x_set_boost p938x_pm_set_awake gpio_set_value pm_stay_awake pm_relax St.emit
  dsimp only
  split_ifs <;> rfl

/-- The downloader does not turn the oracle back. -/
theorem program_mtp_downloader_tick (env : Env) (s : St) :
    s.tick ≤ (p938x_program_mtp_downloader env s).2.tick := by
  obtain ⟨k, _, hst, _⟩ := write_reg_loop_log env
    ⟨s.chip, s.tick + 1 + 1, s.log ++ [Ev.reg_write 12288 90] ++ [Ev.msleep 10] ++
      [Ev.reg_write 12352 16] ++ [Ev.msleep 10]⟩ 7168 mtp_downloader
    (env (s.tick + 1)).rc.toInt
  unfold p938x_program_mtp_downloader
  simp only [p938x_write_reg, regmap_write, St.ask, msleep, St.emit, p938x_reset]
  generalize mtp_downloader = dl at hst ⊢
  generalize write_reg_loop env
    ⟨s.chip, s.tick + 1 + 1, s.log ++ [Ev.reg_write 12288 90] ++ [Ev.msleep 10] ++
      [Ev.reg_write 12352 16] ++ [Ev.msleep 10]⟩ 7168 dl (env (s.tick + 1)).rc.toInt = r
    at hst ⊢
  have ht : r.2.tick = s.tick + 1 + 1 + k := by rw [hst]
  split_ifs <;> simp only [] <;> omega

/-- On a bus that from the current call on accepts every write and answers
every status read with 2, a chunk is accepted. -/
theorem program_mtp_package_accept_from (env : Env) (s : St) (src : List Nat)
    (addr size : Nat)
    (hall : ∀ n, s.tick ≤ n → (env n).rc = Rc.ok ∧ (env n).data.headD 0 % 256 = 2) :
    (p938x_program_mtp_package env s src addr size).1 = 0 ∧
    s.tick ≤ (p938x_program_mtp_package env s src addr size).2.tick := by
  rw [program_mtp_package_sent env s src addr size (fun i _ => (hall _ (by omega)).1)]
  rw [mtp_status_wait_verdict env _ 0 0 2
    (hall (s.tick + mtp_packet_len addr size + 1) (by omega)).1
    (hall (s.tick + mtp_packet_len addr size + 1) (by omega)).2 (by decide)]
  simp only [ne_eq, not_true_eq_false, if_false, true_and]
  omega

/-- On such a bus the chunk loop runs to its end. -/
theorem mtp_chunk_loop_accept_from (env : Env) (s : St) (src : List Nat) (i size : Nat) :
    (∀ n, s.tick ≤ n → (env n).rc = Rc.ok ∧ (env n).data.headD 0 % 256 = 2) →
    (mtp_chunk_loop (p938x_program_mtp_package env) s src i size).1 = none ∧
    s.tick ≤ (mtp_chunk_loop (p938x_program_mtp_package env) s src i size).2.tick := by
  induction s, src, i, size using mtp_chunk_loop.induct (p938x_program_mtp_package env) with
  | case1 s src i size hlt r hr =>
    intro hall
    have h0 := (program_mtp_package_accept_from env s src (i % 2 ^ 16) size hall).1
    change (p938x_program_mtp_package env s src (i % 2 ^ 16) size).1 < 0 at hr
    omega
  | case2 s src i size hlt r hr ih =>
    intro hall
    have h0 := (program_mtp_package_accept_from env s src (i % 2 ^ 16) size hall).2
    change s.tick ≤ r.2.tick at h0
    rw [mtp_chunk_loop, if_pos hlt]
    simp only []
    rw [if_neg hr]
    obtain ⟨h1, h2⟩ := ih (fun n hn => hall n (by omega))
    exact ⟨h1, le_trans h0 h2⟩
  | case3 s src i size hge =>
    intro _
    rw [mtp_chunk_loop, if_neg hge]
    exact ⟨rfl, le_refl _⟩

/-- An upload whose request is answered and whose every later write is
accepted and status read answered with 2 returns 0. -/
theorem program_fw_accepts (env : Env) (s : St) (hname : s.chip.fw_name_set = true)
    (hnp : s.chip.program_fw_stat ≠ FwStat.PROGRAM_FW_PENDING)
    (h0 : (env s.tick).rc = Rc.ok)
    (hall : ∀ n, s.tick < n → (env n).rc = Rc.ok ∧ (env n).data.headD 0 % 256 = 2) :
    (p938x_program_fw env s).1 = 0 := by
  rw [program_fw_zero_iff env s hname hnp]
  have hb0 : (msleep (p938x_set_boost (fw_requested env s).2.2 1) 100).tick = s.tick + 1 := by
    simp only [msleep, St.emit, set_boost_tick]
    rfl
  have hbt : s.tick + 1 ≤ (fw_bootstrap env s).2.tick := by
    have := program_mtp_downloader_tick env
      (msleep (p938x_set_boost (fw_requested env s).2.2 1) 100)
    rw [hb0] at this
    exact this
  refine ⟨(rc_toInt_eq_zero _).mpr h0, ?_, ?_⟩
  · unfold fw_bootstrap
    rw [program_mtp_downloader_zero_iff]
    intro i _
    exact (hall _ (by rw [hb0]; omega)).1
  · unfold fw_transfer
    rw [program_mtp_zero_iff]
    obtain ⟨h1, h2⟩ := mtp_chunk_loop_accept_from env (fw_bootstrap env s).2
      (fw_requested env s).2.1 0 ((fw_requested env s).2.1.length % 2 ^ 32)
      (fun n hn => hall n (by omega))
    exact ⟨h1, (hall _ (by omega)).1, (hall _ (by omega)).1⟩

theorem program_fw_upload_ok :
    (p938x_program_fw env_upload ⟨chip_fw_ready, 0, []⟩).1 = 0 :=
  program_fw_accepts env_upload ⟨chip_fw_ready, 0, []⟩ (by decide) (by decide) (by decide)
    (fun n hn => by
      have hne : n ≠ 0 := by
        have : 0 < n := hn
        omega
      simp [env_upload, hne])

/-- Past the entry checks the final status follows the return code, and the
boost is off on return once the image was obtained. -/
theorem program_fw_status_rc (env : Env) (s : St) (hname : s.chip.fw_name_set = true)
    (hnp : s.chip.program_fw_stat ≠ FwStat.PROGRAM_FW_PENDING) :
    ((p938x_program_fw env s).2.chip.program_fw_stat = FwStat.PROGRAM_FW_SUCCESS ↔
      (p938x_program_fw env s).1 = 0) ∧
    ((p938x_program_fw env s).2.chip.program_fw_stat = FwStat.PROGRAM_FW_FAIL ↔
      (p938x_program_fw env s).1 < 0) ∧
    (p938x_program_fw env s).1 ≤ 0 ∧
    (p938x_program_fw env s).2.chip.program_fw_stat ≠ FwStat.PROGRAM_FW_PENDING ∧
    ((env s.tick).rc = Rc.ok → (p938x_program_fw env s).2.chip.boost_enabled = false) := by
  unfold p938x_program_fw
  simp only [hname, Bool.not_true, Bool.false_eq_true, if_false, hnp]
  unfold request_firmware St.ask
  dsimp only
  split_ifs with h1 h2 h3
  · have hne : (env s.tick).rc ≠ Rc.ok := (rc_toInt_neg _).mp h1
    refine ⟨?_, ?_, le_of_lt h1, by simp, fun h => absurd h hne⟩
    · simp only [reduceCtorEq, false_iff]; omega
    · simp [h1]
  · refine ⟨?_, ?_, le_of_lt h2, ?_, fun _ => ?_⟩
    · constructor
      · intro hs
        rw [set_boost_chip] at hs
        simp [release_firmware] at hs
      · intro h0; omega
    · constructor
      · intro _; exact h2
      · intro _; rw [set_boost_chip]; simp [release_firmware]
    · rw [set_boost_chip]; simp [release_firmware]
    · rw [set_boost_chip]; simp
  · refine ⟨?_, ?_, le_of_lt h3, ?_, fun _ => ?_⟩
    · constructor
      · intro hs
        rw [set_boost_chip] at hs
        simp [release_firmware] at hs
      · intro h0; omega
    · constructor
      · intro _; exact h3
      · intro _; rw [set_boost_chip]; simp [release_firmware]
    · rw [set_boost_chip]; simp [release_firmware]
    · rw [set_boost_chip]; simp
  · have h0 := le_antisymm (program_mtp_rc env _ _ _) (not_lt.mp h3)
    refine ⟨?_, ?_, le_of_eq h0, ?_, fun _ => ?_⟩
    · constructor
      · intro _; exact h0
      · intro _; rw [set_boost_chip]; simp [release_firmware]
    · constructor
      · intro hs
        rw [set_boost_chip] at hs
        simp [release_firmware] at hs
      · intro hlt; omega
    · rw [set_boost_chip]; simp [release_firmware]
    · rw [set_boost_chip]; simp

/-- The bootstrap stage returns 0 exactly when the bus accepts each of the
368 checked writes of the downloader, the first of which is the call after
the firmware request. -/
theorem fw_bootstrap_zero_iff (env : Env) (s : St) :
    (fw_bootstrap env s).1 = 0 ↔ ∀ i, i < 368 → (env (s.tick + 1 + i)).rc = Rc.ok := by
  unfold fw_bootstrap
  rw [program_mtp_downloader_zero_iff, mtp_downloader_length]
  have hb0 : (msleep (p938x_set_boost (fw_requested env s).2.2 1) 100).tick = s.tick + 1 := by
    simp only [msleep, St.emit, set_boost_tick]
    rfl
  rw [hb0]

/-- The chunk loop of the main stage runs to its end exactly when
`p938x_program_mtp_package` returns 0 for every chunk of the image. -/
theorem fw_chunks_none_iff (env : Env) (s : St) :
    (fw_chunks env s).1 = none ↔
      ∀ k, 128 * k < (fw_requested env s).2.1.length % 2 ^ 32 →
        chunk_code env (fw_bootstrap env s).2 (fw_requested env s).2.1
          ((fw_requested env s).2.1.length % 2 ^ 32) k = 0 := by
  unfold fw_chunks
  rw [mtp_chunk_loop_none_iff env (fw_bootstrap env s).2 (fw_requested env s).2.1
    (fw_bootstrap env s).2 (fw_requested env s).2.1 0 _ 0 rfl (by simp) rfl]
  exact ⟨fun h k hk => h k (Nat.zero_le _) hk, fun h k _ hk => h k hk⟩

/-- The main stage returns 0 exactly when its chunk loop runs to its end and
the bus accepts the two writes of the finalisation. -/
theorem fw_transfer_zero_iff (env : Env) (s : St) :
    (fw_transfer env s).1 = 0 ↔
      (fw_chunks env s).1 = none ∧ (env (fw_chunks env s).2.tick).rc = Rc.ok ∧
      (env ((fw_chunks env s).2.tick + 1)).rc = Rc.ok := by
  unfold fw_transfer fw_chunks
  exact program_mtp_zero_iff env _ _ _

theorem set_tx_mode_epp (env : Env) (s : St) (val : Int) :
    (p938x_set_tx_mode env s val).chip.epp_mode = s.chip.epp_mode := by
  unfold p938x_set_tx_mode
  dsimp only
  split_ifs <;> simp [set_boost_chip, gpio_set_value, St.emit, msleep]

/-- Leaving tx mode does not power a chip that is off. -/
theorem set_tx_mode_zero_off (env : Env) (s : St) (hoff : p938x_is_chip_on s.chip = false) :
    p938x_is_chip_on (p938x_set_tx_mode env s 0).chip = false := by
  have hb : s.chip.boost_enabled = false ∧ s.chip.tx_attached = false := by
    simpa [p938x_is_chip_on] using hoff
  cases hm : s.chip.tx_mode_en
  · simp [p938x_set_tx_mode, hb.2, hm, hoff]
  · rw [(set_tx_mode_disable_eq env s hb.2 hm).1]
    simp [p938x_is_chip_on, hb.2]

/-- Mode detection on a chip that is not powered: the mode byte is read and
recorded, and neither setter reaches the bus. -/
theorem check_system_mode_off (env : Env) (s : St) (hoff : p938x_is_chip_on s.chip = false)
    (hrd : (env s.tick).rc = Rc.ok)
    (hwpc : ((env s.tick).data.getD 0 0 % 256) &&& SYS_MODE_WPCMODE ≠ 0) :
    (p938x_check_system_mode env s).1 = 0 ∧
    (p938x_check_system_mode env s).2.chip =
      { s.chip with
        epp_mode := decide (((env s.tick).data.getD 0 0 % 256) &&& SYS_MODE_EXTENDED ≠ 0) } ∧
    (p938x_check_system_mode env s).2.log = s.log ++ [Ev.bulk_read SYS_MODE_REG 1] := by
  unfold p938x_check_system_mode
  rw [read_buffer_ok env s _ _ hrd]
  have hmode : ((List.range 1).map (fun i => (env s.tick).data.getD i 0 % 256)).getD 0 0
      = (env s.tick).data.getD 0 0 % 256 := by
    simp [List.range, List.range.loop]
  simp only [lt_self_iff_false, if_false, hmode, hwpc, ne_eq, not_false_eq_true, if_true]
  have hb : s.chip.boost_enabled = false ∧ s.chip.tx_attached = false := by
    simpa [p938x_is_chip_on] using hoff
  generalize (env s.tick).data.getD 0 0 % 256 = mode at hwpc ⊢
  by_cases he : mode &&& SYS_MODE_EXTENDED = 0 <;>
    by_cases h1 : s.chip.wls_vout_max = 0 <;> by_cases h2 : s.chip.wls_iout_max = 0 <;>
    simp [he, h1, h2, p938x_set_rx_vout, p938x_set_rx_ocl, p938x_is_chip_on, hb.1, hb.2]

/-- The attach stage keeps the detected mode. -/
theorem status_attach_epp (env : Env) (s4 : St) :
    (status_attach env s4).chip.epp_mode = s4.chip.epp_mode := by
  unfold status_attach
  dsimp only
  obtain ⟨a, b, c, hu⟩ := update_supplies_status_chip env s4
  have h1 : (p938x_update_supplies_status env s4).2.chip.epp_mode = s4.chip.epp_mode := by
    rw [hu]
  simp only [schedule_delayed_work, cancel_delayed_work, St.emit, pm_set_awake_chip]
  split_ifs
  · rw [set_tx_mode_epp, h1]
  · rw [h1]

/-- Up to the VOUT_ON stage status handling writes to no limit register. -/
theorem status_after_conflict_no_limit (env : Env) (s : St) (h0 : (env s.tick).rc = Rc.ok)
    (h1 : (env (s.tick + 1)).rc = Rc.ok) :
    ∃ pre, (status_after_conflict env s).log = s.log ++ pre ∧
      ∀ e ∈ pre, Ev.is_limit_write e = false := by
  rw [status_after_conflict_ok env s h0 h1]
  have hreads : ∀ e ∈ [Ev.bulk_read IRQ_ENABLE_REG 2, Ev.bulk_read DEV_STATUS_REG 4],
      Ev.is_limit_write e = false := by decide
  split_ifs
  · obtain ⟨ext, hlog, hp⟩ := set_tx_mode_ext env
      ⟨{ s.chip with stat := snap_status (env (s.tick + 1)),
                     irq_stat := snap_irq (env (s.tick + 1)) }, s.tick + 2,
        s.log ++ [Ev.bulk_read IRQ_ENABLE_REG 2, Ev.bulk_read DEV_STATUS_REG 4]⟩ 0
    refine ⟨[Ev.bulk_read IRQ_ENABLE_REG 2, Ev.bulk_read DEV_STATUS_REG 4] ++ ext,
      by rw [hlog, List.append_assoc], ?_⟩
    intro e he
    rcases List.mem_append.mp he with h | h
    · exact hreads e h
    · exact ev_attach_step_not_limit e (hp e h)
  · exact ⟨_, rfl, hreads⟩

/-- A chip that is off when the snapshot is read is off when the mode is
checked. -/
theorem status_after_conflict_off (env : Env) (s : St) (h0 : (env s.tick).rc = Rc.ok)
    (h1 : (env (s.tick + 1)).rc = Rc.ok) (hoff : p938x_is_chip_on s.chip = false) :
    p938x_is_chip_on (status_after_conflict env s).chip = false := by
  rw [status_after_conflict_ok env s h0 h1]
  have hoff2 : p938x_is_chip_on
      { s.chip with stat := snap_status (env (s.tick + 1)),
                    irq_stat := snap_irq (env (s.tick + 1)) } = false := by
    simpa [p938x_is_chip_on] using hoff
  split_ifs
  · exact set_tx_mode_zero_off env _ hoff2
  · exact hoff2

/-- The VOUT_ON stage on a chip that is not powered, mode byte read with WPC
active. -/
theorem status_after_vout_off (env : Env) (s : St) (h0 : (env s.tick).rc = Rc.ok)
    (h1 : (env (s.tick + 1)).rc = Rc.ok)
    (hv : snap_irq (env (s.tick + 1)) &&& snap_status (env (s.tick + 1)) &&& ST_VOUT_ON ≠ 0)
    (hoff : p938x_is_chip_on (status_after_conflict env s).chip = false)
    (hrd : (env (status_after_conflict env s).tick).rc = Rc.ok)
    (hwpc : ((env (status_after_conflict env s).tick).data.getD 0 0 % 256)
      &&& SYS_MODE_WPCMODE ≠ 0) :
    (status_after_vout env s).log =
      (status_after_conflict env s).log ++
        [Ev.bulk_read SYS_MODE_REG 1, Ev.cancel_work, Ev.schedule_work 0, Ev.psy_changed] ∧
    (status_after_vout env s).chip.epp_mode =
      decide (((env (status_after_conflict env s).tick).data.getD 0 0 % 256)
        &&& SYS_MODE_EXTENDED ≠ 0) := by
  obtain ⟨_, hchip, hlog⟩ := check_system_mode_off env (status_after_conflict env s) hoff hrd hwpc
  unfold status_after_vout
  rw [get_status_ok env s h0 h1]
  simp only [hv, ne_eq, not_false_eq_true, if_true]
  constructor
  · simp [power_supply_changed, schedule_delayed_work, cancel_delayed_work, St.emit, hlog]
  · simp [power_supply_changed, schedule_delayed_work, cancel_delayed_work, St.emit, hchip]

/-- In the initial state (boost off, no transmitter attached) a snapshot with VOUT_ON in both words and a mode byte with WPC
active is processed without any write to VOUT_SET or ILIMIT_SET; the only
register writes are those of the acknowledgment. -/
theorem vout_on_unpowered_writes_no_limit :
    snap_irq (env_vout 1) &&& snap_status (env_vout 1) &&& ST_VOUT_ON ≠ 0 ∧
    ((env_vout 2).data.getD 0 0 % 256) &&& SYS_MODE_WPCMODE ≠ 0 ∧
    p938x_is_chip_on Chip.init = false ∧
    (p938x_check_status env_vout ⟨Chip.init, 0, []⟩).1 = 0 ∧
    (p938x_check_status env_vout ⟨Chip.init, 0, []⟩).2.log =
      [Ev.bulk_read IRQ_ENABLE_REG 2, Ev.bulk_read DEV_STATUS_REG 4,
       Ev.bulk_read SYS_MODE_REG 1, Ev.cancel_work, Ev.schedule_work 0, Ev.psy_changed,
       Ev.reg_write IRQ_CLEAR_REG 0x80, Ev.reg_write (IRQ_CLEAR_REG + 1) 0,
       Ev.reg_write SYS_CMD_REG CMD_RX_CLR_IRQ] ∧
    ∀ e ∈ (p938x_check_status env_vout ⟨Chip.init, 0, []⟩).2.log,
      Ev.is_limit_write e = false := by
  refine ⟨by decide, by decide, by decide, by decide, by decide, by decide⟩

/-- Status handling on a powered chip: when the snapshot is read with VOUT_ON
set in both words, the chip is powered (boost enabled or transmitter attached) at the
time the mode is checked and the mode byte is read with WPC active, then
`p938x_check_status` reads the mode and writes the default of the detected
mode to VOUT_SET (120 for EPP, 50 for BPP) and to ILIMIT_SET (15), then the
clamped override to VOUT_SET when `wls_vout_max` is set and to ILIMIT_SET
when `wls_iout_max` is set; nothing it does afterwards writes to either
register. -/
theorem vout_on_applies_limits_when_powered (env : Env) (s : St)
    (h0 : (env s.tick).rc = Rc.ok) (h1 : (env (s.tick + 1)).rc = Rc.ok)
    (hv : snap_irq (env (s.tick + 1)) &&& snap_status (env (s.tick + 1)) &&& ST_VOUT_ON ≠ 0)
    (hon : p938x_is_chip_on (status_after_conflict env s).chip = true)
    (hrd : (env (status_after_conflict env s).tick).rc = Rc.ok)
    (hwpc : ((env (status_after_conflict env s).tick).data.getD 0 0 % 256)
      &&& SYS_MODE_WPCMODE ≠ 0) :
    (p938x_check_status env s).1 = 0 ∧
    ∃ post, (p938x_check_status env s).2.log =
        (status_after_conflict env s).log ++
          mode_limit_log ((env (status_after_conflict env s).tick).data.getD 0 0 % 256)
            s.chip.wls_vout_max s.chip.wls_iout_max ++ post ∧
      ∀ e ∈ post, Ev.is_limit_write e = false := by
  have hg := get_status_ok env s h0 h1
  have hrc : (p938x_get_status env s).1 = 0 := by rw [hg]
  rw [check_status_eq env s hrc, clear_irq_eq]
  refine ⟨rfl, ?_⟩
  have hvout := status_after_vout_wpc env s h0 h1 hv hon hrd hwpc
  have htail : ∀ e ∈ [Ev.cancel_work, Ev.schedule_work 0, Ev.psy_changed],
      Ev.is_limit_write e = false := by decide
  have hb : ∃ ext, (status_before_ack env s).log = (status_after_vout env s).log ++ ext ∧
      ∀ e ∈ ext, Ev.is_limit_write e = false := by
    unfold status_before_ack
    dsimp only
    split_ifs
    · exact status_attach_ext env _
    · exact ⟨[], by simp, by simp⟩
  obtain ⟨ext, hext, hpe⟩ := hb
  generalize status_before_ack env s = sb at hext ⊢
  refine ⟨[Ev.cancel_work, Ev.schedule_work 0, Ev.psy_changed] ++ ext ++
    irq_ack_log (decide ((env sb.tick).rc = Rc.ok)) (p938x_get_status env s).2.2.1, ?_, ?_⟩
  · simp only [hext, hvout, List.append_assoc]
  · intro e he
    rcases List.mem_append.mp he with h | h
    · rcases List.mem_append.mp h with h | h
      · exact htail e h
      · exact hpe e h
    · exact irq_ack_log_not_limit _ _ e h

theorem vout_on_applies_limits_when_powered_witness :
    (env_vout 0).rc = Rc.ok ∧ (env_vout 1).rc = Rc.ok ∧
    snap_irq (env_vout 1) &&& snap_status (env_vout 1) &&& ST_VOUT_ON ≠ 0 ∧
    p938x_is_chip_on (status_after_conflict env_vout ⟨chip_attached, 0, []⟩).chip = true ∧
    (status_after_conflict env_vout ⟨chip_attached, 0, []⟩).tick = 2 ∧
    (env_vout 2).data.getD 0 0 % 256 = 1 ∧
    (p938x_check_status env_vout ⟨chip_attached, 0, []⟩).1 = 0 ∧
    ∃ post, (p938x_check_status env_vout ⟨chip_attached, 0, []⟩).2.log =
        (status_after_conflict env_vout ⟨chip_attached, 0, []⟩).log ++
          mode_limit_log
            ((env_vout (status_after_conflict env_vout ⟨chip_attached, 0, []⟩).tick).data.getD
              0 0 % 256)
            chip_attached.wls_vout_max chip_attached.wls_iout_max ++ post ∧
      ∀ e ∈ post, Ev.is_limit_write e = false :=
  ⟨by decide, by decide, by decide, by decide, by decide, by decide,
    vout_on_applies_limits_when_powered env_vout ⟨chip_attached, 0, []⟩ (by decide) (by decide)
      (by decide) (by decide) (by decide) (by decide)⟩

/-! ## The claims -/

/-- Claim C1: the bytes `p938x_program_mtp_package` writes to the staging
window are taken, in order, from the packet `mtp_wire`; in that packet the
checksum stored in bytes 6-7 (little-endian) is
`(start_addr + padded code_len + sum of the padded payload bytes) mod 65536`,
every byte is an unsigned 8-bit value, and re-deriving the checksum from the
wire bytes (address field, length field, payload region) gives the stored
value. -/
theorem checksum_invariant (env : Env) (s : St) (src : List Nat) (addr size : Nat)
    (haddr : addr < 2 ^ 16) (hb : ∀ b ∈ src, b < 256) :
    (∃ k rest, (p938x_program_mtp_package env s src addr size).2.log =
        s.log ++ reg_writes 0x400 ((mtp_wire src addr size).take k) ++ rest) ∧
    (∀ b ∈ mtp_wire src addr size, b < 256) ∧
    wire_stored_sum (mtp_wire src addr size) =
      (addr + mtp_padded_len addr size
        + (((mtp_wire src addr size).drop 8).take (mtp_padded_len addr size)).sum) % 2 ^ 16 ∧
    wire_check_sum (mtp_wire src addr size) = wire_stored_sum (mtp_wire src addr size) := by
  have hbd := mtp_padded_len_bounds addr size
  have hck : mtp_check_sum src addr size < 2 ^ 16 := by
    rw [mtp_check_sum_eq]; exact Nat.mod_lt _ (by norm_num)
  have hpay : ((mtp_wire src addr size).drop 8).take (mtp_padded_len addr size)
      = (mtp_payload_region src addr size).take (mtp_padded_len addr size) := by
    rw [mtp_wire_eq]
    simp only [u16_bytes, List.cons_append, List.nil_append, List.drop_succ_cons, List.drop_zero,
      List.take_take]
    congr 1
    omega
  have hstored : wire_stored_sum (mtp_wire src addr size) = mtp_check_sum src addr size := by
    rw [mtp_wire_eq, wire_stored_sum]
    have := le_val_u16_bytes _ hck
    simpa [u16_bytes, le_val] using this
  have hlen : le_val (((mtp_wire src addr size).drop 4).take 2) = mtp_padded_len addr size := by
    rw [mtp_wire_eq]
    have := le_val_u16_bytes (mtp_padded_len addr size) (by omega)
    simpa [u16_bytes, le_val] using this
  have haddr' : le_val (((mtp_wire src addr size).drop 2).take 2) = addr := by
    rw [mtp_wire_eq]
    have := le_val_u16_bytes addr haddr
    simpa [u16_bytes, le_val] using this
  refine ⟨?_, ?_, ?_, ?_⟩
  · obtain ⟨k, rest, _, hlog, _⟩ := program_mtp_package_log env s src addr size
    exact ⟨k, rest, hlog⟩
  · intro b hmem
    rw [mtp_wire_eq] at hmem
    simp only [u16_bytes, List.cons_append, List.nil_append, List.mem_cons] at hmem
    rcases hmem with h | h | h | h | h | h | h | h | h
    · omega
    · omega
    · omega
    · omega
    · omega
    · omega
    · omega
    · omega
    · have h2 := List.mem_of_mem_take h
      simp only [mtp_payload_region, List.mem_append, List.mem_map, List.mem_range,
        List.mem_replicate] at h2
      rcases h2 with ⟨i, _, hi⟩ | ⟨_, h0⟩
      · rw [← hi, List.getD_eq_getElem?_getD]
        cases hsi : src[i]? with
        | none => simp
        | some v =>
          have := hb v (List.getElem?_mem hsi)
          simpa using this
      · omega
  · rw [hstored, hpay, mtp_check_sum_eq]
  · rw [wire_check_sum, hlen, haddr', hpay, hstored, mtp_check_sum_eq]

theorem checksum_invariant_witness :
    (0 : Nat) < 2 ^ 16 ∧ (∀ b ∈ [1, 2, 255], b < 256) ∧
    wire_check_sum (mtp_wire [1, 2, 255] 0 3) = wire_stored_sum (mtp_wire [1, 2, 255] 0 3) :=
  ⟨by decide, by decide,
    (checksum_invariant env_ok ⟨Chip.init, 0, []⟩ [1, 2, 255] 0 3 (by decide)
      (by decide)).2.2.2⟩

/-- Claim C2: for a chunk at `addr < size` the unpadded length `L = min(128, size - addr)`
lies in `[1,128]`, the padded `code_len` is `ceil(L/16)*16` and the packet
length is `ceil((code_len+8)/16)*16`. -/
theorem padding_invariant (addr size : Nat) (hsize : size < 2 ^ 32) (hlt : addr < size) :
    1 ≤ min 128 (size - addr) ∧ min 128 (size - addr) ≤ 128 ∧
    mtp_code_len addr size = min 128 (size - addr) ∧
    mtp_padded_len addr size = ⌈((min 128 (size - addr) : ℕ) : ℚ) / 16⌉₊ * 16 ∧
    mtp_packet_len addr size =
      ⌈((mtp_padded_len addr size + 8 : ℕ) : ℚ) / 16⌉₊ * 16 := by
  have hL := mtp_code_len_eq addr size hsize hlt
  refine ⟨by omega, by omega, hL, ?_, ?_⟩
  · rw [ceil_div_16]
    unfold mtp_padded_len align_16
    rw [hL]
    omega
  · rw [ceil_div_16]
    unfold mtp_packet_len FW_MTP_PACK_HEADER_LEN
    have : mtp_padded_len addr size ≤ 128 := by
      unfold mtp_padded_len align_16
      rw [hL]; omega
    unfold align_16
    omega

theorem padding_invariant_witness :
    mtp_padded_len 128 200 = ⌈((min 128 (200 - 128) : ℕ) : ℚ) / 16⌉₊ * 16 :=
  (padding_invariant 128 200 (by decide) (by decide)).2.2.2.1

/-- Claim C3: for a chunk at `addr` of an image, the packet on the wire is: two zero
bytes, the start address, the padded length and the checksum as little-endian
16-bit fields, the `L = min(128, size - addr)` image bytes of the chunk in
order, and zeros up to the packet length.  `p938x_program_mtp_package` writes
these bytes, in order, to consecutive registers from 0x400: a prefix of them
if a write fails, and all of them, followed by the validation byte, when
every packet write is accepted. -/
theorem packet_wire_format (env : Env) (s : St) (image : List Nat) (addr : Nat)
    (haddr : addr < 2 ^ 16) (hsize : image.length < 2 ^ 32) (hlt : addr < image.length) :
    mtp_wire (image.drop addr) addr image.length =
      packet_layout addr (mtp_padded_len addr image.length)
        (mtp_check_sum (image.drop addr) addr image.length)
        ((image.drop addr).take (min 128 (image.length - addr)))
        (mtp_packet_len addr image.length) ∧
    (mtp_wire (image.drop addr) addr image.length).length = mtp_packet_len addr image.length ∧
    le_val (u16_bytes addr) = addr ∧
    le_val (u16_bytes (mtp_padded_len addr image.length)) = mtp_padded_len addr image.length ∧
    le_val (u16_bytes (mtp_check_sum (image.drop addr) addr image.length)) =
      mtp_check_sum (image.drop addr) addr image.length ∧
    (∃ k rest, k ≤ mtp_packet_len addr image.length ∧
      (p938x_program_mtp_package env s (image.drop addr) addr image.length).2.log =
        s.log ++ reg_writes 0x400 ((mtp_wire (image.drop addr) addr image.length).take k)
          ++ rest ∧
      (k < mtp_packet_len addr image.length → rest = [])) ∧
    ((∀ i, i < mtp_packet_len addr image.length → (env (s.tick + i)).rc = Rc.ok) →
      ∃ rest, (p938x_program_mtp_package env s (image.drop addr) addr image.length).2.log =
        s.log ++ reg_writes 0x400 (mtp_wire (image.drop addr) addr image.length)
          ++ Ev.reg_write 0x400 1 :: rest) := by
  have hb := mtp_padded_len_bounds addr image.length
  refine ⟨mtp_wire_layout image addr hsize hlt, mtp_wire_length _ _ _,
    le_val_u16_bytes _ haddr, le_val_u16_bytes _ (by omega), le_val_u16_bytes _ ?_, ?_, ?_⟩
  · rw [mtp_check_sum_eq]; exact Nat.mod_lt _ (by norm_num)
  · obtain ⟨k, rest, hk, hlog, hrest⟩ :=
      program_mtp_package_log env s (image.drop addr) addr image.length
    rw [mtp_wire_length] at hk hrest
    exact ⟨k, rest, hk, hlog, hrest⟩
  · exact program_mtp_package_log_ok env s (image.drop addr) addr image.length

theorem packet_wire_format_witness :
    (0 : Nat) < 2 ^ 16 ∧ [7, 9, 11].length < 2 ^ 32 ∧ 0 < [7, 9, 11].length ∧
    mtp_wire (List.drop 0 [7, 9, 11]) 0 [7, 9, 11].length =
      packet_layout 0 (mtp_padded_len 0 [7, 9, 11].length)
        (mtp_check_sum (List.drop 0 [7, 9, 11]) 0 [7, 9, 11].length)
        ((List.drop 0 [7, 9, 11]).take (min 128 ([7, 9, 11].length - 0)))
        (mtp_packet_len 0 [7, 9, 11].length) :=
  ⟨by decide, by decide, by decide,
    (packet_wire_format env_ok ⟨Chip.init, 0, []⟩ [7, 9, 11] 0 (by decide) (by decide)
      (by decide)).1⟩

/-- Claim C4: with the chip powered, every request `mv` makes `p938x_set_rx_vout`
perform exactly one register write, of `min(max(mv,5000),12000)/100` to VOUT_SET;
the value lies in `[50,120]`, 4000 gives 50 and 20000 gives 120, and the
return code is that of the bus write (`0` when the write succeeds), so an
out-of-range request is never rejected. -/
theorem set_rx_vout_clamps (env : Env) (s : St) (mv : Nat)
    (hon : p938x_is_chip_on s.chip = true) :
    p938x_set_rx_vout env s mv =
      ((env s.tick).rc.toInt,
        { s with tick := s.tick + 1,
                 log := s.log ++ [Ev.reg_write VOUT_SET_REG (min (max mv 5000) 12000 / 100)] }) ∧
    50 ≤ min (max mv 5000) 12000 / 100 ∧ min (max mv 5000) 12000 / 100 ≤ 120 ∧
    ((env s.tick).rc = Rc.ok → (p938x_set_rx_vout env s mv).1 = 0) ∧
    (p938x_set_rx_vout env s 4000).2.log = s.log ++ [Ev.reg_write VOUT_SET_REG 50] ∧
    (p938x_set_rx_vout env s 20000).2.log = s.log ++ [Ev.reg_write VOUT_SET_REG 120] := by
  have key : ∀ m : Nat, p938x_set_rx_vout env s m =
      ((env s.tick).rc.toInt,
        { s with tick := s.tick + 1,
                 log := s.log ++ [Ev.reg_write VOUT_SET_REG (min (max m 5000) 12000 / 100)] }) := by
    intro m
    have hv : (if m < 5000 then 5000 else if m > 12000 then 12000 else m) / 100 % 256
        = min (max m 5000) 12000 / 100 := by
      split_ifs <;> omega
    simp only [p938x_set_rx_vout, hon, Bool.not_true, Bool.false_eq_true, if_false,
      p938x_write_reg, regmap_write, St.ask, MIN_VOUT_SET, MAX_VOUT_SET, hv]
  refine ⟨key mv, by omega, by omega, ?_, ?_, ?_⟩
  · intro hok
    rw [key mv]
    simp [hok, Rc.toInt]
  · rw [key 4000]; norm_num
  · rw [key 20000]; norm_num

theorem set_rx_vout_clamps_witness :
    p938x_is_chip_on { Chip.init with boost_enabled := true } = true ∧
    (p938x_set_rx_vout (fun _ => ⟨Rc.ok, []⟩)
      ⟨{ Chip.init with boost_enabled := true }, 0, []⟩ 4000).2.log
      = [Ev.reg_write VOUT_SET_REG 50] :=
  ⟨by decide,
   (set_rx_vout_clamps (fun _ => ⟨Rc.ok, []⟩)
      ⟨{ Chip.init with boost_enabled := true }, 0, []⟩ 4000 (by decide)).2.2.2.2.1⟩

/-- Claim C5: with the chip powered, every request `ma` makes `p938x_set_rx_ocl`
perform exactly one register write, of `(min(max(ma,500),3000) - 100)/100` to
ILIMIT_SET; the value lies in `[4,29]`, and the return code is that of the bus
write (`0` when the write succeeds). -/
theorem set_rx_ocl_clamps (env : Env) (s : St) (ma : Nat)
    (hon : p938x_is_chip_on s.chip = true) :
    p938x_set_rx_ocl env s ma =
      ((env s.tick).rc.toInt,
        { s with tick := s.tick + 1,
                 log := s.log ++
                   [Ev.reg_write ILIMIT_SET_REG ((min (max ma 500) 3000 - 100) / 100)] }) ∧
    4 ≤ (min (max ma 500) 3000 - 100) / 100 ∧ (min (max ma 500) 3000 - 100) / 100 ≤ 29 ∧
    ((env s.tick).rc = Rc.ok → (p938x_set_rx_ocl env s ma).1 = 0) ∧
    (ma < 500 → (min (max ma 500) 3000 - 100) / 100 = (500 - 100) / 100) ∧
    (3000 < ma → (min (max ma 500) 3000 - 100) / 100 = (3000 - 100) / 100) := by
  have key : p938x_set_rx_ocl env s ma =
      ((env s.tick).rc.toInt,
        { s with tick := s.tick + 1,
                 log := s.log ++
                   [Ev.reg_write ILIMIT_SET_REG ((min (max ma 500) 3000 - 100) / 100)] }) := by
    have hv : ((if ma < 500 then 500 else if ma > 3000 then 3000 else ma) - 100) / 100 % 256
        = (min (max ma 500) 3000 - 100) / 100 := by
      split_ifs <;> omega
    simp only [p938x_set_rx_ocl, hon, Bool.not_true, Bool.false_eq_true, if_false,
      p938x_write_reg, regmap_write, St.ask, MIN_IOUT_SET, MAX_IOUT_SET, hv]
  refine ⟨key, by omega, by omega, ?_, by omega, by omega⟩
  intro hok
  rw [key]
  simp [hok, Rc.toInt]

theorem set_rx_ocl_clamps_witness :
    p938x_is_chip_on { Chip.init with tx_attached := true } = true ∧
    (p938x_set_rx_ocl (fun _ => ⟨Rc.ok, []⟩)
      ⟨{ Chip.init with tx_attached := true }, 0, []⟩ 9000).1 = 0 :=
  ⟨by decide,
   (set_rx_ocl_clamps (fun _ => ⟨Rc.ok, []⟩)
      ⟨{ Chip.init with tx_attached := true }, 0, []⟩ 9000 (by decide)).2.2.2.1 rfl⟩

/-- Claim C6: starting from any state with all flags clear, after any sequence of
status processing, removal events, tx-mode requests, boost changes and
firmware uploads (each against an arbitrary bus), transmitter-attached and
tx-mode-enabled are not both set. -/
theorem tx_attached_excludes_tx_mode (c0 : Chip) (t : Nat) (l : List Ev)
    (h0 : flags_clear c0) (ops : List (Op × Env)) :
    ¬ ((run_ops ⟨c0, t, l⟩ ops).chip.tx_attached = true ∧
       (run_ops ⟨c0, t, l⟩ ops).chip.tx_mode_en = true) := by
  apply run_ops_exclusive
  intro ⟨h1, _⟩
  rw [h0.2.1] at h1
  exact absurd h1 (by simp)

theorem tx_attached_excludes_tx_mode_witness :
    flags_clear Chip.init ∧
    ¬ ((run_ops ⟨Chip.init, 0, []⟩
          [(Op.set_tx_mode 1, env_ok), (Op.check_status, env_vrect)]).chip.tx_attached = true ∧
       (run_ops ⟨Chip.init, 0, []⟩
          [(Op.set_tx_mode 1, env_ok), (Op.check_status, env_vrect)]).chip.tx_mode_en = true) :=
  ⟨by decide,
    tx_attached_excludes_tx_mode Chip.init 0 [] (by decide)
      [(Op.set_tx_mode 1, env_ok), (Op.check_status, env_vrect)]⟩

/-- Claim C7: with transmitter-attached set, a tx-mode enable request returns at
once: the whole state is unchanged and nothing is logged (no register write,
no GPIO write, no power-supply override, no bus call at all); tx-mode-enabled
is false afterwards in every state that satisfies the mutual-exclusion
invariant of the device state. -/
theorem tx_mode_request_rejected_when_attached (env : Env) (s : St) (val : Int)
    (hatt : s.chip.tx_attached = true) :
    p938x_set_tx_mode env s val = s ∧
    (p938x_set_tx_mode env s val).log = s.log ∧
    (tx_exclusive s.chip → (p938x_set_tx_mode env s val).chip.tx_mode_en = false) := by
  have h := set_tx_mode_attached env s val hatt
  refine ⟨h, by rw [h], ?_⟩
  intro hex
  rw [h]
  cases hm : s.chip.tx_mode_en
  · rfl
  · exact absurd ⟨hatt, hm⟩ hex

theorem tx_mode_request_rejected_when_attached_witness :
    (p938x_check_status env_vrect ⟨Chip.init, 0, []⟩).2.chip.tx_attached = true ∧
    (p938x_set_tx_mode env_ok (p938x_check_status env_vrect ⟨Chip.init, 0, []⟩).2 1
      ).chip.tx_mode_en = false :=
  ⟨by decide,
    (tx_mode_request_rejected_when_attached env_ok
      (p938x_check_status env_vrect ⟨Chip.init, 0, []⟩).2 1 (by decide)).2.2 (by decide)⟩

/-- Claim C8: a second removal event changes nothing: the state after two removals
is the state after one, and the second one logs nothing (no bus write, no
notification, no telemetry cancellation, no wake-lock release) and makes no
bus call. -/
theorem removal_idempotent (env1 env2 : Env) (s : St) :
    p938x_handle_wls_removal env2 (p938x_handle_wls_removal env1 s) =
      p938x_handle_wls_removal env1 s ∧
    (p938x_handle_wls_removal env2 (p938x_handle_wls_removal env1 s)).log =
      (p938x_handle_wls_removal env1 s).log := by
  have h := handle_wls_removal_not_attached env2 (p938x_handle_wls_removal env1 s)
    (handle_wls_removal_tx_attached env1 s)
  exact ⟨h, by rw [h]⟩

/-- Claim C9, as stated, fails: in the state reached from the initial state by
processing a snapshot with `stat = VRECT_ON`, `irq_stat = 0` (recorded, but not
an attachment), a removal event leaves `stat` at 0x40. -/
theorem removal_keeps_status_when_detached :
    ¬ ((p938x_handle_wls_removal env_ok
          (p938x_check_status env_vrect_level ⟨Chip.init, 0, []⟩).2).chip.tx_attached = false ∧
       (p938x_handle_wls_removal env_ok
          (p938x_check_status env_vrect_level ⟨Chip.init, 0, []⟩).2).chip.stat = 0 ∧
       (p938x_handle_wls_removal env_ok
          (p938x_check_status env_vrect_level ⟨Chip.init, 0, []⟩).2).chip.irq_stat = 0) := by
  decide

/-- Claim C9, amended: after a removal event transmitter-attached is clear; `stat`
and `irq_stat` are zero if transmitter-attached was set before the event and
are unchanged otherwise.  A failed bulk read is followed by exactly this
handler, and so is a detect interrupt that samples the line low. -/
theorem removal_clears_attached (env : Env) (s : St) (reg size : Nat) :
    (p938x_handle_wls_removal env s).chip.tx_attached = false ∧
    (p938x_handle_wls_removal env s).chip.stat =
      (if s.chip.tx_attached then 0 else s.chip.stat) ∧
    (p938x_handle_wls_removal env s).chip.irq_stat =
      (if s.chip.tx_attached then 0 else s.chip.irq_stat) ∧
    (p938x_read_buffer env s reg size).2.2 =
      (if (env s.tick).rc = Rc.ok then
        ⟨s.chip, s.tick + 1, s.log ++ [Ev.bulk_read reg size]⟩
       else p938x_handle_wls_removal env
        ⟨s.chip, s.tick + 1, s.log ++ [Ev.bulk_read reg size]⟩) ∧
    p938x_det_irq_handler env s =
      (if (env s.tick).data.headD 0 = 0 then
        p938x_handle_wls_removal env ⟨s.chip, s.tick + 1, s.log ++ [Ev.gpio_get Gpio.wchg_det]⟩
       else ⟨s.chip, s.tick + 1, s.log ++ [Ev.gpio_get Gpio.wchg_det]⟩) := by
  refine ⟨handle_wls_removal_tx_attached env s, ?_, ?_, ?_, ?_⟩
  · rw [handle_wls_removal_chip]; split <;> rfl
  · rw [handle_wls_removal_chip]; split <;> rfl
  · unfold p938x_read_buffer regmap_bulk_read St.ask
    dsimp only
    cases hrc : (env s.tick).rc with
    | ok => simp [Rc.toInt]
    | err e =>
      have : ¬ (-1 + -(e : Int) = 0) := by omega
      simp [Rc.toInt, this]
  · unfold p938x_det_irq_handler gpio_get_value St.ask
    dsimp only

/-- Claim C10, evaluated: a one-byte chunk whose packet is accepted and whose status
byte reads 1 on 31 consecutive polls and 2 on the next one is reported as
programmed (return code 0), after 32 polls. -/
theorem chunk_accepted_after_31_busy_polls :
    (∀ i, i < 31 → env_busy_31 (33 + i) = ⟨Rc.ok, [1]⟩) ∧
    (p938x_program_mtp_package env_busy_31 ⟨Chip.init, 0, []⟩ [0xAA] 0 1).1 = 0 ∧
    (p938x_program_mtp_package env_busy_31 ⟨Chip.init, 0, []⟩ [0xAA] 0 1).2.log =
      reg_writes 0x400 (mtp_wire [0xAA] 0 1) ++ [Ev.reg_write 0x400 1] ++ poll_log 32 := by
  have h := program_mtp_package_late_success env_busy_31 ⟨Chip.init, 0, []⟩ [0xAA] 0 1
    (by decide) (by decide) (by decide)
  refine ⟨by decide, ?_, ?_⟩
  · rw [h]
  · rw [h]; simp

/-- Claim C11: when the snapshot is read with `status = irq_status = 0x0040`,
`p938x_check_status` returns 0 with transmitter-attached and keep-awake set
and the heartbeat queued with a delay of 2000 ms.  Between the status reads
and the acknowledgment the heartbeat is cancelled and queued once, and no
other call touches the queue or IRQ_CLEAR; the acknowledgment writes 0x40 to
0x003A, then 0x00 to 0x003B unless the first write failed, then 0x20 to
SYS_CMD. -/
theorem vrect_on_attaches (env : Env) (s : St) (h0 : (env s.tick).rc = Rc.ok)
    (h1 : (env (s.tick + 1)).rc = Rc.ok)
    (hst : snap_status (env (s.tick + 1)) = 0x40) (hirq : snap_irq (env (s.tick + 1)) = 0x40) :
    (p938x_check_status env s).1 = 0 ∧
    (p938x_check_status env s).2.chip.tx_attached = true ∧
    (p938x_check_status env s).2.chip.keep_awake = true ∧
    (p938x_check_status env s).2.chip.heartbeat = some 2000 ∧
    ∃ mid low_ok, (p938x_check_status env s).2.log =
        s.log ++ [Ev.bulk_read IRQ_ENABLE_REG 2, Ev.bulk_read DEV_STATUS_REG 4] ++ mid
          ++ [Ev.cancel_work, Ev.schedule_work 2000] ++ irq_ack_log low_ok 0x40 ∧
      (∀ e ∈ mid, e.is_work = false ∧ e.is_irq_clear_write = false) ∧
      irq_ack_log true 0x40 =
        [Ev.reg_write 0x3a 0x40, Ev.reg_write 0x3b 0, Ev.reg_write 0x4c 0x20] ∧
      ((∀ n, (env n).rc = Rc.ok) → low_ok = true) := by
  have hg := get_status_ok env s h0 h1
  have hb := status_before_ack_vrect env s h0 h1 hst hirq
  obtain ⟨ha, hk, hh, mid, hlog, hp⟩ := status_attach_spec env
    ⟨{ s.chip with stat := 0x40, irq_stat := 0x40 }, s.tick + 2,
      s.log ++ [Ev.bulk_read IRQ_ENABLE_REG 2, Ev.bulk_read DEV_STATUS_REG 4]⟩
  rw [check_status_eq env s (by rw [hg]), hb, hg, clear_irq_eq]
  generalize status_attach env
    ⟨{ s.chip with stat := 0x40, irq_stat := 0x40 }, s.tick + 2,
      s.log ++ [Ev.bulk_read IRQ_ENABLE_REG 2, Ev.bulk_read DEV_STATUS_REG 4]⟩ = sb
    at ha hk hh hlog ⊢
  refine ⟨rfl, ha, hk, hh, mid, decide ((env sb.tick).rc = Rc.ok), ?_, ?_, by decide, ?_⟩
  · simp only [hlog, hirq]
  · intro e he
    exact ⟨ev_attach_step_not_work e (hp e he),
      ev_status_body_not_irq_clear e (ev_attach_step_body e (hp e he))⟩
  · intro hall
    simp [hall]

theorem vrect_on_attaches_witness :
    (env_vrect 0).rc = Rc.ok ∧ (env_vrect 1).rc = Rc.ok ∧
    snap_status (env_vrect 1) = 0x40 ∧ snap_irq (env_vrect 1) = 0x40 ∧
    (p938x_check_status env_vrect ⟨Chip.init, 0, []⟩).2.chip.heartbeat = some 2000 :=
  ⟨by decide, by decide, by decide, by decide,
    (vrect_on_attaches env_vrect ⟨Chip.init, 0, []⟩ (by decide) (by decide) (by decide)
      (by decide)).2.2.2.1⟩

/-- Claim C12: on a powered chip with no overrides, a mode byte that is read
with bit 0 set makes `p938x_check_system_mode` record EPP exactly when bit 3
is set (BPP otherwise) and write, after the read, 120 to VOUT_SET for EPP
or 50 for BPP and 15 to ILIMIT_SET, which are the register values of
12000 mV, 5000 mV and 1600 mA; the byte `0b00001001` has both bits set. -/
theorem mode_detection_limits (env : Env) (s : St) (hon : p938x_is_chip_on s.chip = true)
    (hv0 : s.chip.wls_vout_max = 0) (hi0 : s.chip.wls_iout_max = 0)
    (hrd : (env s.tick).rc = Rc.ok)
    (hwpc : ((env s.tick).data.getD 0 0 % 256) &&& SYS_MODE_WPCMODE ≠ 0) :
    (p938x_check_system_mode env s).1 = 0 ∧
    ((p938x_check_system_mode env s).2.chip.epp_mode = true ↔
      ((env s.tick).data.getD 0 0 % 256) &&& SYS_MODE_EXTENDED ≠ 0) ∧
    (p938x_check_system_mode env s).2.chip =
      { s.chip with
        epp_mode := decide (((env s.tick).data.getD 0 0 % 256) &&& SYS_MODE_EXTENDED ≠ 0) } ∧
    (p938x_check_system_mode env s).2.log =
      s.log ++ [Ev.bulk_read SYS_MODE_REG 1,
        Ev.reg_write VOUT_SET_REG
          (if ((env s.tick).data.getD 0 0 % 256) &&& SYS_MODE_EXTENDED ≠ 0 then 120 else 50),
        Ev.reg_write ILIMIT_SET_REG 15] ∧
    (120 * 100 = EPP_MAX_VOUT ∧ 50 * 100 = BPP_MAX_VOUT ∧
      15 * 100 + 100 = EPP_MAX_IOUT ∧ 15 * 100 + 100 = BPP_MAX_IOUT) ∧
    (0b00001001 &&& SYS_MODE_WPCMODE ≠ 0 ∧ 0b00001001 &&& SYS_MODE_EXTENDED ≠ 0) := by
  obtain ⟨hrc, hchip, hlog⟩ := check_system_mode_wpc env s hon hrd hwpc
  refine ⟨hrc, ?_, hchip, ?_, by decide, by decide⟩
  · rw [hchip]; simp
  · rw [hlog, hv0, hi0]
    simp [mode_limit_log]

theorem mode_detection_limits_witness :
    p938x_is_chip_on chip_attached = true ∧ chip_attached.wls_vout_max = 0 ∧
    chip_attached.wls_iout_max = 0 ∧ (env_mode_epp 0).rc = Rc.ok ∧
    ((env_mode_epp 0).data.getD 0 0 % 256) &&& SYS_MODE_WPCMODE ≠ 0 ∧
    (env_mode_epp 0).data.getD 0 0 % 256 = 0b00001001 ∧
    (p938x_check_system_mode env_mode_epp ⟨chip_attached, 0, []⟩).2.chip.epp_mode = true ∧
    (p938x_check_system_mode env_mode_epp ⟨chip_attached, 0, []⟩).2.log =
      [Ev.bulk_read SYS_MODE_REG 1, Ev.reg_write VOUT_SET_REG 120,
        Ev.reg_write ILIMIT_SET_REG 15] :=
  ⟨by decide, by decide, by decide, by decide, by decide, by decide,
    ((mode_detection_limits env_mode_epp ⟨chip_attached, 0, []⟩ (by decide) (by decide)
      (by decide) (by decide) (by decide)).2.1).mpr (by decide),
    by decide⟩

/-- Claim C13, as stated, fails: with `irq_status = 0x8000` read and the write
to 0x003A refused by the bus, the high byte 0x80 is never written to 0x003B:
the calls of `p938x_check_status` are the two status reads, the write of
0x00 to 0x003A and the clear-IRQ command. -/
theorem irq_ack_high_byte_skipped :
    (env_ack_refused 0).rc = Rc.ok ∧ (env_ack_refused 1).rc = Rc.ok ∧
    snap_irq (env_ack_refused 1) = 0x8000 ∧
    (p938x_check_status env_ack_refused ⟨Chip.init, 0, []⟩).1 = 0 ∧
    (p938x_check_status env_ack_refused ⟨Chip.init, 0, []⟩).2.log =
      [Ev.bulk_read IRQ_ENABLE_REG 2, Ev.bulk_read DEV_STATUS_REG 4, Ev.reg_write 0x3a 0x00,
        Ev.reg_write 0x4c 0x20] ∧
    ∀ v, Ev.reg_write 0x3b v ∉
      (p938x_check_status env_ack_refused ⟨Chip.init, 0, []⟩).2.log := by
  have hlog : (p938x_check_status env_ack_refused ⟨Chip.init, 0, []⟩).2.log =
      [Ev.bulk_read IRQ_ENABLE_REG 2, Ev.bulk_read DEV_STATUS_REG 4, Ev.reg_write 0x3a 0x00,
        Ev.reg_write 0x4c 0x20] := by decide
  refine ⟨by decide, by decide, by decide, by decide, hlog, ?_⟩
  intro v hv
  rw [hlog] at hv
  simp at hv

/-- Claim C13, amended: when the snapshot is read and the bus accepts the
write of the low byte to 0x003A, the calls of `p938x_check_status` end with
the low byte of the observed `irq_status` written to 0x003A, its high byte
to 0x003B and 0x20 to SYS_CMD, the two bytes making up `irq_status`
unchanged; and whatever the bus answers, every value the call writes to
0x003A is the low byte of `irq_status` and every value it writes to 0x003B
is its high byte, so that every bit written to IRQ_CLEAR is a bit of
`irq_status`, and nothing before the acknowledgment writes to IRQ_CLEAR.
Also recorded: when the low byte is refused the calls end with that write
and the command, the high byte not being attempted. -/
theorem irq_ack_writes_observed_bits (env : Env) (s : St) (h0 : (env s.tick).rc = Rc.ok)
    (h1 : (env (s.tick + 1)).rc = Rc.ok) :
    ((env (status_before_ack env s).tick).rc = Rc.ok →
      (p938x_check_status env s).2.log =
        (status_before_ack env s).log ++
          [Ev.reg_write 0x3a (snap_irq (env (s.tick + 1)) % 256),
            Ev.reg_write 0x3b (snap_irq (env (s.tick + 1)) / 256 % 256),
            Ev.reg_write 0x4c 0x20]) ∧
    ((env (status_before_ack env s).tick).rc ≠ Rc.ok →
      (p938x_check_status env s).2.log =
        (status_before_ack env s).log ++
          [Ev.reg_write 0x3a (snap_irq (env (s.tick + 1)) % 256), Ev.reg_write 0x4c 0x20]) ∧
    (p938x_check_status env s).2.log =
      (status_before_ack env s).log
        ++ irq_ack_log (decide ((env (status_before_ack env s).tick).rc = Rc.ok))
            (snap_irq (env (s.tick + 1))) ∧
    (p938x_check_status env s).2.tick =
      (status_before_ack env s).tick
        + (if (env (status_before_ack env s).tick).rc = Rc.ok then 3 else 2) ∧
    (∃ body, (status_before_ack env s).log = s.log ++ body ∧
      ∀ e ∈ body, e.is_irq_clear_write = false) ∧
    le_val [snap_irq (env (s.tick + 1)) % 256, snap_irq (env (s.tick + 1)) / 256 % 256]
      = snap_irq (env (s.tick + 1)) ∧
    (∀ i, (snap_irq (env (s.tick + 1)) % 256).testBit i = true →
      (snap_irq (env (s.tick + 1))).testBit i = true) ∧
    (∀ i, (snap_irq (env (s.tick + 1)) / 256 % 256).testBit i = true →
      (snap_irq (env (s.tick + 1))).testBit (i + 8) = true) ∧
    (∃ ext, (p938x_check_status env s).2.log = s.log ++ ext ∧
      (∀ v, Ev.reg_write 0x3a v ∈ ext → v = snap_irq (env (s.tick + 1)) % 256) ∧
      (∀ v, Ev.reg_write 0x3b v ∈ ext → v = snap_irq (env (s.tick + 1)) / 256 % 256)) := by
  have hg := get_status_ok env s h0 h1
  have hlt := snap_irq_lt (env (s.tick + 1))
  have hlog : (p938x_check_status env s).2.log =
      (status_before_ack env s).log
        ++ irq_ack_log (decide ((env (status_before_ack env s).tick).rc = Rc.ok))
            (snap_irq (env (s.tick + 1))) := by
    rw [check_status_eq env s (by rw [hg]), hg, clear_irq_eq]
  have hbody := status_before_ack_ext env s
  refine ⟨?_, ?_, hlog, ?_, ?_, ?_, fun i => testBit_low_byte _ i,
    fun i => testBit_high_byte _ i, ?_⟩
  rotate_right
  · obtain ⟨body, hb, hp⟩ := hbody
    have hnb : ∀ reg v, Ev.reg_write reg v ∈ body → reg ≠ 0x3a ∧ reg ≠ 0x3b := by
      intro reg v hm
      have := ev_status_body_not_irq_clear _ (hp _ hm)
      simpa [Ev.is_irq_clear_write, IRQ_CLEAR_REG] using this
    have hack : ∀ reg v, Ev.reg_write reg v ∈
        irq_ack_log (decide ((env (status_before_ack env s).tick).rc = Rc.ok))
          (snap_irq (env (s.tick + 1))) →
        (reg = 0x3a → v = snap_irq (env (s.tick + 1)) % 256) ∧
        (reg = 0x3b → v = snap_irq (env (s.tick + 1)) / 256 % 256) := by
      intro reg v hm
      by_cases hw : (env (status_before_ack env s).tick).rc = Rc.ok
      · simp [irq_ack_log, hw, IRQ_CLEAR_REG, SYS_CMD_REG, CMD_RX_CLR_IRQ] at hm
        rcases hm with ⟨h1, h2⟩ | ⟨h1, h2⟩ | ⟨h1, h2⟩ <;> subst h1 <;> subst h2 <;> simp
      · simp [irq_ack_log, hw, IRQ_CLEAR_REG, SYS_CMD_REG, CMD_RX_CLR_IRQ] at hm
        rcases hm with ⟨h1, h2⟩ | ⟨h1, h2⟩ <;> subst h1 <;> subst h2 <;> simp
    refine ⟨body ++ irq_ack_log (decide ((env (status_before_ack env s).tick).rc = Rc.ok))
      (snap_irq (env (s.tick + 1))), by rw [hlog, hb, List.append_assoc], ?_, ?_⟩
    · intro v hm
      rcases List.mem_append.mp hm with h | h
      · exact absurd rfl (hnb _ _ h).1
      · exact (hack _ _ h).1 rfl
    · intro v hm
      rcases List.mem_append.mp hm with h | h
      · exact absurd rfl (hnb _ _ h).2
      · exact (hack _ _ h).2 rfl
  · intro hw
    rw [hlog]
    simp [irq_ack_log, hw, IRQ_CLEAR_REG, SYS_CMD_REG, CMD_RX_CLR_IRQ]
  · intro hw
    rw [hlog]
    simp [irq_ack_log, hw, IRQ_CLEAR_REG, SYS_CMD_REG, CMD_RX_CLR_IRQ]
  · rw [check_status_eq env s (by rw [hg]), hg, clear_irq_eq]
  · obtain ⟨body, hb, hp⟩ := status_before_ack_ext env s
    exact ⟨body, hb, fun e he => ev_status_body_not_irq_clear e (hp e he)⟩
  · simp only [le_val]
    omega

theorem irq_ack_writes_observed_bits_witness :
    (env_vrect 0).rc = Rc.ok ∧ (env_vrect 1).rc = Rc.ok ∧
    (env_vrect (status_before_ack env_vrect ⟨Chip.init, 0, []⟩).tick).rc = Rc.ok ∧
    snap_irq (env_vrect (0 + 1)) = 0x40 ∧
    (p938x_check_status env_vrect ⟨Chip.init, 0, []⟩).2.log =
      (status_before_ack env_vrect ⟨Chip.init, 0, []⟩).log ++
        [Ev.reg_write 0x3a (snap_irq (env_vrect (0 + 1)) % 256),
          Ev.reg_write 0x3b (snap_irq (env_vrect (0 + 1)) / 256 % 256),
          Ev.reg_write 0x4c 0x20] :=
  ⟨by decide, by decide, by decide, by decide,
    (irq_ack_writes_observed_bits env_vrect ⟨Chip.init, 0, []⟩ (by decide) (by decide)).1
      (by decide)⟩

/-- Claim C14: with `program_fw_stat` at Pending, `p938x_program_fw` returns a
negative code and the state it was given: no field changes, nothing is
logged (no GPIO write for boost, no register write) and no call is made. -/
theorem program_fw_rejected_when_pending (env : Env) (s : St)
    (h : s.chip.program_fw_stat = FwStat.PROGRAM_FW_PENDING) :
    (p938x_program_fw env s).1 < 0 ∧
    (p938x_program_fw env s).2 = s ∧
    (p938x_program_fw env s).2.chip.program_fw_stat = FwStat.PROGRAM_FW_PENDING ∧
    ((p938x_program_fw env s).1 = -EINVAL ∨ (p938x_program_fw env s).1 = -EBUSY) := by
  unfold p938x_program_fw
  split_ifs
  · exact ⟨by simp [EINVAL], rfl, h, Or.inl rfl⟩
  · exact ⟨by simp [EBUSY], rfl, h, Or.inr rfl⟩

theorem program_fw_rejected_when_pending_witness :
    chip_fw_pending.program_fw_stat = FwStat.PROGRAM_FW_PENDING ∧
    (p938x_program_fw env_ok ⟨chip_fw_pending, 0, []⟩).2 = ⟨chip_fw_pending, 0, []⟩ :=
  ⟨rfl, (program_fw_rejected_when_pending env_ok ⟨chip_fw_pending, 0, []⟩ rfl).2.1⟩

/-- Claim C15: for a request that passes the two entry checks, on return
`program_fw_stat` is Success exactly when the return code is 0 and Failed
exactly when it is not (the code is never positive), so never Pending;
whenever the firmware image was obtained, so that the boost was switched on,
boost-enabled is clear on return. The code returned is that of the first
stage to fail (request, bootstrap, main stage), and it is 0 exactly when the
request was answered, the bootstrap returned 0, `p938x_program_mtp_package`
returned 0 for every chunk of the image and the bus accepted the two writes
of the finalisation; the bootstrap returns 0 exactly when the bus accepts
each of its 368 checked writes, and every chunk returns 0 exactly when the
chunk loop runs to its end. -/
theorem program_fw_final_status (env : Env) (s : St) (hname : s.chip.fw_name_set = true)
    (hnp : s.chip.program_fw_stat ≠ FwStat.PROGRAM_FW_PENDING) :
    ((p938x_program_fw env s).2.chip.program_fw_stat = FwStat.PROGRAM_FW_SUCCESS ↔
      (p938x_program_fw env s).1 = 0) ∧
    ((p938x_program_fw env s).2.chip.program_fw_stat = FwStat.PROGRAM_FW_FAIL ↔
      (p938x_program_fw env s).1 < 0) ∧
    (p938x_program_fw env s).1 ≤ 0 ∧
    (p938x_program_fw env s).2.chip.program_fw_stat ≠ FwStat.PROGRAM_FW_PENDING ∧
    ((env s.tick).rc = Rc.ok → (p938x_program_fw env s).2.chip.boost_enabled = false) ∧
    (p938x_program_fw env s).1 =
      (if (fw_requested env s).1 < 0 then (fw_requested env s).1
       else if (fw_bootstrap env s).1 < 0 then (fw_bootstrap env s).1
       else (fw_transfer env s).1) ∧
    ((p938x_program_fw env s).1 = 0 ↔
      (fw_requested env s).1 = 0 ∧ (fw_bootstrap env s).1 = 0 ∧
      (∀ k, 128 * k < (fw_requested env s).2.1.length % 2 ^ 32 →
        chunk_code env (fw_bootstrap env s).2 (fw_requested env s).2.1
          ((fw_requested env s).2.1.length % 2 ^ 32) k = 0) ∧
      (env (fw_chunks env s).2.tick).rc = Rc.ok ∧
      (env ((fw_chunks env s).2.tick + 1)).rc = Rc.ok) ∧
    ((fw_requested env s).1 = 0 ↔ (env s.tick).rc = Rc.ok) ∧
    ((fw_bootstrap env s).1 = 0 ↔ ∀ i, i < 368 → (env (s.tick + 1 + i)).rc = Rc.ok) ∧
    ((fw_chunks env s).1 = none ↔
      ∀ k, 128 * k < (fw_requested env s).2.1.length % 2 ^ 32 →
        chunk_code env (fw_bootstrap env s).2 (fw_requested env s).2.1
          ((fw_requested env s).2.1.length % 2 ^ 32) k = 0) := by
  obtain ⟨c1, c2, c3, c4, c5⟩ := program_fw_status_rc env s hname hnp
  have hloop := fw_chunks_none_iff env s
  refine ⟨c1, c2, c3, c4, c5, program_fw_rc_eq env s hname hnp, ?_, rc_toInt_eq_zero _,
    fw_bootstrap_zero_iff env s, hloop⟩
  rw [program_fw_zero_iff env s hname hnp, fw_transfer_zero_iff, hloop]

theorem program_fw_final_status_witness :
    chip_fw_ready.fw_name_set = true ∧
    chip_fw_ready.program_fw_stat ≠ FwStat.PROGRAM_FW_PENDING ∧
    (fw_requested env_upload ⟨chip_fw_ready, 0, []⟩).2.1 = image_129 ∧
    image_129.length % 2 ^ 32 = 129 ∧
    (p938x_program_fw env_upload ⟨chip_fw_ready, 0, []⟩).1 = 0 ∧
    (p938x_program_fw env_upload ⟨chip_fw_ready, 0, []⟩).2.chip.program_fw_stat
      = FwStat.PROGRAM_FW_SUCCESS ∧
    (p938x_program_fw env_upload ⟨chip_fw_ready, 0, []⟩).2.chip.boost_enabled = false ∧
    (∀ k, 128 * k < (fw_requested env_upload ⟨chip_fw_ready, 0, []⟩).2.1.length % 2 ^ 32 →
      chunk_code env_upload (fw_bootstrap env_upload ⟨chip_fw_ready, 0, []⟩).2
        (fw_requested env_upload ⟨chip_fw_ready, 0, []⟩).2.1
        ((fw_requested env_upload ⟨chip_fw_ready, 0, []⟩).2.1.length % 2 ^ 32) k = 0) ∧
    (p938x_program_fw env_fail_second ⟨chip_fw_ready, 0, []⟩).1 = -5 ∧
    (fw_bootstrap env_fail_second ⟨chip_fw_ready, 0, []⟩).1 = -5 ∧
    (p938x_program_fw env_fail_second ⟨chip_fw_ready, 0, []⟩).2.chip.program_fw_stat
      = FwStat.PROGRAM_FW_FAIL ∧
    (p938x_program_fw env_fail_second ⟨chip_fw_ready, 0, []⟩).2.chip.boost_enabled = false :=
  ⟨rfl, by decide, by simp [fw_requested, request_firmware, St.ask, env_upload, image_129],
    by simp [image_129], program_fw_upload_ok,
    (program_fw_final_status env_upload ⟨chip_fw_ready, 0, []⟩ rfl (by decide)).1.mpr
      program_fw_upload_ok,
    (program_fw_final_status env_upload ⟨chip_fw_ready, 0, []⟩ rfl (by decide)).2.2.2.2.1
      (by decide),
    ((program_fw_final_status env_upload ⟨chip_fw_ready, 0, []⟩ rfl
      (by decide)).2.2.2.2.2.2.1.mp program_fw_upload_ok).2.2.1,
    by decide, by decide,
    (program_fw_final_status env_fail_second ⟨chip_fw_ready, 0, []⟩ rfl (by decide)).2.1.mpr
      (by decide),
    (program_fw_final_status env_fail_second ⟨chip_fw_ready, 0, []⟩ rfl
      (by decide)).2.2.2.2.1 (by decide)⟩

/-- Claim C16: with `program_fw_stat` at Pending, the status IRQ handler
returns the state it was given: no register is read or written, no call is
made, and every field (flags, `stat`, `irq_stat`, mode, heartbeat queue) is
unchanged. -/
theorem irq_handler_skips_when_pending (env : Env) (s : St)
    (h : s.chip.program_fw_stat = FwStat.PROGRAM_FW_PENDING) :
    p938x_irq_handler env s = s ∧ (p938x_irq_handler env s).log = s.log ∧
    (p938x_irq_handler env s).tick = s.tick := by
  have e : p938x_irq_handler env s = s := by
    unfold p938x_irq_handler
    simp [h]
  exact ⟨e, by rw [e], by rw [e]⟩

theorem irq_handler_skips_when_pending_witness :
    chip_fw_pending.program_fw_stat = FwStat.PROGRAM_FW_PENDING ∧
    p938x_irq_handler env_vrect ⟨chip_fw_pending, 0, []⟩ = ⟨chip_fw_pending, 0, []⟩ :=
  ⟨rfl, (irq_handler_skips_when_pending env_vrect ⟨chip_fw_pending, 0, []⟩ rfl).1⟩

/-- Claim C17, evaluated: the status wait always ends, after at least one and
at most 32 polls; and with the packet of a one-byte chunk accepted and the
status byte reading 1 on every poll it ends (with the time-out error) only
after 32 status reads, two more than the cap of 30. -/
theorem status_wait_makes_32_reads :
    (∀ (env : Env) (s : St) (b : Nat), ∃ n, 1 ≤ n ∧ n ≤ 32 ∧
      (mtp_status_wait env s b 0).2 = ⟨s.chip, s.tick + n, s.log ++ poll_log n⟩) ∧
    (∀ i, i < 32 → env_busy_always (33 + i) = ⟨Rc.ok, [1]⟩) ∧
    (p938x_program_mtp_package env_busy_always ⟨Chip.init, 0, []⟩ [0xAA] 0 1).1 = -EAGAIN ∧
    (p938x_program_mtp_package env_busy_always ⟨Chip.init, 0, []⟩ [0xAA] 0 1).2.log =
      reg_writes 0x400 (mtp_wire [0xAA] 0 1) ++ [Ev.reg_write 0x400 1] ++ poll_log 32 ∧
    ((p938x_program_mtp_package env_busy_always ⟨Chip.init, 0, []⟩ [0xAA] 0 1).2.log.filter
      Ev.is_reg_read).length = 32 ∧
    FW_MTP_CHECK_ST_RETRY_CNT = 30 := by
  have h := program_mtp_package_timeout env_busy_always ⟨Chip.init, 0, []⟩ [0xAA] 0 1
    (by decide) (by decide)
  refine ⟨?_, by decide, by rw [h], by rw [h]; simp, ?_, rfl⟩
  · intro env s b
    obtain ⟨n, h1, h2, h3⟩ := mtp_status_wait_log env s b 0
    exact ⟨n, h1, by simpa using h2, h3⟩
  · rw [h]
    simp only [List.nil_append]
    decide

/-- Claim C18: with the packet and the validation byte accepted, `n` polls
reading 1 (`n ≤ 31`) and then a poll reading `v ≠ 1`, the chunk is reported
by `v` alone: return code 0 when `v = 2`, `-EAGAIN` otherwise, after `n + 1`
polls.  This includes `n = 31`, where the poll that delivers `v` is the one
made in the iteration that takes the time-out branch. -/
theorem status_verdict_is_last_value_read (env : Env) (s : St) (src : List Nat)
    (addr size n v : Nat) (hn : n ≤ 31)
    (hok : ∀ i, i ≤ mtp_packet_len addr size → (env (s.tick + i)).rc = Rc.ok)
    (hbusy : ∀ i, i < n →
      (env (s.tick + mtp_packet_len addr size + 1 + i)).rc = Rc.ok ∧
      (env (s.tick + mtp_packet_len addr size + 1 + i)).data.headD 0 % 256 = 1)
    (hlast : (env (s.tick + mtp_packet_len addr size + 1 + n)).rc = Rc.ok ∧
      (env (s.tick + mtp_packet_len addr size + 1 + n)).data.headD 0 % 256 = v)
    (hv : v ≠ 1) :
    p938x_program_mtp_package env s src addr size =
      (if v = 2 then 0 else -EAGAIN,
        ⟨s.chip, s.tick + mtp_packet_len addr size + 1 + (n + 1),
          s.log ++ reg_writes 0x400 (mtp_wire src addr size) ++ [Ev.reg_write 0x400 1]
            ++ poll_log (n + 1)⟩) := by
  rw [program_mtp_package_sent env s src addr size hok]
  rw [mtp_status_wait_busy env n _ 0 0 (by omega) hbusy]
  rw [mtp_status_wait_verdict env _ _ _ v hlast.1 hlast.2 hv]
  have e3 : poll_log n ++ poll_log 1 = poll_log (n + 1) := by
    rw [← poll_log_append]
  have e4 : s.tick + mtp_packet_len addr size + 1 + n + 1 =
      s.tick + mtp_packet_len addr size + 1 + (n + 1) := by omega
  by_cases h2v : v = 2
  · simp [h2v, List.append_assoc, e3, e4]
  · simp [h2v, List.append_assoc, e3, e4]

theorem status_verdict_is_last_value_read_witness :
    (∀ i, i < 31 → env_busy_31 (33 + i) = ⟨Rc.ok, [1]⟩) ∧
    env_busy_31 (33 + 31) = ⟨Rc.ok, [2]⟩ ∧
    FW_MTP_CHECK_ST_RETRY_CNT < 31 ∧
    p938x_program_mtp_package env_busy_31 ⟨Chip.init, 0, []⟩ [0x55, 0x66] 0 2 =
      (if 2 = 2 then 0 else -EAGAIN,
        ⟨Chip.init, 0 + mtp_packet_len 0 2 + 1 + (31 + 1),
          [] ++ reg_writes 0x400 (mtp_wire [0x55, 0x66] 0 2) ++ [Ev.reg_write 0x400 1]
            ++ poll_log (31 + 1)⟩) :=
  ⟨by decide, by decide, by decide,
    status_verdict_is_last_value_read env_busy_31 ⟨Chip.init, 0, []⟩ [0x55, 0x66] 0 2 31 2
      (by decide) (by decide) (by decide) (by decide) (by decide)⟩

/-- Claim C19, evaluated: for every snapshot read with VOUT_ON set in both
words while the chip is not powered (boost off, no transmitter attached),
the mode byte being read with WPC active, `p938x_check_status` returns 0,
reads the mode and records it, and writes to neither VOUT_SET nor
ILIMIT_SET anywhere in the call; when VRECT_ON is set in both words of the
same snapshot the call ends with the transmitter attached, the limits still
unwritten. -/
theorem vout_on_before_attach_writes_no_limit (env : Env) (s : St)
    (h0 : (env s.tick).rc = Rc.ok) (h1 : (env (s.tick + 1)).rc = Rc.ok)
    (hv : snap_irq (env (s.tick + 1)) &&& snap_status (env (s.tick + 1)) &&& ST_VOUT_ON ≠ 0)
    (hoff : p938x_is_chip_on s.chip = false)
    (hrd : (env (status_after_conflict env s).tick).rc = Rc.ok)
    (hwpc : ((env (status_after_conflict env s).tick).data.getD 0 0 % 256)
      &&& SYS_MODE_WPCMODE ≠ 0) :
    (p938x_check_status env s).1 = 0 ∧
    (p938x_check_status env s).2.chip.epp_mode =
      decide (((env (status_after_conflict env s).tick).data.getD 0 0 % 256)
        &&& SYS_MODE_EXTENDED ≠ 0) ∧
    (snap_irq (env (s.tick + 1)) &&& snap_status (env (s.tick + 1)) &&& ST_VRECT_ON ≠ 0 →
      (p938x_check_status env s).2.chip.tx_attached = true) ∧
    (∃ pre post, (p938x_check_status env s).2.log =
        s.log ++ pre ++
          [Ev.bulk_read SYS_MODE_REG 1, Ev.cancel_work, Ev.schedule_work 0, Ev.psy_changed] ++
          post ∧
      (∀ e ∈ pre, Ev.is_limit_write e = false) ∧ ∀ e ∈ post, Ev.is_limit_write e = false) ∧
    ∀ e ∈ (p938x_check_status env s).2.log, e ∈ s.log ∨ Ev.is_limit_write e = false := by
  have hg := get_status_ok env s h0 h1
  have hrc : (p938x_get_status env s).1 = 0 := by rw [hg]
  have hoff2 := status_after_conflict_off env s h0 h1 hoff
  obtain ⟨hvlog, hvepp⟩ := status_after_vout_off env s h0 h1 hv hoff2 hrd hwpc
  obtain ⟨pre, hpre, hppre⟩ := status_after_conflict_no_limit env s h0 h1
  have htail : ∀ e ∈ [Ev.bulk_read SYS_MODE_REG 1, Ev.cancel_work, Ev.schedule_work 0,
      Ev.psy_changed], Ev.is_limit_write e = false := by decide
  have hb : ∃ ext, (status_before_ack env s).log = (status_after_vout env s).log ++ ext ∧
      ∀ e ∈ ext, Ev.is_limit_write e = false := by
    unfold status_before_ack
    dsimp only
    split_ifs
    · exact status_attach_ext env _
    · exact ⟨[], by simp, by simp⟩
  have hepp : (status_before_ack env s).chip.epp_mode = (status_after_vout env s).chip.epp_mode := by
    unfold status_before_ack
    dsimp only
    split_ifs
    · exact status_attach_epp env _
    · rfl
  have hatt : snap_irq (env (s.tick + 1)) &&& snap_status (env (s.tick + 1)) &&& ST_VRECT_ON ≠ 0 →
      (status_before_ack env s).chip.tx_attached = true := by
    intro hr
    unfold status_before_ack
    rw [hg]
    simp only [hr, ne_eq, not_false_eq_true, if_true]
    exact (status_attach_spec env _).1
  obtain ⟨ext, hext, hpe⟩ := hb
  have hexists : ∃ pre post, (p938x_check_status env s).2.log =
        s.log ++ pre ++
          [Ev.bulk_read SYS_MODE_REG 1, Ev.cancel_work, Ev.schedule_work 0, Ev.psy_changed] ++
          post ∧
      (∀ e ∈ pre, Ev.is_limit_write e = false) ∧ ∀ e ∈ post, Ev.is_limit_write e = false := by
    rw [check_status_eq env s hrc, clear_irq_eq]
    generalize status_before_ack env s = sb at hext ⊢
    refine ⟨pre, ext ++ irq_ack_log (decide ((env sb.tick).rc = Rc.ok))
      (p938x_get_status env s).2.2.1, ?_, hppre, ?_⟩
    · simp only [hext, hvlog, hpre, List.append_assoc]
    · intro e he
      rcases List.mem_append.mp he with h | h
      · exact hpe e h
      · exact irq_ack_log_not_limit _ _ e h
  refine ⟨by rw [check_status_eq env s hrc], ?_, ?_, hexists, ?_⟩
  · rw [check_status_eq env s hrc, clear_irq_eq]
    exact hepp.trans hvepp
  · intro hr
    rw [check_status_eq env s hrc, clear_irq_eq]
    exact hatt hr
  · obtain ⟨pre2, post, hlog, hp1, hp2⟩ := hexists
    intro e he
    rw [hlog] at he
    simp only [List.mem_append] at he
    rcases he with ((h | h) | h) | h
    · exact Or.inl h
    · exact Or.inr (hp1 e h)
    · exact Or.inr (htail e h)
    · exact Or.inr (hp2 e h)

theorem vout_on_before_attach_writes_no_limit_witness :
    (env_first_contact 0).rc = Rc.ok ∧ (env_first_contact 1).rc = Rc.ok ∧
    snap_status (env_first_contact 1) = 0xC0 ∧ snap_irq (env_first_contact 1) = 0xC0 ∧
    p938x_is_chip_on Chip.init = false ∧
    (status_after_conflict env_first_contact ⟨Chip.init, 0, []⟩).tick = 2 ∧
    (env_first_contact 2).data.getD 0 0 % 256 = 0x09 ∧
    (p938x_check_status env_first_contact ⟨Chip.init, 0, []⟩).1 = 0 ∧
    (p938x_check_status env_first_contact ⟨Chip.init, 0, []⟩).2.log =
      [Ev.bulk_read IRQ_ENABLE_REG 2, Ev.bulk_read DEV_STATUS_REG 4,
       Ev.bulk_read SYS_MODE_REG 1, Ev.cancel_work, Ev.schedule_work 0, Ev.psy_changed,
       Ev.usb_lookup, Ev.usb_get_present, Ev.stay_awake, Ev.cancel_work,
       Ev.schedule_work 2000,
       Ev.reg_write IRQ_CLEAR_REG 0xC0, Ev.reg_write (IRQ_CLEAR_REG + 1) 0,
       Ev.reg_write SYS_CMD_REG CMD_RX_CLR_IRQ] ∧
    (p938x_check_status env_first_contact ⟨Chip.init, 0, []⟩).2.chip.epp_mode = true ∧
    (p938x_check_status env_first_contact ⟨Chip.init, 0, []⟩).2.chip.tx_attached = true ∧
    ∀ e ∈ (p938x_check_status env_first_contact ⟨Chip.init, 0, []⟩).2.log,
      e ∈ ([] : List Ev) ∨ Ev.is_limit_write e = false :=
  ⟨by decide, by decide, by decide, by decide, by decide, by decide, by decide, by decide,
    by decide, by decide,
    (vout_on_before_attach_writes_no_limit env_first_contact ⟨Chip.init, 0, []⟩ (by decide)
      (by decide) (by decide) (by decide) (by decide) (by decide)).2.2.1 (by decide),
    (vout_on_before_attach_writes_no_limit env_first_contact ⟨Chip.init, 0, []⟩ (by decide)
      (by decide) (by decide) (by decide) (by decide) (by decide)).2.2.2.2⟩

/-- Claim C20: when the snapshot is read and none of TX_CONFLICT, VOUT_ON and
VRECT_ON is set in both words, `p938x_check_status` only records `stat` and
`irq_stat` (every flag, the mode, the limits and the heartbeat queue keep
their values) and the only calls it makes after the two status reads are
the register writes of the IRQ acknowledgment. -/
theorem check_status_idle_frame (env : Env) (s : St) (h0 : (env s.tick).rc = Rc.ok)
    (h1 : (env (s.tick + 1)).rc = Rc.ok)
    (hc : snap_irq (env (s.tick + 1)) &&& snap_status (env (s.tick + 1)) &&& ST_TX_CONFLICT = 0)
    (hv : snap_irq (env (s.tick + 1)) &&& snap_status (env (s.tick + 1)) &&& ST_VOUT_ON = 0)
    (hr : snap_irq (env (s.tick + 1)) &&& snap_status (env (s.tick + 1)) &&& ST_VRECT_ON = 0) :
    (p938x_check_status env s).1 = 0 ∧
    (p938x_check_status env s).2.chip =
      { s.chip with stat := snap_status (env (s.tick + 1)),
                    irq_stat := snap_irq (env (s.tick + 1)) } ∧
    (p938x_check_status env s).2.log =
      s.log ++ [Ev.bulk_read IRQ_ENABLE_REG 2, Ev.bulk_read DEV_STATUS_REG 4]
        ++ irq_ack_log (decide ((env (s.tick + 2)).rc = Rc.ok)) (snap_irq (env (s.tick + 1))) := by
  have hg := get_status_ok env s h0 h1
  rw [check_status_eq env s (by rw [hg]), status_before_ack_idle env s h0 h1 hc hv hr, hg,
    clear_irq_eq]
  exact ⟨rfl, rfl, rfl⟩

theorem check_status_idle_frame_witness :
    (env_irq_only 0).rc = Rc.ok ∧ (env_irq_only 1).rc = Rc.ok ∧
    snap_irq (env_irq_only 1) = 0x60 ∧ snap_status (env_irq_only 1) = 0 ∧
    (p938x_check_status env_irq_only ⟨Chip.init, 0, []⟩).2.chip =
      { Chip.init with stat := 0, irq_stat := 0x60 } :=
  ⟨by decide, by decide, by decide, by decide,
    (check_status_idle_frame env_irq_only ⟨Chip.init, 0, []⟩ (by decide) (by decide)
      (by decide) (by decide) (by decide)).2.1⟩

/-- Claim C21: when the IRQ_ENABLE read fails, or it succeeds and the
DEV_STATUS/IRQ_STATUS read fails, `p938x_check_status` returns 1 and ends in
the removal handler, run on the state it was given right after the reads
made; the resulting chip state is the one a removal event produces from the
state it was given, and nothing is written to IRQ_CLEAR or SYS_CMD. -/
theorem status_read_failure_is_removal (env : Env) (s : St)
    (hfail : (env s.tick).rc ≠ Rc.ok ∨
      ((env s.tick).rc = Rc.ok ∧ (env (s.tick + 1)).rc ≠ Rc.ok)) :
    (p938x_check_status env s).1 = 1 ∧
    (∀ env', (p938x_check_status env s).2.chip = (p938x_handle_wls_removal env' s).chip) ∧
    (∃ reads, (reads = [Ev.bulk_read IRQ_ENABLE_REG 2] ∨
        reads = [Ev.bulk_read IRQ_ENABLE_REG 2, Ev.bulk_read DEV_STATUS_REG 4]) ∧
      (p938x_check_status env s).2 =
        p938x_handle_wls_removal env ⟨s.chip, s.tick + reads.length, s.log ++ reads⟩) ∧
    (∃ ext, (p938x_check_status env s).2.log = s.log ++ ext ∧
      ∀ e ∈ ext, e.is_ack_write = false) := by
  obtain ⟨hneg, reads, hreads, hst⟩ := get_status_fail env s hfail
  have hne : (p938x_get_status env s).1 ≠ 0 := by omega
  rw [check_status_fail env s hne]
  refine ⟨rfl, ?_, ⟨reads, hreads, hst⟩, ?_⟩
  · intro env'
    dsimp only
    rw [hst]
    exact handle_wls_removal_chip_indep env' env _ _ rfl
  · obtain ⟨ext, hext, hp⟩ := get_status_ext env s
    exact ⟨ext, hext, fun e he => ev_status_body_not_ack e (hp e he)⟩

theorem status_read_failure_is_removal_witness :
    ((env_fail_second 0).rc ≠ Rc.ok ∨
      ((env_fail_second 0).rc = Rc.ok ∧ (env_fail_second (0 + 1)).rc ≠ Rc.ok)) ∧
    (p938x_check_status env_fail_second ⟨chip_charging, 0, []⟩).1 = 1 ∧
    (p938x_check_status env_fail_second ⟨chip_charging, 0, []⟩).2.chip.tx_attached = false ∧
    (p938x_check_status env_fail_second ⟨chip_charging, 0, []⟩).2.log =
      [Ev.bulk_read IRQ_ENABLE_REG 2, Ev.bulk_read DEV_STATUS_REG 4, Ev.psy_changed,
        Ev.cancel_work, Ev.relax, Ev.reg_write 0x3040 0x80, Ev.msleep 100] :=
  ⟨by decide,
    (status_read_failure_is_removal env_fail_second ⟨chip_charging, 0, []⟩ (by decide)).1,
    by decide, by decide⟩

/-- Claim C22, as stated, fails: the state with only the boost on (reached from
the initial state by `p938x_set_boost(1)`) is not attached and not in tx
mode; a tx-mode enable request whose write of the transmit-mode bit fails
leaves it with boost-enabled and keep-awake clear, although both were set
before the request. -/
theorem tx_enable_failure_switches_boost_off :
    (run_ops ⟨Chip.init, 0, []⟩ [(Op.set_boost 1, env_ok)]).chip = chip_boosted ∧
    chip_boosted.tx_attached = false ∧ chip_boosted.tx_mode_en = false ∧
    chip_boosted.boost_enabled = true ∧ chip_boosted.keep_awake = true ∧
    (p938x_set_tx_mode env_fail_third ⟨chip_boosted, 0, []⟩ 1).chip.tx_mode_en = false ∧
    (p938x_set_tx_mode env_fail_third ⟨chip_boosted, 0, []⟩ 1).chip.boost_enabled = false ∧
    (p938x_set_tx_mode env_fail_third ⟨chip_boosted, 0, []⟩ 1).chip.keep_awake = false ∧
    (p938x_set_tx_mode env_fail_third ⟨chip_boosted, 0, []⟩ 1).log =
      [Ev.dc_set DcProp.input_suspend 1, Ev.dc_set DcProp.pin_enabled 1,
        Ev.reg_write SYS_MODE_REG 0x04, Ev.gpio_set Gpio.wchg_boost 0, Ev.relax,
        Ev.dc_set DcProp.pin_enabled 0, Ev.dc_set DcProp.input_suspend 0] := by
  refine ⟨by decide, by decide, by decide, by decide, by decide, by decide, by decide,
    by decide, by decide⟩

/-- Claim C22, amended: on a chip that is neither attached nor in tx mode, a
tx-mode enable request whose write of 0x04 to SYS_MODE is accepted ends
with that write and leaves tx-mode-enabled and boost-enabled set.  When the
write fails, tx-mode-enabled stays clear, boost-enabled and keep-awake are
cleared and nothing else in the chip state changes, the boost line is
driven low and both `dc` overrides are written back to 0 (when the `dc`
supply is there); the chip state is the one before the request if
boost-enabled and keep-awake were clear before it. -/
theorem tx_mode_enable_outcome (env : Env) (s : St) (hna : s.chip.tx_attached = false)
    (hoff : s.chip.tx_mode_en = false) :
    ((env (s.tick + (if s.chip.dc_psy then 2 else 0))).rc = Rc.ok →
      (p938x_set_tx_mode env s 1).chip.tx_mode_en = true ∧
      (p938x_set_tx_mode env s 1).chip.boost_enabled = true ∧
      (p938x_set_tx_mode env s 1).log = s.log ++ tx_enable_log s.chip ∧
      (tx_enable_log s.chip).getLast? = some (Ev.reg_write 0x4a 0x04)) ∧
    ((env (s.tick + (if s.chip.dc_psy then 2 else 0))).rc ≠ Rc.ok →
      (p938x_set_tx_mode env s 1).chip.tx_mode_en = false ∧
      (p938x_set_tx_mode env s 1).chip =
        { s.chip with boost_enabled := false, keep_awake := false } ∧
      (p938x_set_tx_mode env s 1).log =
        s.log ++ tx_enable_log s.chip ++ tx_rollback_log s.chip ∧
      (s.chip.boost_enabled = false → s.chip.keep_awake = false →
        (p938x_set_tx_mode env s 1).chip = s.chip) ∧
      (s.chip.dc_psy = true →
        ∃ pre, Ev.gpio_set Gpio.wchg_boost 0 ∈ pre ∧ (p938x_set_tx_mode env s 1).log =
          pre ++ [Ev.dc_set DcProp.pin_enabled 0, Ev.dc_set DcProp.input_suspend 0])) := by
  obtain ⟨hs, hf⟩ := set_tx_mode_enable_eq env s hna hoff
  constructor
  · intro hw
    obtain ⟨hc, hl⟩ := hs hw
    refine ⟨by rw [hc], by rw [hc], hl, ?_⟩
    simp [tx_enable_log, SYS_MODE_REG, SYS_MODE_TXMODE]
  · intro hw
    obtain ⟨hc, hl⟩ := hf hw
    refine ⟨by rw [hc]; exact hoff, hc, hl, ?_, ?_⟩
    · intro hb hk
      rw [hc]
      obtain ⟨c, t, l⟩ := s
      cases c
      simp_all
    · intro hd
      refine ⟨s.log ++ tx_enable_log s.chip ++ [Ev.gpio_set Gpio.wchg_boost 0]
        ++ (if !s.chip.boost_enabled || s.chip.keep_awake then [Ev.relax] else []), ?_, ?_⟩
      · simp
      · rw [hl]
        simp [tx_rollback_log, hd, List.append_assoc]

theorem tx_mode_enable_outcome_witness :
    Chip.init.tx_attached = false ∧ Chip.init.tx_mode_en = false ∧
    (env_fail_third (0 + (if Chip.init.dc_psy then 2 else 0))).rc ≠ Rc.ok ∧
    (p938x_set_tx_mode env_fail_third ⟨Chip.init, 0, []⟩ 1).chip = Chip.init ∧
    (env_ok (0 + (if Chip.init.dc_psy then 2 else 0))).rc = Rc.ok ∧
    (p938x_set_tx_mode env_ok ⟨Chip.init, 0, []⟩ 1).chip.tx_mode_en = true :=
  ⟨by decide, by decide, by decide,
    ((tx_mode_enable_outcome env_fail_third ⟨Chip.init, 0, []⟩ (by decide) (by decide)).2
      (by decide)).2.2.2.1 (by decide) (by decide),
    by decide,
    ((tx_mode_enable_outcome env_ok ⟨Chip.init, 0, []⟩ (by decide) (by decide)).1
      (by decide)).1⟩

/-- Claim C23: a heartbeat on an attached chip with VRECT_ON and VOUT_ON in
`stat`, whose first telemetry read fails: the removal handler runs
(transmitter-attached is cleared, the heartbeat is cancelled), and the
heartbeat is queued again, 60000 ms out, before the work returns. -/
theorem heartbeat_queued_after_removal (env : Env) (s : St)
    (hatt : s.chip.tx_attached = true) (hvr : s.chip.stat &&& ST_VRECT_ON ≠ 0)
    (hvo : s.chip.stat &&& ST_VOUT_ON ≠ 0) (hfail : (env s.tick).rc ≠ Rc.ok) :
    (p938x_heartbeat_work env s).chip.tx_attached = false ∧
    (p938x_heartbeat_work env s).chip.heartbeat = some 60000 ∧
    ∃ mid, (p938x_heartbeat_work env s).log =
        s.log ++ [Ev.bulk_read VOUT_READ_REG 2, Ev.psy_changed, Ev.cancel_work] ++ mid
          ++ [Ev.schedule_work 60000] ∧
      ∀ e ∈ mid, e.is_work = false := by
  have hon : p938x_is_chip_on s.chip = true := by simp [p938x_is_chip_on, hatt]
  have htc : p938x_is_tx_connected s.chip = true := by
    simp [p938x_is_tx_connected, hon, hvr]
  have hldo : p938x_is_ldo_on s.chip = true := by
    simp [p938x_is_ldo_on, hon, hvo]
  obtain ⟨_, hst⟩ := read_buffer_fail env s VOUT_READ_REG 2 hfail
  obtain ⟨ra, rs, rh, rest, rlog, rp⟩ := handle_wls_removal_attached env
    ⟨s.chip, s.tick + 1, s.log ++ [Ev.bulk_read VOUT_READ_REG 2]⟩ hatt
  have h1 : (p938x_get_rx_vout env s).2 =
      p938x_handle_wls_removal env
        ⟨s.chip, s.tick + 1, s.log ++ [Ev.bulk_read VOUT_READ_REG 2]⟩ := by
    unfold p938x_get_rx_vout
    simp only [htc, Bool.not_true, Bool.false_eq_true, if_false]
    rw [← hst]
    split_ifs
    all_goals rfl
  unfold p938x_heartbeat_work
  simp only [htc, hldo, if_true, Bool.not_true, Bool.false_eq_true, if_false]
  rw [h1]
  generalize p938x_handle_wls_removal env
    ⟨s.chip, s.tick + 1, s.log ++ [Ev.bulk_read VOUT_READ_REG 2]⟩ = r at ra rs rh rlog ⊢
  obtain ⟨c2, rest2, l2, p2⟩ := get_rx_vout_set_detached env r ra
  generalize (p938x_get_rx_vout_set env r).2 = r2 at c2 l2 ⊢
  rw [get_rx_vrect_idle env r2 (by rw [c2]; exact rs)]
  dsimp only
  rw [get_rx_iout_idle env r2 (by rw [c2]; exact rs)]
  dsimp only
  obtain ⟨c3, rest3, l3, p3⟩ := get_rx_ocl_detached env r2 (by rw [c2]; exact ra)
  generalize (p938x_get_rx_ocl env r2).2 = r3 at c3 l3 ⊢
  refine ⟨?_, ?_, rest ++ rest2 ++ rest3, ?_, ?_⟩
  · simp [schedule_delayed_work, c3, c2, ra]
  · simp [schedule_delayed_work, c3, c2, rh, HEARTBEAT_INTERVAL_MS]
  · simp [schedule_delayed_work, l3, l2, rlog, HEARTBEAT_INTERVAL_MS, List.append_assoc]
  · intro e he
    rcases List.mem_append.mp he with h | h
    · rcases List.mem_append.mp h with h | h
      · exact rp e h
      · exact p2 e h
    · exact p3 e h

theorem heartbeat_queued_after_removal_witness :
    chip_charging.tx_attached = true ∧ chip_charging.stat &&& ST_VRECT_ON ≠ 0 ∧
    chip_charging.stat &&& ST_VOUT_ON ≠ 0 ∧ (env_fail_first 0).rc ≠ Rc.ok ∧
    chip_charging.heartbeat = none ∧
    (p938x_heartbeat_work env_fail_first ⟨chip_charging, 0, []⟩).chip.tx_attached = false ∧
    (p938x_heartbeat_work env_fail_first ⟨chip_charging, 0, []⟩).chip.heartbeat = some 60000 ∧
    (p938x_heartbeat_work env_fail_first ⟨chip_charging, 0, []⟩).log =
      [Ev.bulk_read VOUT_READ_REG 2, Ev.psy_changed, Ev.cancel_work, Ev.relax,
        Ev.reg_write 0x3040 0x80, Ev.msleep 100, Ev.schedule_work 60000] :=
  ⟨by decide, by decide, by decide, by decide, by decide,
    (heartbeat_queued_after_removal env_fail_first ⟨chip_charging, 0, []⟩ (by decide)
      (by decide) (by decide) (by decide)).1,
    (heartbeat_queued_after_removal env_fail_first ⟨chip_charging, 0, []⟩ (by decide)
      (by decide) (by decide) (by decide)).2.1,
    by decide⟩

/-- Claim C24: for an image of `n ≤ 65536` bytes whose chunks are all accepted
(the chunk loop of `p938x_program_mtp` runs to its end), the log of the
upload is that of `⌈n / 128⌉` packets in order, the `k`-th with start
address `128 k` and payload `image[128 k .. min (128 k + 128) n)`, each
followed by its validation byte and 1 to 32 status polls, and then the
calls of the finalisation; the payloads concatenated in order are the
image. -/
theorem program_mtp_sends_chunks_in_order (env : Env) (s : St) (image : List Nat)
    (hsize : image.length ≤ 65536)
    (hacc : (mtp_chunk_loop (p938x_program_mtp_package env) s image 0 image.length).1 = none) :
    (∃ polls : List Nat, polls.length = ⌈(image.length : ℚ) / 128⌉₊ ∧
      (∀ m ∈ polls, 1 ≤ m ∧ m ≤ 32) ∧
      ∃ tail, (p938x_program_mtp env s image image.length).2.log =
          s.log ++ upload_log image 0 polls ++ tail ∧
        tail <+: [Ev.reg_write 0x3000 0x5a, Ev.reg_write 0x3048 0x00, Ev.reg_write 0x3040 0x80,
          Ev.msleep 100]) ∧
    ((List.range ⌈(image.length : ℚ) / 128⌉₊).map (chunk_payload image)).flatten = image ∧
    (∀ k, chunk_payload image k =
      (image.take (min (128 * k + 128) image.length)).drop (128 * k)) := by
  rw [ceil_div_128]
  refine ⟨?_, ?_, ?_⟩
  · obtain ⟨polls, hlen, hb, hlog⟩ := mtp_chunk_loop_log env image hsize s image 0 image.length
      0 rfl rfl rfl hacc
    obtain ⟨tail, ht, hp⟩ := program_mtp_log_of_loop env s image image.length hacc
    exact ⟨polls, by simpa using hlen, hb, tail, by rw [ht, hlog], hp⟩
  · rw [chunks_join]
    exact List.take_of_length_le (by omega)
  · intro k
    unfold chunk_payload
    rw [List.drop_take]
    congr 1
    omega

theorem program_mtp_sends_chunks_in_order_witness :
    image_129.length ≤ 65536 ∧
    ((List.range ⌈(image_129.length : ℚ) / 128⌉₊).map (chunk_payload image_129)).flatten
      = image_129 :=
  ⟨by simp [image_129],
    (program_mtp_sends_chunks_in_order env_accept ⟨Chip.init, 0, []⟩ image_129
      (by simp [image_129])
      (mtp_chunk_loop_accept_all env_accept (fun _ => ⟨rfl, rfl⟩) _ _ _ _)).2.1⟩

/-- Claim C25: on a powered chip, for every request `ma` with clamped value
`c`, `p938x_set_rx_ocl` writes `(c - 100) / 100` to ILIMIT_SET, and when the
register is read back with that value `p938x_get_rx_ocl` returns
`((c - 100) / 100 mod 16) * 100 + 100`; this is `c` rounded down to a
multiple of 100 exactly when `c < 1700`. -/
theorem ocl_readback_exact_iff (env : Env) (s : St) (ma : Nat)
    (hon : p938x_is_chip_on s.chip = true)
    (hrd : (env (s.tick + 1)).rc = Rc.ok)
    (hecho : (env (s.tick + 1)).data.getD 0 0 = (min (max ma 500) 3000 - 100) / 100) :
    (p938x_set_rx_ocl env s ma).2.log =
      s.log ++ [Ev.reg_write ILIMIT_SET_REG ((min (max ma 500) 3000 - 100) / 100)] ∧
    (p938x_get_rx_ocl env (p938x_set_rx_ocl env s ma).2).1 =
      (((min (max ma 500) 3000 - 100) / 100 % 16 * 100 + 100 : Nat) : Int) ∧
    ((p938x_get_rx_ocl env (p938x_set_rx_ocl env s ma).2).1 =
        ((min (max ma 500) 3000 / 100 * 100 : Nat) : Int) ↔
      min (max ma 500) 3000 < 1700) := by
  rw [set_rx_ocl_on env s ma hon]
  dsimp only
  rw [get_rx_ocl_on env ⟨s.chip, s.tick + 1, _⟩ hon hrd]
  dsimp only
  rw [hecho]
  have hlt : (min (max ma 500) 3000 - 100) / 100 % 256 = (min (max ma 500) 3000 - 100) / 100 := by
    omega
  rw [hlt]
  refine ⟨rfl, rfl, ?_⟩
  rw [Int.ofNat_inj]
  omega

theorem ocl_readback_exact_iff_witness :
    p938x_is_chip_on chip_attached = true ∧ (env_ocl_echo (0 + 1)).rc = Rc.ok ∧
    (env_ocl_echo (0 + 1)).data.getD 0 0 = (min (max 3000 500) 3000 - 100) / 100 ∧
    (p938x_set_rx_ocl env_ocl_echo ⟨chip_attached, 0, []⟩ 3000).2.log =
      [Ev.reg_write ILIMIT_SET_REG 29] ∧
    (p938x_get_rx_ocl env_ocl_echo
      (p938x_set_rx_ocl env_ocl_echo ⟨chip_attached, 0, []⟩ 3000).2).1 = 1400 :=
  ⟨by decide, by decide, by decide,
    (ocl_readback_exact_iff env_ocl_echo ⟨chip_attached, 0, []⟩ 3000 (by decide) (by decide)
      (by decide)).1,
    (ocl_readback_exact_iff env_ocl_echo ⟨chip_attached, 0, []⟩ 3000 (by decide) (by decide)
      (by decide)).2.1⟩

/-- Claim C26: whatever the bus answers, and so for every upload that fails in
the bootstrap, in a chunk or in the finalisation, `p938x_program_fw` leaves
transmitter-attached, tx-mode-enabled, usb-connected, usb-keep-on, `stat`,
`irq_stat`, the mode and both limit overrides as they were; the chip state
differs from the one before at most in `program_fw_stat`, boost-enabled and
keep-awake. -/
theorem program_fw_frame (env : Env) (s : St) :
    (p938x_program_fw env s).2.chip.tx_attached = s.chip.tx_attached ∧
    (p938x_program_fw env s).2.chip.tx_mode_en = s.chip.tx_mode_en ∧
    (p938x_program_fw env s).2.chip.usb_connected = s.chip.usb_connected ∧
    (p938x_program_fw env s).2.chip.usb_keep_on = s.chip.usb_keep_on ∧
    (p938x_program_fw env s).2.chip.stat = s.chip.stat ∧
    (p938x_program_fw env s).2.chip.irq_stat = s.chip.irq_stat ∧
    (p938x_program_fw env s).2.chip.epp_mode = s.chip.epp_mode ∧
    (p938x_program_fw env s).2.chip.wls_vout_max = s.chip.wls_vout_max ∧
    (p938x_program_fw env s).2.chip.wls_iout_max = s.chip.wls_iout_max ∧
    (p938x_program_fw env s).2.chip =
      { s.chip with
        program_fw_stat := (p938x_program_fw env s).2.chip.program_fw_stat,
        boost_enabled := (p938x_program_fw env s).2.chip.boost_enabled,
        keep_awake := (p938x_program_fw env s).2.chip.keep_awake } := by
  obtain ⟨st, b, k, h⟩ := program_fw_chip env s
  rw [h]
  simp

/-- Claim C27, evaluated: when the first GPIO request fails, `p938x_hw_init`
disables the regulator and returns 0, as it does for any answers of the
GPIO calls once the regulator is enabled; and when the `dc` supply is not
found, `p938x_charger_probe` unregisters the supply, frees the chip and
returns 0. -/
theorem init_failure_returns_zero :
    (∀ (env : Env) (s : St), (env (s.tick + 1)).rc = Rc.ok →
      (env s.tick).data.headD 0 = 0 → (p938x_hw_init env s false).1 = 0) ∧
    (p938x_init_gpio env_fail_third ⟨chip_zeroed, 2, []⟩ Gpio.wchg_int_n false 0).1 ≠ 0 ∧
    p938x_hw_init env_fail_third ⟨chip_zeroed, 0, []⟩ false =
      (0, ⟨chip_zeroed, 3,
        [Ev.setup SetupCall.regulator_count_voltages, Ev.setup SetupCall.regulator_enable,
          Ev.setup (SetupCall.gpio_request_one Gpio.wchg_int_n),
          Ev.setup SetupCall.regulator_disable]⟩) ∧
    (p938x_charger_probe env_no_dc ⟨chip_zeroed, 0, []⟩).1 = 0 ∧
    (p938x_charger_probe env_no_dc ⟨chip_zeroed, 0, []⟩).2.chip.dc_psy = false ∧
    (p938x_charger_probe env_no_dc ⟨chip_zeroed, 0, []⟩).2.log.drop 27 =
      [Ev.setup SetupCall.regulator_disable, Ev.setup SetupCall.power_supply_get_by_name_dc,
        Ev.setup SetupCall.power_supply_unregister, Ev.setup SetupCall.devm_kfree] := by
  refine ⟨?_, by decide, by decide, by decide, by decide, by decide⟩
  intro env s h1 hc
  unfold p938x_hw_init setup_ask St.ask
  dsimp only
  have hcount : ¬ ((if (env s.tick).rc = Rc.ok then (((env s.tick).data.headD 0 : Nat) : Int)
      else (env s.tick).rc.toInt) > 0) := by
    split_ifs
    · rw [hc]; simp
    · have := rc_toInt_nonpos (env s.tick).rc
      omega
  rw [if_neg hcount]
  dsimp only
  rw [h1]
  simp only [Rc.toInt, ne_eq, not_true_eq_false, if_false]
  exact hw_init_lines_rc env _ 0

/-- Claim C28: from a state with all flags clear and no wake-up source call
made, after any sequence of status checks, removal events, boost requests,
tx-mode requests and firmware uploads, each against an arbitrary bus,
keep-awake is set exactly when boost-enabled or transmitter-attached is,
the log ends in the lock state that keep-awake records, and in the log no
acquisition follows an acquisition and no release follows a release. -/
theorem wake_lock_discipline (s0 : St) (ops : List (Op × Env)) (h0 : flags_clear s0.chip)
    (hlog : ∀ e ∈ s0.log, e.is_wake = false) :
    ((run_ops s0 ops).chip.keep_awake = true ↔
      ((run_ops s0 ops).chip.boost_enabled = true ∨
        (run_ops s0 ops).chip.tx_attached = true)) ∧
    wake_held (run_ops s0 ops).log = some (run_ops s0 ops).chip.keep_awake ∧
    wake_alternates (run_ops s0 ops).log := by
  obtain ⟨hb, ha, hk, _⟩ := h0
  have hinit : awake_inv s0 := by
    refine ⟨?_, ?_⟩
    · rw [hk]
      exact wake_replay_no_wake false s0.log (fun e he => by simp [ev_no_wake, hlog e he])
    · simp [p938x_is_chip_on, hb, ha, hk]
  obtain ⟨h1, h2⟩ := run_ops_inv s0 ops hinit
  refine ⟨?_, h1, wake_alternates_of_held _ _ h1⟩
  rw [h2]
  simp [p938x_is_chip_on]

theorem wake_lock_discipline_witness :
    flags_clear Chip.init ∧
    (run_ops ⟨Chip.init, 0, []⟩ ops_wake_demo).log.filter Ev.is_wake
      = [Ev.stay_awake, Ev.relax] ∧
    (run_ops ⟨Chip.init, 0, []⟩ ops_wake_demo).chip.keep_awake = false ∧
    wake_held (run_ops ⟨Chip.init, 0, []⟩ ops_wake_demo).log =
      some (run_ops ⟨Chip.init, 0, []⟩ ops_wake_demo).chip.keep_awake :=
  ⟨by decide, by decide, by decide,
    (wake_lock_discipline ⟨Chip.init, 0, []⟩ ops_wake_demo (by decide) (by simp)).2.1⟩

/-- Claim C29: for every image size and chunk address the unpadded and the
padded code length are at most 128 and the packet length is at most 144;
the packet buffer has 144 bytes, so the offsets `8 + i` of the payload copy
(`i < code_len`) and of the checksum loop (`i < padded length`) and the
offsets `i < packet_len` of the transmit loop all lie inside it. -/
theorem packet_indices_in_buffer (src : List Nat) (addr size : Nat) :
    mtp_code_len addr size ≤ 128 ∧ mtp_padded_len addr size ≤ 128 ∧
    mtp_packet_len addr size ≤ 144 ∧
    (mtp_packet_buf src addr size).length = 144 ∧
    (mtp_buf_payload src addr size).length = 144 ∧
    (∀ i, i < mtp_code_len addr size →
      FW_MTP_PACK_HEADER_LEN + i < (mtp_buf_payload src addr size).length) ∧
    (∀ i, i < mtp_padded_len addr size →
      i + FW_MTP_PACK_HEADER_LEN < (mtp_buf_payload src addr size).length) ∧
    (∀ i, i < mtp_packet_len addr size → i < (mtp_packet_buf src addr size).length) := by
  have hb := mtp_padded_len_bounds addr size
  have hc := mtp_code_len_le addr size
  have hl : (mtp_packet_buf src addr size).length = 144 := mtp_packet_buf_length src addr size
  have hp : (mtp_buf_payload src addr size).length = 144 := by
    rw [mtp_buf_payload_eq]
    simp [mtp_payload_region_length]
  refine ⟨hc, hb.2.1, hb.2.2.2, hl, hp, ?_, ?_, ?_⟩
  · intro i hi; rw [hp]; simp only [FW_MTP_PACK_HEADER_LEN]; omega
  · intro i hi; rw [hp]; simp only [FW_MTP_PACK_HEADER_LEN]; omega
  · intro i hi; rw [hl]; omega

/-- Claim C30: `p938x_enable_charging` does the same for `true` and for
`false`, and so does the CHARGING_ENABLED property write for any two
values: with a transmitter connected one write of 0x02 to SYS_CMD whose
code is returned, otherwise no call and the result 1. -/
theorem enable_charging_ignores_argument (env : Env) (s : St) :
    p938x_enable_charging env s true = p938x_enable_charging env s false ∧
    (∀ v w : Int, p938x_wls_set_prop env s WlsProp.CHARGING_ENABLED v =
      p938x_wls_set_prop env s WlsProp.CHARGING_ENABLED w) ∧
    (p938x_is_tx_connected s.chip = true → ∀ b, p938x_enable_charging env s b =
      ((env s.tick).rc.toInt, ⟨s.chip, s.tick + 1, s.log ++ [Ev.reg_write 0x4C 0x02]⟩)) ∧
    (p938x_is_tx_connected s.chip = false → ∀ b, p938x_enable_charging env s b = (1, s)) := by
  refine ⟨rfl, fun v w => rfl, ?_, ?_⟩
  · intro h b
    simp [p938x_enable_charging, h, p938x_write_reg, regmap_write, St.ask, SYS_CMD_REG,
      CMD_RX_TOGGLE_LDO]
  · intro h b
    simp [p938x_enable_charging, h]

end P938x
